import Mathlib

/-!
Verification of the `deterministic-figma-to-code` pipeline.

This file gives a shallow embedding of the repository's core pipeline:

* `src/parsers/ui-tree.parser.ts` (the semantic tree builder,
  `generateUITree` / `parseFigmaNode` and its helpers), and
* `src/generators/code-generator.ts` together with
  `src/generators/component-map.ts` (the JSX emitter).

Modelling conventions, used consistently below:

* JS strings are `List Char` (`Str`); JS numbers are `Rat` (the source never
  relies on float rounding errors; `Math.round` and `toFixed` are modelled
  with exact rational arithmetic, rounding half towards +infinity as the
  JS spec does for these operations on the values in range here).
* A JS object field that may be `undefined` is an `Option`.  A `children`
  field of a raw Figma node is modelled as a plain list: the parser only
  ever iterates, maps or takes the length of `children`, so `undefined`
  and `[]` are indistinguishable to it.
* `Array.prototype.sort` is modelled twice.  The pipeline embedding uses
  a stable bottom-up merge sort (`jsSortBy`), which agrees with the engine
  whenever the comparator is consistent on the inputs.  The sibling-order
  claim is settled against `v8SortSmall`, an exact model of the sort Node
  actually runs (V8 TimSort), which for fewer than 64 elements is run
  detection plus binary insertion and performs no merging; the two models
  differ exactly in the inconsistent-comparator regime (children with
  missing bounding boxes compare as 0).
* Mutable accumulation (`results.push(...)`, `set.add(...)`) is modelled
  by explicit accumulator passing / returned values.
* Reference equality `child !== textChild` on nodes taken from the same
  parsed JSON tree is modelled positionally (two distinct array positions
  are distinct objects in JS, even if structurally equal).
* The parser's recursion is not structural (children are re-sorted before
  the recursive call), so `parseGo` takes an explicit fuel argument; the
  public `parseFigmaNode` supplies `figDepth n`, which is always enough
  fuel (`parseGo_fuel` below shows fuel irrelevance past the depth).
-/

/-! ## Strings and JS primitives -/

abbrev Str : Type := List Char

/-- The apostrophe character (U+0027), used in emitted import lines. -/
def sqCh : Char := Char.ofNat 39

/-- JS whitespace for `String.prototype.trim` (ASCII fragment; the names in
a Figma document are ASCII in every scenario of the spec). -/
def jsWhite (c : Char) : Bool :=
  c = ' ' || c = '\t' || c = '\n' || c = '\r'

/-- `String.prototype.trim`. -/
def trimL (s : Str) : Str :=
  ((s.dropWhile jsWhite).reverse.dropWhile jsWhite).reverse

/-- `a.endsWith b`. -/
def endsWithL (s suffx : Str) : Bool := suffx.isSuffixOf s

/-- `a.startsWith b`. -/
def startsWithL (s pre : Str) : Bool := pre.isPrefixOf s

/-- `a.includes b` (substring containment). -/
def includesL (s sub : Str) : Bool := decide (sub <:+: s)

/-- ASCII `String.prototype.toLowerCase`. -/
def lowerL (s : Str) : Str := s.map fun c => if 'A' ≤ c && c ≤ 'Z' then Char.ofNat (c.toNat + 32) else c

/-- One character of ASCII `String.prototype.toUpperCase`. -/
def upChar (c : Char) : Char := if 'a' ≤ c && c ≤ 'z' then Char.ofNat (c.toNat - 32) else c

/-- ASCII `String.prototype.toUpperCase`. -/
def upperL (s : Str) : Str := s.map upChar

/-- Split at the first underscore: `name.indexOf('_')` plus the two
`slice`s.  Returns `none` when there is no underscore, otherwise the part
before and the part after the first `'_'`. -/
def splitUnderscore : Str → Option (Str × Str)
  | [] => none
  | c :: cs =>
    if c = '_' then some ([], cs)
    else
      match splitUnderscore cs with
      | some (pre, suffx) => some (c :: pre, suffx)
      | none => none

/-- The regex `^[A-Z_]+$`. -/
def allCapsU (s : Str) : Bool :=
  !s.isEmpty && s.all fun c => ('A' ≤ c && c ≤ 'Z') || c = '_'

/-- The regex `^[^_]+_([A-Z_]+)$` (the `Name_TYPE` component pattern used
by the skip rule). -/
def looksLikeComponent (s : Str) : Bool :=
  match splitUnderscore s with
  | none => false
  | some (pre, suffx) => !pre.isEmpty && allCapsU suffx

/-- JS `Math.round`: round half towards +infinity. -/
def jsRound (q : Rat) : Int := ⌊q + 1/2⌋

/-- Decimal digits of a natural number, most significant first. -/
def natDigits (n : Nat) : Str := Nat.toDigits 10 n

/-- Integer to string, as JS renders integral numbers. -/
def intStr (i : Int) : Str :=
  if i < 0 then '-' :: natDigits i.natAbs else natDigits i.natAbs

/-- Two-digit zero-padded decimal rendering of `n < 100`. -/
def pad2 (n : Nat) : Str :=
  if n < 10 then '0' :: natDigits n else natDigits n

/-- JS `Number.prototype.toFixed(2)` for the non-negative values that reach
it here: round `q * 100` half-up and print with exactly two decimals. -/
def jsToFixed2 (q : Rat) : Str :=
  let n : Nat := (jsRound (q * 100)).toNat
  natDigits (n / 100) ++ '.' :: pad2 (n % 100)

/-- JS number rendering for a rational with terminating decimal expansion:
integers print without a point, other values with their (shortest exact)
decimal expansion.  Every number flowing through the pipeline comes from a
decimal JSON literal or integer arithmetic on such, so this total
fallback-free search up to 30 fractional digits is exact on all inputs the
program can see. -/
def jsNumToStr (q : Rat) : Str :=
  if q.den = 1 then intStr q.num
  else
    let sign : Str := if q < 0 then ['-'] else []
    let a : Rat := |q|
    match (List.range 30).find? (fun k => (a * (10 ^ (k + 1) : Nat)).den = 1) with
    | some k =>
        let n : Nat := (a * (10 ^ (k + 1) : Nat)).num.toNat
        let frac : Str := natDigits (n % 10 ^ (k + 1))
        let fracPadded : Str := List.replicate (k + 1 - frac.length) '0' ++ frac
        sign ++ natDigits (n / 10 ^ (k + 1)) ++ '.' :: fracPadded
    | none => sign ++ natDigits a.num.toNat ++ '/' :: natDigits a.den

/-- `'  '.repeat(depth)`. -/
def indentStr (depth : Nat) : Str := List.replicate (2 * depth) ' '

/-- `Array.prototype.join(sep)`. -/
def joinSep (sep : Str) (l : List Str) : Str := List.intercalate sep l

/-- Lexicographic UTF-16-style comparison used by `Array.prototype.sort()`
with no comparator (the import lists are ASCII). -/
def strLe : Str → Str → Bool
  | [], _ => true
  | _ :: _, [] => false
  | a :: as', b :: bs => if a = b then strLe as' bs else decide (a < b)

/-! ## Stable sort model for `Array.prototype.sort(cmp)`

A bottom-up stable merge sort: `jsSortBy le l` merges adjacent runs,
taking from the left run on ties (`le a b = true` keeps `a` first).  This
is the pipeline's model of the child sort.  Being stable, it agrees with
the engine's TimSort on every input where the comparator is consistent;
where the comparator is inconsistent (children with missing bounding
boxes compare as 0) the two can produce different permutations, so the
sibling-order claim is settled against the engine-exact model
`v8SortSmall` defined further below, not against `jsSortBy`. -/

/-- One pass merging adjacent runs. -/
def mergePairs (le : α → α → Bool) : List (List α) → List (List α)
  | a :: b :: rest => a.merge b le :: mergePairs le rest
  | rs => rs

/-- Merge runs to a single list; the fuel is at least the number of runs,
which halves each pass. -/
def mergeRuns (le : α → α → Bool) : Nat → List (List α) → List α
  | _, [] => []
  | _, [r] => r
  | 0, rs => rs.flatten
  | f + 1, rs => mergeRuns le f (mergePairs le rs)

/-- Stable merge sort modelling `Array.prototype.sort(cmp)` with
`le a b = (cmp a b ≤ 0)`. -/
def jsSortBy (le : α → α → Bool) (l : List α) : List α :=
  mergeRuns le l.length (l.map fun x => [x])

/-! ## Raw Figma node data model (whitelisted fields, ui-tree.parser.ts)

The `FigmaNode` interface of the parser plus the fields it reads through
`(figmaNode as any)` (`strokeWeight`, `cornerRadius`, `fontWeight`,
`fontFamily`), which are exactly the whitelisted fields of the spec.  The
index signature `[key: string]: unknown` (fields present in the JSON but
never consulted) is modelled by `extra`. -/

structure FigColor where
  r : Rat
  g : Rat
  b : Rat
  a : Option Rat
deriving DecidableEq

structure Paint where
  type : Str
  visible : Option Bool
  opacity : Option Rat
  color : Option FigColor
deriving DecidableEq

structure FigEffect where
  type : Str
  visible : Option Bool
deriving DecidableEq

structure FigBox where
  x : Rat
  y : Rat
  width : Rat
  height : Rat
deriving DecidableEq

structure FigTextStyle where
  fontSize : Option Rat
  fontWeight : Option Rat
  fontFamily : Option Str
deriving DecidableEq

structure FigFields where
  id : Str := []
  name : Option Str := none
  type : Str := []
  visible : Option Bool := none
  opacity : Option Rat := none
  characters : Option Str := none
  layoutMode : Option Str := none
  itemSpacing : Option Rat := none
  paddingLeft : Option Rat := none
  paddingRight : Option Rat := none
  paddingTop : Option Rat := none
  paddingBottom : Option Rat := none
  counterAxisAlignItems : Option Str := none
  absoluteBoundingBox : Option FigBox := none
  style : Option FigTextStyle := none
  strokes : Option (List Paint) := none
  fills : Option (List Paint) := none
  strokeWeight : Option Rat := none
  effects : Option (List FigEffect) := none
  cornerRadius : Option Rat := none
  extra : List (Str × Str) := []
deriving DecidableEq

/-- A raw Figma node: whitelisted fields plus children. -/
inductive FigmaNode where
  | mk (flds : FigFields) (children : List FigmaNode)

def FigmaNode.flds : FigmaNode → FigFields
  | .mk f _ => f

def FigmaNode.children : FigmaNode → List FigmaNode
  | .mk _ c => c

/-- `figmaNode.name || ''`. -/
def nameOr (n : FigmaNode) : Str := (n.flds.name).getD []

/-- `figmaNode.characters || ''`. -/
def charsOr (n : FigmaNode) : Str := (n.flds.characters).getD []

/-- JS `a || b` where `a` is an optional string (empty string is falsy). -/
def orStr (a : Option Str) (b : Str) : Str :=
  match a with
  | some s => if s.isEmpty then b else s
  | none => b

/-- Truthiness of an optional string (`undefined` and `''` are falsy). -/
def strTruthy (a : Option Str) : Bool :=
  match a with
  | some s => !s.isEmpty
  | none => false

/-- Truthiness of an optional number (`undefined` and `0` are falsy). -/
def numTruthy (a : Option Rat) : Bool :=
  match a with
  | some q => q ≠ 0
  | none => false

/-! ## UITree node data model (src/types/ui-tree.ts)

Fields exactly as consumed by the parser and the emitter.  `props.source`,
`props.leftElement` and `props.rightElement` (node/object-valued props read
by the `AVATAR`/`LISTITEM` prop mappers but never produced by this
repository's parser) are omitted; the corresponding mapper entries below
read them as always-undefined. -/

inductive PadVal where
  | num (q : Rat)
  | sides (top right bottom left : Option Rat)
deriving DecidableEq

/-- JS truthiness of a `padding` value (`0` is falsy, objects are truthy). -/
def PadVal.truthy : PadVal → Bool
  | .num q => q ≠ 0
  | .sides _ _ _ _ => true

structure UILayout where
  direction : Option Str := none
  gap : Option Rat := none
  padding : Option PadVal := none
  align : Option Str := none
deriving DecidableEq

structure GradPt where
  x : Rat
  y : Rat
deriving DecidableEq

structure GradStop where
  color : Str
  offset : Rat
deriving DecidableEq

structure Gradient where
  type : Str
  start : GradPt
  stop : GradPt
  stops : List GradStop
deriving DecidableEq

structure UIStyles where
  backgroundColor : Option Str := none
  borderColor : Option Str := none
  backgroundGradient : Option Gradient := none
  borderWidth : Option Rat := none
  borderRadius : Option Rat := none
  opacity : Option Rat := none
  textColor : Option Str := none
  fontSize : Option Rat := none
  fontWeight : Option Rat := none
  fontFamily : Option Str := none
deriving DecidableEq

structure StyleHints where
  variant : Option Str := none
  size : Option Str := none
deriving DecidableEq

structure UIProps where
  disabled : Option Bool := none
  selected : Option Bool := none
  checked : Option Bool := none
  horizontal : Option Bool := none
  itemSeparator : Option Bool := none
  leftIcon : Option Str := none
  rightIcon : Option Str := none
  icon : Option Str := none
  label : Option Str := none
  placeholder : Option Str := none
  name : Option Str := none
  size : Option Str := none
  imageUrl : Option Str := none
  variant : Option Str := none
  padding : Option Str := none
deriving DecidableEq

structure UIAction where
  type : Str
deriving DecidableEq

structure UIFields where
  id : Str := []
  componentType : Str := []
  componentName : Option Str := none
  role : Option Str := none
  text : Option Str := none
  title : Option Str := none
  subtitle : Option Str := none
  layout : Option UILayout := none
  styles : Option UIStyles := none
  styleHints : Option StyleHints := none
  props : Option UIProps := none
  action : Option UIAction := none
  bounds : Option FigBox := none
deriving DecidableEq

inductive UITreeNode where
  | mk (flds : UIFields) (children : Option (List UITreeNode))

def UITreeNode.flds : UITreeNode → UIFields
  | .mk f _ => f

def UITreeNode.children : UITreeNode → Option (List UITreeNode)
  | .mk _ c => c

def UITreeNode.componentType (t : UITreeNode) : Str := t.flds.componentType

/-- `node.children` defaulted to the empty list. -/
def UITreeNode.childrenD (t : UITreeNode) : List UITreeNode := t.children.getD []

/-- Functional update of the scalar fields (models field assignment). -/
def UITreeNode.updF (t : UITreeNode) (g : UIFields → UIFields) : UITreeNode :=
  .mk (g t.flds) t.children

/-- Set the `children` field. -/
def UITreeNode.withChildren (t : UITreeNode) (c : Option (List UITreeNode)) : UITreeNode :=
  .mk t.flds c

/-- `node.props = node.props || {}` followed by updates of `node.props`. -/
def UITreeNode.updProps (t : UITreeNode) (g : UIProps → UIProps) : UITreeNode :=
  t.updF fun f => { f with props := some (g (f.props.getD {})) }

/-- `node.styleHints = node.styleHints || {}` followed by updates. -/
def UITreeNode.updHints (t : UITreeNode) (g : StyleHints → StyleHints) : UITreeNode :=
  t.updF fun f => { f with styleHints := some (g (f.styleHints.getD {})) }

/-! ## Name classifier (`parseComponentName`) -/

structure ParsedName where
  componentName : Option Str
  componentType : Str
  role : Str
deriving DecidableEq

/-- `parseComponentName` (ui-tree.parser.ts): split at the first
underscore; the suffix is trimmed and must match `^[A-Z_]+$`, otherwise the
type is `UNKNOWN`; the prefix is trimmed; empty strings become
`undefined`. -/
def parseComponentName (fullName : Str) : ParsedName :=
  match splitUnderscore fullName with
  | none =>
      { componentName := if fullName.isEmpty then none else some fullName,
        componentType := "UNKNOWN".toList, role := fullName }
  | some (pre, suffx) =>
      let componentType := trimL suffx
      if allCapsU componentType then
        let componentName := trimL pre
        { componentName := if componentName.isEmpty then none else some componentName,
          componentType := componentType, role := fullName }
      else
        { componentName := if fullName.isEmpty then none else some fullName,
          componentType := "UNKNOWN".toList, role := fullName }

/-! ## Skip rule and root search -/

/-- `shouldSkipNode`. -/
def shouldSkipNode (n : FigmaNode) : Bool :=
  if n.flds.type = "TEXT".toList then false
  else
    let name := nameOr n
    let looksLike := looksLikeComponent name
    let singleTextChild :=
      (n.flds.type = "FRAME".toList || n.flds.type = "COMPONENT".toList) &&
        (match n.children with
         | [c] => c.flds.type = "TEXT".toList && !(name.contains '_')
         | _ => false)
    if singleTextChild then false
    else if !looksLike then true
    else if n.flds.type = "DOCUMENT".toList || n.flds.type = "CANVAS".toList
            || n.flds.type = "PAGE".toList then true
    else false

mutual
/-- `findTopLevelComponent`: DFS returning the first non-skipped node. -/
def findTopLevelComponent : FigmaNode → Option FigmaNode
  | .mk f cs =>
    if shouldSkipNode (.mk f cs) then findTopInList cs else some (.mk f cs)

def findTopInList : List FigmaNode → Option FigmaNode
  | [] => none
  | c :: cs =>
    match findTopLevelComponent c with
    | some r => some r
    | none => findTopInList cs
end

/-! ## Style and layout extraction -/

/-- `n.toString(16).padStart(2, '0')`. -/
def toHexByte (i : Int) : Str :=
  let s : Str := if i < 0 then '-' :: Nat.toDigits 16 i.natAbs else Nat.toDigits 16 i.toNat
  if s.length < 2 then '0' :: s else s

/-- `figmaColorToHex(color, opacity)`. -/
def figmaColorToHex (color : FigColor) (opacity : Rat) : Str :=
  let finalAlpha := (color.a.getD 1) * opacity
  if finalAlpha = 0 then "transparent".toList
  else
    let r := jsRound (color.r * 255)
    let g := jsRound (color.g * 255)
    let b := jsRound (color.b * 255)
    if finalAlpha < 1 then
      "rgba(".toList ++ intStr r ++ ", ".toList ++ intStr g ++ ", ".toList
        ++ intStr b ++ ", ".toList ++ jsToFixed2 finalAlpha ++ ")".toList
    else
      upperL ('#' :: (toHexByte r ++ toHexByte g ++ toHexByte b))

/-- The `find` predicate used on `fills`/`strokes`:
`visible !== false && type === 'SOLID' && color`. -/
def findSolidPaint (ps : List Paint) : Option Paint :=
  ps.find? fun p => p.visible ≠ some false && p.type = "SOLID".toList && p.color.isSome

/-- `extractStyles` (background, border, corner radius, opacity, text
styles; `hasStyles` gating the return value). -/
def extractStyles (n : FigmaNode) : Option UIStyles :=
  let bg : Option Str :=
    match (n.flds.fills.bind findSolidPaint) with
    | some p =>
      match p.color with
      | some c =>
        let col := figmaColorToHex c (p.opacity.getD 1)
        if col = "transparent".toList then none else some col
      | none => none
    | none => none
  let border : Option (Str × Rat) :=
    match (n.flds.strokes.bind findSolidPaint) with
    | some p =>
      match p.color with
      | some c => some (figmaColorToHex c (p.opacity.getD 1), n.flds.strokeWeight.getD 1)
      | none => none
    | none => none
  let opac : Option Rat :=
    match n.flds.opacity with
    | some q => if q < 1 then some q else none
    | none => none
  let isTextish := n.flds.type = "TEXT".toList || strTruthy n.flds.characters
  let fs : Option Rat :=
    if isTextish then
      match n.flds.style with
      | some st => if numTruthy st.fontSize then st.fontSize else none
      | none => none
    else none
  let fw : Option Rat :=
    if isTextish then
      match n.flds.style with
      | some st => if numTruthy st.fontWeight then st.fontWeight else none
      | none => none
    else none
  let ff : Option Str :=
    if isTextish then
      match n.flds.style with
      | some st => if strTruthy st.fontFamily then st.fontFamily else none
      | none => none
    else none
  let tcol : Option Str :=
    if isTextish then
      match (n.flds.fills.bind findSolidPaint) with
      | some p =>
        match p.color with
        | some c => some (figmaColorToHex c (p.opacity.getD 1))
        | none => none
      | none => none
    else none
  let hasStyles := bg.isSome || border.isSome || n.flds.cornerRadius.isSome || opac.isSome
      || fs.isSome || fw.isSome || ff.isSome || tcol.isSome
  if hasStyles then
    some { backgroundColor := bg,
           borderColor := border.map Prod.fst,
           borderWidth := border.map Prod.snd,
           borderRadius := n.flds.cornerRadius,
           opacity := opac,
           fontSize := fs, fontWeight := fw, fontFamily := ff,
           textColor := tcol }
  else none

/-- `extractBounds`. -/
def extractBounds (n : FigmaNode) : Option FigBox :=
  n.flds.absoluteBoundingBox.map fun b =>
    { x := b.x, y := b.y, width := b.width, height := b.height }

/-- `extractLayout`.  An `align` key is created (possibly with value
`undefined`) whenever `counterAxisAlignItems` is truthy, which is what the
`Object.keys(layout).length > 0` test observes. -/
def extractLayout (n : FigmaNode) : Option UILayout :=
  let f := n.flds
  let dir : Option Str :=
    if f.layoutMode = some "HORIZONTAL".toList then some "horizontal".toList
    else if f.layoutMode = some "VERTICAL".toList then some "vertical".toList
    else none
  let gap := f.itemSpacing
  let hasPadding := f.paddingTop.isSome || f.paddingRight.isSome
      || f.paddingBottom.isSome || f.paddingLeft.isSome
  let padding : Option PadVal :=
    if hasPadding then
      match f.paddingTop, f.paddingRight, f.paddingBottom, f.paddingLeft with
      | some t, some r, some b, some l =>
        if t = r ∧ r = b ∧ b = l then some (.num t)
        else some (.sides (some t) (some r) (some b) (some l))
      | t, r, b, l => some (.sides t r b l)
    else none
  let alignKey := strTruthy f.counterAxisAlignItems
  let align : Option Str :=
    if f.counterAxisAlignItems = some "MIN".toList then some "start".toList
    else if f.counterAxisAlignItems = some "CENTER".toList then some "center".toList
    else if f.counterAxisAlignItems = some "MAX".toList then some "end".toList
    else if f.counterAxisAlignItems = some "STRETCH".toList then some "stretch".toList
    else none
  if dir.isSome || gap.isSome || padding.isSome || alignKey then
    some { direction := dir, gap := gap, padding := padding, align := align }
  else none

/-- `extractVariant` (button/chip variants from fills and strokes). -/
def extractVariant (n : FigmaNode) (t : UITreeNode) : UITreeNode :=
  let hasStrokes :=
    match n.flds.strokes with
    | some ss => !ss.isEmpty && ss.any fun s => s.visible ≠ some false
    | none => false
  let hasFills :=
    match n.flds.fills with
    | some fs => !fs.isEmpty && fs.any fun p => p.visible ≠ some false && p.type = "SOLID".toList
    | none => false
  let v : Str :=
    if hasStrokes && !hasFills then "outline".toList
    else if hasFills then "regular".toList
    else "ghost".toList
  t.updHints fun sh => { sh with variant := some v }

/-- `extractCardVariant`: elevated (shadow) > outlined (stroke) > filled. -/
def extractCardVariant (n : FigmaNode) (t : UITreeNode) : UITreeNode :=
  let hasShadow :=
    match n.flds.effects with
    | some es => es.any fun e => e.visible ≠ some false && e.type = "DROP_SHADOW".toList
    | none => false
  if hasShadow then t.updProps fun p => { p with variant := some "elevated".toList }
  else
    let hasStroke :=
      match n.flds.strokes with
      | some ss => !ss.isEmpty && ss.any fun s => s.visible ≠ some false
      | none => false
    if hasStroke then t.updProps fun p => { p with variant := some "outlined".toList }
    else t.updProps fun p => { p with variant := some "filled".toList }

/-- `isGrey`. -/
def isGrey (c : Option FigColor) : Bool :=
  match c with
  | none => false
  | some c =>
    decide (|c.r - c.g| < 0.05) && decide (|c.g - c.b| < 0.05) && decide (|c.r - c.b| < 0.05)

/-- `isDisabled` (opacity fade or grey fill). -/
def isDisabled (n : FigmaNode) : Bool :=
  (match n.flds.opacity with
   | some q => decide (q < 0.9)
   | none => false) ||
  (match n.flds.fills.bind findSolidPaint with
   | some p => isGrey p.color
   | none => false)

/-- `isFigmaNodeIcon`. -/
def isFigmaNodeIcon (n : FigmaNode) : Bool :=
  let ct := (parseComponentName (nameOr n)).componentType
  if ct = "ICON".toList || ct = "SVG".toList then true
  else if n.flds.type = "INSTANCE".toList && includesL (lowerL (nameOr n)) "icon".toList then true
  else n.flds.type = "VECTOR".toList

/-- `isLayoutContainer`. -/
def isLayoutContainer (ct : Str) : Bool :=
  ["VIEW", "SCROLLABLE_VIEW", "HEADER", "TOPBAR", "SAFEAREAVIEW", "CARD", "BUTTON",
   "INPUT", "SEARCHABLE_INPUT", "DROPDOWN", "CHECKBOX", "RADIO", "CHIP"].any
    fun s => s.toList = ct

mutual
/-- `hasSemanticContent` (text/title/subtitle, or a non-VIEW or contentful
descendant). -/
def hasSemanticContent : UITreeNode → Bool
  | .mk f cs =>
    if strTruthy f.text || strTruthy f.title || strTruthy f.subtitle then true
    else
      match cs with
      | some l => hasSemAny l
      | none => false

def hasSemAny : List UITreeNode → Bool
  | [] => false
  | c :: cs => (c.componentType ≠ "VIEW".toList || hasSemanticContent c) || hasSemAny cs
end

/-! ## Text collection helpers -/

mutual
/-- `findFirstTextDescendant` (first DFS `TEXT` node with a truthy name). -/
def findFirstTextDescendant : FigmaNode → Option FigmaNode
  | .mk f cs =>
    if f.type = "TEXT".toList && strTruthy f.name then some (.mk f cs)
    else findFirstTextInList cs

def findFirstTextInList : List FigmaNode → Option FigmaNode
  | [] => none
  | c :: cs =>
    match findFirstTextDescendant c with
    | some t => some t
    | none => findFirstTextInList cs
end

mutual
/-- `collectAllTextNodes` (used by the `_TEXT` wrapper rule T2). -/
def collectAllTextNodes : FigmaNode → List UITreeNode
  | .mk f cs =>
    if f.type = "TEXT".toList then
      [ .mk { id := f.id, componentType := "TEXT".toList,
              componentName := some (orStr f.name "Text".toList),
              text := some (f.characters.getD []),
              styles := extractStyles (.mk f cs) } none ]
    else collectAllTextInList cs

def collectAllTextInList : List FigmaNode → List UITreeNode
  | [] => []
  | c :: cs => collectAllTextNodes c ++ collectAllTextInList cs
end

mutual
/-- `collectTextDescendants` with its push limit (accumulator-passing). -/
def collectTextDescendants (limit : Nat) : FigmaNode → List Str → List Str
  | .mk f cs, acc =>
    if acc.length ≥ limit then acc
    else if f.type = "TEXT".toList && strTruthy f.name then acc ++ [f.name.getD []]
    else collectTextDescList limit cs acc

def collectTextDescList (limit : Nat) : List FigmaNode → List Str → List Str
  | [], acc => acc
  | c :: cs, acc => collectTextDescList limit cs (collectTextDescendants limit c acc)
end

/-- `extractTextChildren` (first direct TEXT child's name into `text`,
font size into merged `styleHints.size`). -/
def extractTextChildren (n : FigmaNode) (t : UITreeNode) : UITreeNode :=
  let textChildren := n.children.filter fun c => c.flds.type = "TEXT".toList
  match textChildren with
  | [] => t
  | first :: _ =>
    if strTruthy first.flds.name then
      let t1 := t.updF fun f => { f with text := some (first.flds.name.getD []) }
      match first.flds.style with
      | some st =>
        match st.fontSize with
        | some fs =>
          if fs ≠ 0 then
            if 12 ≤ fs ∧ fs ≤ 14 then t1.updHints fun sh => { sh with size := some "sm".toList }
            else if 15 ≤ fs ∧ fs ≤ 17 then t1.updHints fun sh => { sh with size := some "md".toList }
            else if 18 ≤ fs then t1.updHints fun sh => { sh with size := some "lg".toList }
            else t1
          else t1
        | none => t1
      | none => t1
    else t

/-! ## Specialized leaf parsers -/

/-- Attach `extractLayout` when extraction succeeds. -/
def attachLayout (n : FigmaNode) (t : UITreeNode) : UITreeNode :=
  match extractLayout n with
  | some l => t.updF fun f => { f with layout := some l }
  | none => t

/-- `parseTextNode` (text from the name; `styleHints` replaced, not
merged, by the size rule). -/
def parseTextNode (n : FigmaNode) (t : UITreeNode) : UITreeNode :=
  let t1 :=
    if strTruthy n.flds.name then t.updF fun f => { f with text := some (n.flds.name.getD []) }
    else t
  match n.flds.style with
  | some st =>
    match st.fontSize with
    | some fs =>
      if fs ≠ 0 then
        if 12 ≤ fs ∧ fs ≤ 14 then t1.updF fun f => { f with styleHints := some { size := some "sm".toList } }
        else if 15 ≤ fs ∧ fs ≤ 17 then t1.updF fun f => { f with styleHints := some { size := some "md".toList } }
        else if 18 ≤ fs then t1.updF fun f => { f with styleHints := some { size := some "lg".toList } }
        else t1
      else t1
    | none => t1
  | none => t1

/-- Scan the direct children for the node `findFirstTextDescendant` would
return, remembering at which child position the DFS succeeded and whether
the returned object *is* that direct child (models `child !== textChild`,
which is reference equality in the source). -/
def findTextScanIdx : List FigmaNode → Nat → Option (FigmaNode × Option Nat)
  | [], _ => none
  | c :: cs, i =>
    match findFirstTextDescendant c with
    | some t =>
      some (t, if c.flds.type = "TEXT".toList && strTruthy c.flds.name then some i else none)
    | none => findTextScanIdx cs (i + 1)

/-- The `children.filter(...)` icon selection shared by BUTTON and CHIP,
with positions retained (reference-equality modelling). -/
def iconPairsOf (children : List FigmaNode) (textIdx : Option Nat) : List (Nat × FigmaNode) :=
  children.enum.filter fun (ic : Nat × FigmaNode) =>
    ic.2.flds.visible ≠ some false &&
      (match textIdx with
       | some j => ic.1 ≠ j
       | none => true) &&
      isFigmaNodeIcon ic.2

/-- `componentName || iconNode.name || 'Icon'`. -/
def cleanIconName (ic : FigmaNode) : Str :=
  orStr (parseComponentName (nameOr ic)).componentName (orStr ic.flds.name "Icon".toList)

/-- The text/size step of `parseButtonNode`. -/
def btnText (scan : Option (FigmaNode × Option Nat)) (t : UITreeNode) : UITreeNode :=
  match scan with
  | some (tc, _) =>
    let t := t.updF fun f => { f with text := some (orStr tc.flds.characters (nameOr tc)) }
    match tc.flds.style with
    | some st =>
      match st.fontSize with
      | some fs =>
        if fs ≠ 0 then
          if fs ≤ 12 then t.updHints fun sh => { sh with size := some "sm".toList }
          else if 13 ≤ fs ∧ fs ≤ 16 then t.updHints fun sh => { sh with size := some "md".toList }
          else if 17 ≤ fs then t.updHints fun sh => { sh with size := some "lg".toList }
          else t
        else t
      | none => t
    | none => t
  | none => t

/-- The left/right icon step of `parseButtonNode`. -/
def btnIcons (scan : Option (FigmaNode × Option Nat)) (iconPairs : List (Nat × FigmaNode))
    (t : UITreeNode) : UITreeNode :=
  match scan with
  | some (tc, _) =>
    if iconPairs.isEmpty then t
    else
      let textX : Rat := (tc.flds.absoluteBoundingBox.map FigBox.x).getD 0
      iconPairs.foldl
        (fun (t : UITreeNode) (ic : Nat × FigmaNode) =>
          let iconX : Rat := (ic.2.flds.absoluteBoundingBox.map FigBox.x).getD 0
          if iconX < textX then t.updProps fun p => { p with leftIcon := some (cleanIconName ic.2) }
          else t.updProps fun p => { p with rightIcon := some (cleanIconName ic.2) })
        t
  | none => t

/-- The opacity-fade step of `parseButtonNode`. -/
def btnOpacity (n : FigmaNode) (t : UITreeNode) : UITreeNode :=
  match n.flds.opacity with
  | some q => if q < 0.9 then t.updProps fun p => { p with disabled := some true } else t
  | none => t

/-- `parseButtonNode`. -/
def parseButtonNode (n : FigmaNode) (t : UITreeNode) : UITreeNode :=
  let t := attachLayout n t
  let t := t.updHints id
  let t := t.updProps id
  let t := extractVariant n t
  let scan := findTextScanIdx n.children 0
  let t := btnText scan t
  let iconPairs := iconPairsOf n.children (scan.bind (·.2))
  let t := btnIcons scan iconPairs t
  let t := btnOpacity n t
  t.updF fun f => { f with action := some { type := "press".toList } }

/-- `parseChipNode`. -/
def parseChipNode (n : FigmaNode) (t : UITreeNode) : UITreeNode :=
  let t := attachLayout n t
  let t := t.updHints id
  let t := t.updProps id
  let t := t.updHints fun sh => { sh with variant := some "flat".toList }
  let scan := findTextScanIdx n.children 0
  let t :=
    match scan with
    | some (tc, _) => t.updF fun f => { f with text := some (orStr tc.flds.characters (nameOr tc)) }
    | none => t
  let iconPairs := iconPairsOf n.children (scan.bind (·.2))
  let tickIdx : Option Nat :=
    (iconPairs.find? fun ic =>
      includesL (lowerL (nameOr ic.2)) "tick".toList
        || includesL (lowerL (nameOr ic.2)) "check".toList).map (·.1)
  let t := if tickIdx.isSome then t.updProps fun p => { p with selected := some true } else t
  let mainIcon :=
    iconPairs.find? fun ic =>
      match tickIdx with
      | some j => ic.1 ≠ j
      | none => true
  let t :=
    match mainIcon with
    | some ic => t.updProps fun p => { p with icon := some (cleanIconName ic.2) }
    | none => t
  let t := if isDisabled n then t.updProps fun p => { p with disabled := some true } else t
  let props := t.flds.props.getD {}
  let hasIcon := strTruthy props.icon || props.selected.getD false
  if hasIcon && !(props.disabled.getD false) then
    t.updF fun f => { f with action := some { type := "press".toList } }
  else t

/-- `parseInputNode` (INPUT and SEARCHABLE_INPUT). -/
def parseInputNode (n : FigmaNode) (t : UITreeNode) : UITreeNode :=
  let t := attachLayout n t
  let textNodes : List (Str × Bool) :=
    n.children.filterMap fun c =>
      if c.flds.type = "TEXT".toList then
        let childName := nameOr c
        some (childName, includesL (lowerL childName) "label".toList)
      else none
  let t :=
    match textNodes.find? fun x => !x.2 with
    | some (txt, _) => t.updF fun f => { f with text := some txt }
    | none => t
  match textNodes.find? (·.2) with
  | some (txt, _) => t.updF fun f => { f with title := some txt }
  | none => t

/-- `parseIconNode` (ICON/SVG: minimal). -/
def parseIconNode (_n : FigmaNode) (t : UITreeNode) : UITreeNode := t

/-- `parseDropdownNode`. -/
def parseDropdownNode (n : FigmaNode) (t : UITreeNode) : UITreeNode :=
  let t := attachLayout n t
  let t := t.updProps id
  match findFirstTextDescendant n with
  | some td =>
    let ph := orStr td.flds.characters (orStr td.flds.name [])
    if ph.isEmpty then t else t.updProps fun p => { p with placeholder := some ph }
  | none => t

/-- `parseCheckboxNode`. -/
def parseCheckboxNode (n : FigmaNode) (t : UITreeNode) : UITreeNode :=
  let t := attachLayout n t
  let t := t.updProps id
  n.children.foldl
    (fun t c =>
      let childName := nameOr c
      let t :=
        if childName = "_TRUE".toList then t.updProps fun p => { p with checked := some true }
        else if childName = "_FALSE".toList then t.updProps fun p => { p with checked := some false }
        else t
      if c.flds.type = "TEXT".toList then
        let labelText := orStr c.flds.characters (orStr c.flds.name [])
        if labelText.isEmpty then t else t.updProps fun p => { p with label := some labelText }
      else t)
    t

/-- `parseRadioNode` (label only from `characters`). -/
def parseRadioNode (n : FigmaNode) (t : UITreeNode) : UITreeNode :=
  let t := attachLayout n t
  let t := t.updProps id
  n.children.foldl
    (fun t c =>
      let childName := nameOr c
      let t :=
        if childName = "_TRUE".toList then t.updProps fun p => { p with selected := some true }
        else if childName = "_FALSE".toList then t.updProps fun p => { p with selected := some false }
        else t
      if c.flds.type = "TEXT".toList then
        let labelText := c.flds.characters.getD []
        if labelText.isEmpty then t else t.updProps fun p => { p with label := some labelText }
      else t)
    t

/-- `parseTouchableCard` (TOUCHABLE_CARD becomes a childless CARD with a
press action; title/subtitle from the first two named TEXT descendants). -/
def parseTouchableCard (n : FigmaNode) (componentName : Option Str) (role : Str) : UITreeNode :=
  let t : UITreeNode :=
    .mk { id := n.flds.id, componentType := "CARD".toList,
          componentName := componentName, role := some role,
          action := some { type := "press".toList } } none
  let t := extractVariant n t
  let t :=
    match extractLayout n with
    | some l =>
      match l.padding with
      | some pv =>
        if pv.truthy then t.updF fun f => { f with layout := some { padding := some pv } }
        else t
      | none => t
    | none => t
  let texts := collectTextDescendants 2 n []
  match texts with
  | [] => t
  | t1 :: rest =>
    let t := t.updF fun f => { f with title := some t1 }
    match rest with
    | t2 :: _ => t.updF fun f => { f with subtitle := some t2 }
    | [] => t

/-! ## Sibling ordering -/

/-- `le` form of the comparator of `sortChildrenByPosition`
(`le a b = (cmp a b ≤ 0)`; a missing bounding box yields `cmp = 0`). -/
def posLe (layoutMode : Option Str) (a b : FigmaNode) : Bool :=
  match a.flds.absoluteBoundingBox, b.flds.absoluteBoundingBox with
  | some ab, some bb =>
    if layoutMode = some "HORIZONTAL".toList then decide (ab.x - bb.x ≤ 0)
    else
      let yd := ab.y - bb.y
      if |yd| < 2 then decide (ab.x - bb.x ≤ 0) else decide (yd ≤ 0)
  | _, _ => true

/-- `sortChildrenByPosition`: drop invisible children, sort the rest by
the positional comparator (merge model, used by the pipeline embedding;
the engine-exact counterpart for the sibling-order claim is
`sortChildrenV8` below). -/
def sortChildrenByPosition (children : List FigmaNode) (layoutMode : Option Str) : List FigmaNode :=
  match children with
  | [] => []
  | cs => jsSortBy (posLe layoutMode) (cs.filter fun c => c.flds.visible ≠ some false)

/-! ## Recursive parsing -/

/-- The child-processing loop shared verbatim by `parseCardNode` and
`parseLayoutNode`: parse each child with `p`, hoist the children of
content-less `VIEW` wrappers, keep everything else. -/
def flattenFold (p : FigmaNode → UITreeNode) (l : List FigmaNode) : List UITreeNode :=
  l.foldr
    (fun c acc =>
      let pc := p c
      (if pc.componentType = "VIEW".toList && !hasSemanticContent pc then pc.childrenD
       else [pc]) ++ acc)
    []

/-- The child-independent part of `parseCardNode` (variant and padding
classification). -/
def cardPre (n : FigmaNode) (t : UITreeNode) : UITreeNode :=
  let t := t.updHints id
  let t := t.updProps id
  let t := extractCardVariant n t
  match extractLayout n with
  | some l =>
    match l.padding with
    | some pv =>
      let pq : Rat :=
        match pv with
        | .num q => q
        | .sides top _ _ _ => top.getD 0
      let pstr : Str :=
        if pq = 0 then "none".toList
        else if pq ≤ 12 then "sm".toList
        else if pq ≤ 20 then "md".toList
        else "lg".toList
      t.updProps fun pr => { pr with padding := some pstr }
    | none => t.updProps fun pr => { pr with padding := some "none".toList }
  | none => t.updProps fun pr => { pr with padding := some "none".toList }

/-- `parseCardNode`, parameterized by the recursive parser `p`. -/
def parseCardNodeP (p : FigmaNode → UITreeNode) (n : FigmaNode) (t : UITreeNode) : UITreeNode :=
  let t := cardPre n t
  match n.children with
  | [] => t
  | cs =>
    let kids := flattenFold p (sortChildrenByPosition cs n.flds.layoutMode)
    if kids.isEmpty then t else t.withChildren (some kids)

/-- `parseLayoutNode`, parameterized by the recursive parser `p`
(TEXT-typed children are hoisted by `extractTextChildren` and skipped in
the recursion). -/
def parseLayoutNodeP (p : FigmaNode → UITreeNode) (n : FigmaNode) (t : UITreeNode) : UITreeNode :=
  let t := attachLayout n t
  let t := extractTextChildren n t
  match n.children with
  | [] => t
  | cs =>
    let kids :=
      flattenFold p
        ((sortChildrenByPosition cs n.flds.layoutMode).filter fun c =>
          c.flds.type ≠ "TEXT".toList)
    if kids.isEmpty then t else t.withChildren (some kids)

/-- `name.replace(/_TEXT$/, '')`. -/
def stripTextSuffix (s : Str) : Str :=
  if endsWithL s "_TEXT".toList then s.take (s.length - 5) else s

/-- Steps 1–5 of `parseFigmaNode` (after the TEXT detection rules):
classification, VECTOR override, TOUCHABLE_CARD, base node with bounds,
styles and layout, and the component-type dispatch.  `p` is the recursive
parser used for CARD and layout containers. -/
def dispatchLeaf (p : FigmaNode → UITreeNode) (componentType : Str) (n : FigmaNode)
    (t : UITreeNode) : UITreeNode :=
  if componentType = "TEXT".toList then parseTextNode n t
    else if componentType = "BUTTON".toList then parseButtonNode n t
    else if componentType = "CHIP".toList then parseChipNode n t
    else if componentType = "CARD".toList then parseCardNodeP p n t
    else if componentType = "INPUT".toList || componentType = "SEARCHABLE_INPUT".toList then
      parseInputNode n t
    else if componentType = "SVG".toList || componentType = "ICON".toList then parseIconNode n t
    else if componentType = "DROPDOWN".toList then parseDropdownNode n t
    else if componentType = "CHECKBOX".toList then parseCheckboxNode n t
    else if componentType = "RADIO".toList then parseRadioNode n t
    else if componentType = "VIEW".toList || componentType = "SCROLLABLE_VIEW".toList
        || componentType = "HEADER".toList || componentType = "TOPBAR".toList
        || componentType = "SAFEAREAVIEW".toList then
      parseLayoutNodeP p n t
    else if strTruthy n.flds.layoutMode then parseLayoutNodeP p n t
    else t

def dcBase (componentName : Option Str) (componentType role : Str) (n : FigmaNode) : UITreeNode :=
  let t : UITreeNode :=
    .mk { id := n.flds.id, componentType := componentType,
          componentName := componentName, role := some role } none
  let t :=
    match extractBounds n with
    | some b => t.updF fun f => { f with bounds := some b }
    | none => t
  let t :=
    match extractStyles n with
    | some s => t.updF fun f => { f with styles := some s }
    | none => t
  if isLayoutContainer componentType then attachLayout n t
  else if componentType = "SAFEAREAVIEW".toList then attachLayout n t
  else t

def dispatchComp (p : FigmaNode → UITreeNode) (componentName : Option Str)
    (componentType role : Str) (n : FigmaNode) : UITreeNode :=
  if componentType = "TOUCHABLE_CARD".toList then parseTouchableCard n componentName role
  else dispatchLeaf p componentType n (dcBase componentName componentType role n)

def parseAfterText (p : FigmaNode → UITreeNode) (n : FigmaNode) : UITreeNode :=
  let pn := parseComponentName (nameOr n)
  let cnr : Option Str × Str × Str :=
    if n.flds.type = "VECTOR".toList && pn.componentType = "UNKNOWN".toList then
      let nm := nameOr n
      (if nm.isEmpty then none else some nm, "ICON".toList, nm)
    else (pn.componentName, pn.componentType, pn.role)
  dispatchComp p cnr.1 cnr.2.1 cnr.2.2 n

/-- `parseFigmaNode` with fuel (the recursion re-sorts children, so it is
not structural; `figDepth` fuel is always sufficient, see
`parseGo_fuel`). -/
def parseGo : Nat → FigmaNode → UITreeNode
  | 0, _ => .mk { componentType := "OUT_OF_FUEL".toList } none
  | fuel + 1, n =>
    if n.flds.type = "TEXT".toList then
      let t : UITreeNode :=
        .mk { id := n.flds.id, componentType := "TEXT".toList,
              componentName := some "Text".toList, role := some (nameOr n),
              text := some (charsOr n) } none
      match extractStyles n with
      | some s => t.updF fun f => { f with styles := some s }
      | none => t
    else
      let name := nameOr n
      let isFrameLike := n.flds.type = "FRAME".toList || n.flds.type = "COMPONENT".toList
      let textChildren :=
        if isFrameLike && endsWithL name "_TEXT".toList then collectAllTextNodes n else []
      match textChildren with
      | [u] => u
      | u :: v :: rest =>
        .mk { id := n.flds.id, componentType := "VIEW".toList,
              componentName := some (stripTextSuffix name),
              role := some name } (some (u :: v :: rest))
      | [] =>
        let t3 :=
          isFrameLike &&
            (match n.children with
             | [c] => c.flds.type = "TEXT".toList && !(name.contains '_')
             | _ => false)
        if t3 then
          match n.children with
          | [c] =>
            .mk { id := n.flds.id, componentType := "TEXT".toList,
                  componentName := some "Text".toList, role := some name,
                  text := some (charsOr c) } none
          | _ => parseAfterText (fun m => parseGo fuel m) n
        else parseAfterText (fun m => parseGo fuel m) n
termination_by structural fuel => fuel

mutual
/-- Depth of a raw Figma node (the fuel supplied to `parseGo`). -/
def figDepth : FigmaNode → Nat
  | .mk _ cs => figDepthL cs + 1

def figDepthL : List FigmaNode → Nat
  | [] => 0
  | c :: cs => max (figDepth c) (figDepthL cs)
end

/-- `parseFigmaNode`. -/
def parseFigmaNode (n : FigmaNode) : UITreeNode := parseGo (figDepth n) n

/-- The shape of the value handed to `generateUITree`: either a document
wrapper `{document: ...}` or a bare node (`figmaJson.document || figmaJson`). -/
inductive FigmaJson where
  | doc (d : FigmaNode)
  | raw (n : FigmaNode)

/-- `figmaJson.document || figmaJson`. -/
def docOf : FigmaJson → FigmaNode
  | .doc d => d
  | .raw n => n

/-- `generateUITree`: find the root component (throwing models as
`Except.error`), then parse it. -/
def generateUITree (j : FigmaJson) : Except Str UITreeNode :=
  match findTopLevelComponent (docOf j) with
  | none => .error "No top-level component found in Figma JSON".toList
  | some top => .ok (parseFigmaNode top)

/-! ## Component map (src/generators/component-map.ts)

Prop mappers produce ordered key/value lists (JS object literals preserve
insertion order, which `Object.entries` then observes).  A value of `none`
models `undefined` (filtered out by `generatePropsString`).
`props.source`, `props.leftElement` and `props.rightElement` are read by
the AVATAR/LISTITEM mappers in the source but can never be set by this
repository's parser, so those reads are modelled as always-undefined. -/

/-- Opening brace character (written numerically to keep emitted JSX
fragments free of brace literals in this file). -/
def obCh : Char := Char.ofNat 123

/-- Closing brace character. -/
def cbCh : Char := Char.ofNat 125

/-- Single-quoted string fragment. -/
def q1 (s : Str) : Str := sqCh :: (s ++ [sqCh])

/-- A JSX prop value as produced by the prop mappers. -/
inductive PropVal where
  | str (s : Str)
  | num (q : Rat)
  | bool (b : Bool)
  | obj (kvs : List (Str × PropVal))
  | arr (vs : List PropVal)

/-- `JSON.stringify` string escaping (the escapes that can occur here). -/
def jsonEscape (s : Str) : Str :=
  s.flatMap fun c =>
    if c = '"' then ['\\', '"']
    else if c = '\\' then ['\\', '\\']
    else if c = '\n' then ['\\', 'n']
    else [c]

mutual
/-- `JSON.stringify` of a prop value. -/
def jsonVal : PropVal → Str
  | .str s => '"' :: (jsonEscape s ++ ['"'])
  | .num q => jsNumToStr q
  | .bool b => if b then "true".toList else "false".toList
  | .obj kvs => obCh :: (jsonMembers kvs ++ [cbCh])
  | .arr vs => '[' :: (jsonElems vs ++ [']'])

def jsonMembers : List (Str × PropVal) → Str
  | [] => []
  | [(k, v)] => '"' :: (jsonEscape k ++ ['"', ':'] ++ jsonVal v)
  | (k, v) :: kv :: kvs =>
    '"' :: (jsonEscape k ++ ['"', ':'] ++ jsonVal v ++ [','] ++ jsonMembers (kv :: kvs))

def jsonElems : List PropVal → Str
  | [] => []
  | [v] => jsonVal v
  | v :: w :: vs => jsonVal v ++ [','] ++ jsonElems (w :: vs)
end

/-- Ordered-object upsert: JS duplicate keys keep the first position but
take the last value (used for the object-spread style merges). -/
def upsert (kvs : List (Str × PropVal)) (k : Str) (v : PropVal) : List (Str × PropVal) :=
  if kvs.any fun kv => kv.1 = k then
    kvs.map fun kv => if kv.1 = k then (k, v) else kv
  else kvs ++ [(k, v)]

/-- `buildLayoutStyle` (component-map.ts): layout first (direction, gap,
alignment, padding with per-side truthiness), then visual styles. -/
def buildLayoutStyle (t : UITreeNode) : Option (List (Str × PropVal)) :=
  let f := t.flds
  let layoutPart : List (Str × PropVal) :=
    match f.layout with
    | some l =>
      (if l.direction = some "horizontal".toList then
        [("flexDirection".toList, .str "row".toList)] else []) ++
      (if numTruthy l.gap then [("gap".toList, .num (l.gap.getD 0))] else []) ++
      (match l.align with
       | some a =>
         if a.isEmpty then []
         else
           [("alignItems".toList, .str (
             if a = "start".toList then "flex-start".toList
             else if a = "center".toList then "center".toList
             else if a = "end".toList then "flex-end".toList
             else "flex-start".toList))]
       | none => []) ++
      (match l.padding with
       | some pv =>
         if pv.truthy then
           match pv with
           | .num q => [("padding".toList, .num q)]
           | .sides top right bottom left =>
             (if numTruthy top then [("paddingTop".toList, .num (top.getD 0))] else []) ++
             (if numTruthy right then [("paddingRight".toList, .num (right.getD 0))] else []) ++
             (if numTruthy bottom then [("paddingBottom".toList, .num (bottom.getD 0))] else []) ++
             (if numTruthy left then [("paddingLeft".toList, .num (left.getD 0))] else [])
         else []
       | none => [])
    | none => []
  let stylePart : List (Str × PropVal) :=
    match f.styles with
    | some st =>
      (match st.backgroundColor with
       | some bg =>
         if !bg.isEmpty && st.backgroundGradient.isNone then
           [("backgroundColor".toList, .str bg)]
         else []
       | none => []) ++
      (if numTruthy st.borderRadius then
        [("borderRadius".toList, .num (st.borderRadius.getD 0))] else []) ++
      (match st.borderColor with
       | some bc =>
         if bc.isEmpty then []
         else
           [("borderColor".toList, .str bc),
            ("borderWidth".toList, .num (if numTruthy st.borderWidth then st.borderWidth.getD 0 else 1))]
       | none => [])
    | none => []
  let style := layoutPart ++ stylePart
  if style.isEmpty then none else some style

/-- `mapButtonVariant`. -/
def mapButtonVariant (v : Option Str) : Str :=
  match v with
  | some s =>
    if s = "outline".toList || s = "outlined".toList then "outline".toList
    else if s = "ghost".toList || s = "text".toList then "ghost".toList
    else "regular".toList
  | none => "regular".toList

/-- `mapCardVariant`. -/
def mapCardVariant (v : Option Str) : Str :=
  match v with
  | some s =>
    if s = "outline".toList || s = "outlined".toList then "outlined".toList
    else if s = "filled".toList then "filled".toList
    else "elevated".toList
  | none => "elevated".toList

/-- `mapAvatarSize`. -/
def mapAvatarSize (v : Option Str) : Str :=
  match v with
  | some s =>
    if s = "xs".toList || s = "sm".toList || s = "lg".toList || s = "xl".toList then s
    else "md".toList
  | none => "md".toList

mutual
/-- `findChildNode` (first node in the subtree satisfying `pred`). -/
def findChildNode (pred : UITreeNode → Bool) : UITreeNode → Option UITreeNode
  | .mk f cs =>
    if pred (.mk f cs) then some (.mk f cs)
    else
      match cs with
      | some l => findChildInList pred l
      | none => none

def findChildInList (pred : UITreeNode → Bool) : List UITreeNode → Option UITreeNode
  | [] => none
  | c :: cs =>
    match findChildNode pred c with
    | some r => some r
    | none => findChildInList pred cs
end

/-- JS `a || b` on two optional strings. -/
def jsOrS (a b : Option Str) : Option Str := if strTruthy a then a else b

/-- The `'() => {}'` placeholder. -/
def fnPlaceholder : Str := "() => ".toList ++ [obCh, cbCh]

/-- `node.action?.type === 'press' ? '() => {}' : undefined`. -/
def onPressOf (t : UITreeNode) : Option PropVal :=
  match t.flds.action with
  | some a => if a.type = "press".toList then some (.str fnPlaceholder) else none
  | none => none

/-- A component-map entry (`component` is resolved per node, which
subsumes both the plain-string and the function-valued entries). -/
structure ComponentMapping where
  component : UITreeNode → Str
  propMapper : UITreeNode → List (Str × Option PropVal)
  hasChildren : Bool := false
  additionalImports : List Str := []

/-- The `'HEADER'` prop mapper's `leftAction` JSX string. -/
def headerLeftJsx : Str :=
  "(<Menu size=".toList ++ [obCh] ++ "24".toList ++ [cbCh]
    ++ " color=\"#000\" />)".toList

/-- The `'HEADER'` prop mapper's `rightAction` JSX string. -/
def headerRightJsx : Str :=
  "(<TouchableOpacity onPress=".toList ++ [obCh] ++ fnPlaceholder ++ [cbCh]
    ++ "><Menu size=".toList ++ [obCh] ++ "24".toList ++ [cbCh]
    ++ " color=\"#000\" /></TouchableOpacity>)".toList

/-- The `TEXT` entry of the component map. -/
def textMapping : ComponentMapping := {
    component := fun _ => "Text".toList,
    additionalImports := ["Text".toList],
    propMapper := fun t =>
      [("_textContent".toList, some (.str ((t.flds.text).getD []))),
       ("style".toList,
         match t.flds.styles with
         | some st => some (.obj (
             (match st.textColor with
              | some c => if c.isEmpty then [] else [("color".toList, .str c)]
              | none => []) ++
             (if numTruthy st.fontSize then [("fontSize".toList, .num (st.fontSize.getD 0))] else []) ++
             (if numTruthy st.fontWeight then [("fontWeight".toList, .num (st.fontWeight.getD 0))] else []) ++
             (match st.fontFamily with
              | some ff => if ff.isEmpty then [] else [("fontFamily".toList, .str ff)]
              | none => [])))
         | none => none)] }

/-- The `HEADER` entry of the component map (note `additionalImports`
carries `TouchableOpacity` unconditionally). -/
def headerMapping : ComponentMapping := {
    component := fun _ => "Header".toList,
    additionalImports := ["TouchableOpacity".toList],
    propMapper := fun t =>
      let leftNode := findChildNode (fun n => n.flds.role = some "Container_SVG".toList) t
      let rightNode := findChildNode (fun n => n.flds.role = some "Button_SVG".toList) t
      let backNode := findChildNode (fun n => n.componentType = "BACKBUTTON".toList) t
      let titleNode := findChildNode (fun n => n.componentType = "TEXT".toList) t
      let style : List (Str × PropVal) :=
        match (t.flds.styles).bind UIStyles.borderColor with
        | some bc =>
          if bc.isEmpty then []
          else [("borderBottomWidth".toList, .num 1), ("borderBottomColor".toList, .str bc)]
        | none => []
      [("title".toList, some (.str (orStr (titleNode.bind fun n => n.flds.text) "Header".toList))),
       ("backgroundColor".toList,
         some (.str (orStr ((t.flds.styles).bind UIStyles.backgroundColor) "#FFFFFF".toList))),
       ("showBackButton".toList, some (.bool backNode.isSome)),
       ("onBackPress".toList,
         if backNode.isSome then some (.str "() => navigation.goBack()".toList) else none),
       ("leftAction".toList, if leftNode.isSome then some (.str headerLeftJsx) else none),
       ("rightAction".toList, if rightNode.isSome then some (.str headerRightJsx) else none),
       ("containerStyle".toList, if style.isEmpty then none else some (.obj style))] }

/-- `COMPONENT_MAP` as a lookup function (`getComponentMapping`). -/
def getComponentMapping (ct : Str) : Option ComponentMapping :=
  if ct = "BUTTON".toList then some {
    component := fun _ => "Button".toList,
    propMapper := fun t =>
      let props := (t.flds.props).getD {}
      let hints := (t.flds.styleHints).getD {}
      [("text".toList, (t.flds.text).map .str),
       ("variant".toList, some (.str (mapButtonVariant hints.variant))),
       ("size".toList, some (.str (orStr hints.size "md".toList))),
       ("disabled".toList, props.disabled.map .bool),
       ("leftIcon".toList, props.leftIcon.map .str),
       ("rightIcon".toList, props.rightIcon.map .str),
       ("onPress".toList, some (.str fnPlaceholder))] ++
      (match (t.flds.styles).bind UIStyles.backgroundColor with
       | some bg =>
         if bg.isEmpty then []
         else [("buttonStyle".toList, some (.obj [("backgroundColor".toList, .str bg)]))]
       | none => []) }
  else if ct = "CARD".toList then some {
    component := fun _ => "Card".toList,
    hasChildren := true,
    propMapper := fun t =>
      let props := (t.flds.props).getD {}
      let hints := (t.flds.styleHints).getD {}
      [("variant".toList, some (.str (mapCardVariant (jsOrS props.variant hints.variant)))),
       ("padding".toList, some (.str (orStr props.padding "md".toList))),
       ("onPress".toList, onPressOf t)] ++
      (match (t.flds.styles).bind UIStyles.backgroundColor with
       | some bg =>
         if bg.isEmpty then []
         else [("containerStyle".toList, some (.obj [("backgroundColor".toList, .str bg)]))]
       | none => []) }
  else if ct = "TOUCHABLE_CARD".toList then some {
    component := fun _ => "Card".toList,
    hasChildren := true,
    propMapper := fun t =>
      let props := (t.flds.props).getD {}
      [("variant".toList, some (.str (mapCardVariant (jsOrS props.variant (some "elevated".toList))))),
       ("padding".toList, some (.str (orStr props.padding "md".toList))),
       ("onPress".toList, some (.str fnPlaceholder))] }
  else if ct = "CHIP".toList then some {
    component := fun _ => "Chip".toList,
    propMapper := fun t =>
      let props := (t.flds.props).getD {}
      let hints := (t.flds.styleHints).getD {}
      [("text".toList, some (.str ((t.flds.text).getD []))),
       ("selected".toList, some (.bool (props.selected.getD false))),
       ("mode".toList, some (.str (if hints.variant = some "outline".toList then "outlined".toList else "flat".toList))),
       ("icon".toList, props.icon.map .str),
       ("disabled".toList, props.disabled.map .bool),
       ("onPress".toList, onPressOf t)] }
  else if ct = "CHECKBOX".toList then some {
    component := fun _ => "Checkbox".toList,
    propMapper := fun t =>
      let props := (t.flds.props).getD {}
      [("checked".toList, some (.bool (props.checked.getD false))),
       ("onChange".toList, some (.str ("(value) => ".toList ++ [obCh, cbCh]))),
       ("label".toList, (jsOrS props.label t.flds.text).map .str),
       ("disabled".toList, props.disabled.map .bool)] }
  else if ct = "RADIO".toList then some {
    component := fun _ => "RadioGroup".toList,
    propMapper := fun t =>
      let props := (t.flds.props).getD {}
      let labelV := orStr (jsOrS props.label t.flds.text) "Option".toList
      let valueV := orStr t.flds.componentName "option".toList
      [("options".toList, some (.arr [.obj [("label".toList, .str labelV), ("value".toList, .str valueV)]])),
       ("value".toList, if props.selected.getD false then some (.str valueV) else none),
       ("onChange".toList, some (.str ("(value) => ".toList ++ [obCh, cbCh]))),
       ("disabled".toList, props.disabled.map .bool)] }
  else if ct = "DROPDOWN".toList then some {
    component := fun _ => "Dropdown".toList,
    propMapper := fun t =>
      let props := (t.flds.props).getD {}
      [("data".toList, some (.arr [])),
       ("value".toList, none),
       ("onChange".toList, some (.str ("(value) => ".toList ++ [obCh, cbCh]))),
       ("placeholder".toList, some (.str (orStr (jsOrS t.flds.text props.placeholder) "Select Option".toList))),
       ("label".toList, (jsOrS t.flds.title props.label).map .str),
       ("disabled".toList, props.disabled.map .bool)] }
  else if ct = "LISTITEM".toList then some {
    component := fun _ => "ListItem".toList,
    hasChildren := false,
    propMapper := fun t =>
      let props := (t.flds.props).getD {}
      [("title".toList, some (.str (orStr (jsOrS t.flds.text t.flds.title) "List Item".toList))),
       ("subtitle".toList, (t.flds.subtitle).map .str),
       ("leftElement".toList, none),
       ("rightElement".toList, none),
       ("onPress".toList, onPressOf t),
       ("disabled".toList, props.disabled.map .bool),
       ("itemSeparator".toList, props.itemSeparator.map .bool)] }
  else if ct = "AVATAR".toList then some {
    component := fun _ => "Avatar".toList,
    propMapper := fun t =>
      let props := (t.flds.props).getD {}
      let hints := (t.flds.styleHints).getD {}
      [("name".toList, (jsOrS props.name t.flds.text).map .str),
       ("size".toList, some (.str (mapAvatarSize (jsOrS props.size hints.size)))),
       ("source".toList,
         match props.imageUrl with
         | some url => if url.isEmpty then none else some (.obj [("uri".toList, .str url)])
         | none => none),
       ("onPress".toList, onPressOf t),
       ("containerStyle".toList,
         match (t.flds.styles).bind UIStyles.backgroundColor with
         | some bg => if bg.isEmpty then none else some (.obj [("backgroundColor".toList, .str bg)])
         | none => none)] }
  else if ct = "SPACER".toList then some {
    component := fun _ => "Spacer".toList,
    propMapper := fun t =>
      let props := (t.flds.props).getD {}
      [("size".toList,
         match props.size with
         | some s => if s.isEmpty then some (.num 0) else some (.str s)
         | none => some (.num 0)),
       ("horizontal".toList, props.horizontal.map .bool)] }
  else if ct = "INPUT".toList then some {
    component := fun _ => "TextInput".toList,
    propMapper := fun t =>
      let props := (t.flds.props).getD {}
      [("placeholder".toList, some (.str (orStr t.flds.text "Enter text".toList))),
       ("label".toList, (t.flds.title).map .str),
       ("onChangeText".toList, some (.str ("(text) => ".toList ++ [obCh, cbCh]))),
       ("disabled".toList, props.disabled.map .bool)] }
  else if ct = "SEARCHABLE_INPUT".toList then some {
    component := fun _ => "SearchableInput".toList,
    propMapper := fun t =>
      let props := (t.flds.props).getD {}
      [("value".toList, some (.str [])),
       ("onChangeText".toList, some (.str ("(text) => ".toList ++ [obCh, cbCh]))),
       ("placeholder".toList, some (.str (orStr t.flds.text "Search...".toList))),
       ("disabled".toList, props.disabled.map .bool)] }
  else if ct = "SWITCH".toList then some {
    component := fun _ => "Switch".toList,
    propMapper := fun t =>
      let props := (t.flds.props).getD {}
      [("value".toList, some (.bool (props.checked.getD false))),
       ("onValueChange".toList, some (.str ("(value) => ".toList ++ [obCh, cbCh]))),
       ("label".toList, (jsOrS props.label t.flds.text).map .str),
       ("disabled".toList, props.disabled.map .bool)] }
  else if ct = "TEXT".toList then some textMapping
  else if ct = "VIEW".toList then some {
    component := fun t =>
      match (t.flds.styles).bind UIStyles.backgroundGradient with
      | some gr => if gr.type = "linear".toList then "LinearGradient".toList else "View".toList
      | none => "View".toList,
    hasChildren := true,
    additionalImports := ["View".toList],
    propMapper := fun t =>
      let style := (buildLayoutStyle t).getD []
      match (t.flds.styles).bind UIStyles.backgroundGradient with
      | some gr =>
        if gr.type = "linear".toList then
          [("colors".toList, some (.arr (gr.stops.map fun s => .str s.color))),
           ("locations".toList, some (.arr (gr.stops.map fun s => .num s.offset))),
           ("start".toList, some (.obj [("x".toList, .num gr.start.x), ("y".toList, .num gr.start.y)])),
           ("end".toList, some (.obj [("x".toList, .num gr.stop.x), ("y".toList, .num gr.stop.y)])),
           ("style".toList, some (.obj style))]
        else [("style".toList, if style.isEmpty then none else some (.obj style))]
      | none => [("style".toList, if style.isEmpty then none else some (.obj style))] }
  else if ct = "SCROLLABLE_VIEW".toList then some {
    component := fun _ => "ScrollView".toList,
    hasChildren := true,
    additionalImports := ["ScrollView".toList],
    propMapper := fun t =>
      [("contentContainerStyle".toList, (buildLayoutStyle t).map .obj),
       ("backgroundColor".toList, some (.str "#FFFFFF".toList)),
       ("paddingHorizontal".toList, some (.num 24))] }
  else if ct = "HEADER".toList then some headerMapping
  else if ct = "TOPBAR".toList then some {
    component := fun _ => "Header".toList,
    propMapper := fun t =>
      [("title".toList, (jsOrS t.flds.text t.flds.title).map .str)] }
  else if ct = "SAFEAREAVIEW".toList then some {
    component := fun _ => "SafeAreaView".toList,
    hasChildren := true,
    additionalImports := ["SafeAreaView".toList],
    propMapper := fun t =>
      let base : List (Str × PropVal) := [("flex".toList, .num 1)]
      let merged := ((buildLayoutStyle t).getD []).foldl (fun acc kv => upsert acc kv.1 kv.2) base
      let merged := upsert merged "backgroundColor".toList (.str "#FFFFFF".toList)
      let merged := upsert merged "paddingHorizontal".toList (.num 32)
      [("style".toList, some (.obj merged))] }
  else if ct = "ICON".toList then some {
    component := fun _ => "View".toList,
    additionalImports := ["View".toList],
    propMapper := fun t =>
      [("style".toList, some (.obj
        [("width".toList, .num 24), ("height".toList, .num 24),
         ("backgroundColor".toList,
           .str (orStr ((t.flds.styles).bind UIStyles.backgroundColor) "#E5E7EB".toList)),
         ("borderRadius".toList,
           match (t.flds.styles).bind UIStyles.borderRadius with
           | some r => if r ≠ 0 then .num r else .num 4
           | none => .num 4)]))] }
  else if ct = "SVG".toList then some {
    component := fun _ => "View".toList,
    additionalImports := ["View".toList],
    propMapper := fun _ =>
      [("style".toList, some (.obj
        [("width".toList, .num 24), ("height".toList, .num 24),
         ("backgroundColor".toList, .str "#E5E7EB".toList)]))] }
  else none

/-! ## JSX emitter (src/generators/code-generator.ts) -/

/-- The two import accumulators (`usedComponents`, `rnImports`), modelled
as insertion-ordered deduplicated lists. -/
structure EmitState where
  used : List Str
  rn : List Str
deriving DecidableEq

/-- `Set.prototype.add`. -/
def addSet (s : List Str) (x : Str) : List Str := if x ∈ s then s else s ++ [x]

/-- `escapeText`: entity-escape `& < > "` and turn newlines into spaces
(the chained `replace`s commute with this single pass because no
replacement string contains a character replaced later). -/
def escapeText (s : Str) : Str :=
  s.flatMap fun c =>
    if c = '&' then "&amp;".toList
    else if c = '<' then "&lt;".toList
    else if c = '>' then "&gt;".toList
    else if c = '"' then "&quot;".toList
    else if c = '\n' then [' ']
    else [c]

/-- `generatePropsString`: drop `undefined`/`null` values, render each
prop by kind (function placeholders and injected JSX in braces, strings
quoted, `true` bare, everything else via `JSON.stringify`), then choose
single-line or multi-line formatting at 60 characters. -/
def generatePropsString (props : List (Str × Option PropVal)) : Str :=
  let entries := props.filterMap fun kv => kv.2.map fun v => (kv.1, v)
  if entries.isEmpty then []
  else
    let propsArr := entries.map fun kv =>
      match kv.2 with
      | .str s =>
        if startsWithL s "()".toList || startsWithL s "(val".toList
            || startsWithL s "(text".toList then
          kv.1 ++ '=' :: obCh :: (s ++ [cbCh])
        else if startsWithL s "(<".toList then
          kv.1 ++ '=' :: obCh :: (s ++ [cbCh])
        else kv.1 ++ '=' :: '"' :: (s ++ ['"'])
      | .bool b =>
        if b then kv.1 else kv.1 ++ '=' :: obCh :: ("false".toList ++ [cbCh])
      | v => kv.1 ++ '=' :: obCh :: (jsonVal v ++ [cbCh])
    if (joinSep " ".toList propsArr).length < 60 then
      ' ' :: joinSep " ".toList propsArr
    else
      '\n' :: ' ' :: ' ' :: (joinSep "\n  ".toList propsArr ++ ['\n'])

mutual
/-- `generateComponent`: resolve the mapping (unknown types render a bare
`<View />` and import only `View`), track imports (`LinearGradient` is
excluded from both sets and imported by the body scan), special-case
`TEXT`, and emit children with conditional `<Spacer />` injection. -/
def generateComponent : UITreeNode → Nat → EmitState → Str × EmitState
  | .mk f ch, depth, st =>
    let t : UITreeNode := .mk f ch
    let indent := indentStr depth
    match getComponentMapping f.componentType with
    | none => (indent ++ "<View />".toList, { st with rn := addSet st.rn "View".toList })
    | some mapping =>
      let componentName := mapping.component t
      let st :=
        if componentName = "LinearGradient".toList then st
        else if mapping.additionalImports.contains componentName
            || componentName = "View".toList then
          { st with rn := addSet st.rn componentName }
        else { st with used := addSet st.used componentName }
      let st := mapping.additionalImports.foldl
        (fun st imp =>
          if imp = "LinearGradient".toList then st else { st with rn := addSet st.rn imp })
        st
      let props := mapping.propMapper t
      if f.componentType = "TEXT".toList then
        let tc0 : Option Str :=
          (props.find? fun kv => kv.1 = "_textContent".toList).bind fun kv =>
            match kv.2 with
            | some (.str s) => some s
            | _ => none
        let textContent := orStr tc0 (orStr f.text [])
        let propsStr := generatePropsString (props.filter fun kv => kv.1 ≠ "_textContent".toList)
        (indent ++ "<Text".toList ++ propsStr ++ '>' :: (escapeText textContent ++ "</Text>".toList), st)
      else
        let propsStr := generatePropsString props
        if mapping.hasChildren then
          match ch with
          | some (c :: cs) =>
            let gap : Rat :=
              match f.layout with
              | some l => l.gap.getD 0
              | none => 0
            let isHorizontal :=
              match f.layout with
              | some l => l.direction = some "horizontal".toList
              | none => false
            let r := generateChildren (c :: cs) depth gap isHorizontal st
            let childrenCode := joinSep "\n".toList r.1
            (indent ++ '<' :: (componentName ++ propsStr ++ ">\n".toList)
               ++ childrenCode ++ '\n' :: (indent ++ "</".toList ++ componentName ++ ['>']), r.2)
          | _ => (indent ++ '<' :: (componentName ++ propsStr ++ " />".toList), st)
        else (indent ++ '<' :: (componentName ++ propsStr ++ " />".toList), st)

/-- The `children.map(...)` loop of `generateComponent`, threading
the import sets left to right and appending a `<Spacer />` after each
non-last `VIEW` child. -/
def generateChildren : List UITreeNode → Nat → Rat → Bool → EmitState → List Str × EmitState
  | [], _, _, _, st => ([], st)
  | c :: rest, depth, gap, isHorizontal, st =>
    let r1 := generateComponent c (depth + 1) st
    let isLast := rest.isEmpty
    let shouldAddSpacer := !isLast && c.componentType = "VIEW".toList
    let entrySt : Str × EmitState :=
      if shouldAddSpacer then
        let st2 := { r1.2 with used := addSet r1.2.used "Spacer".toList }
        let spacerIndent := indentStr (depth + 1)
        let spacerProps :=
          if isHorizontal then "horizontal size=".toList ++ obCh :: (jsNumToStr gap ++ [cbCh])
          else "size=".toList ++ obCh :: ("12".toList ++ [cbCh])
        (r1.1 ++ '\n' :: (spacerIndent ++ "<Spacer ".toList ++ spacerProps ++ " />".toList), st2)
      else r1
    let rrest := generateChildren rest depth gap isHorizontal entrySt.2
    (entrySt.1 :: rrest.1, rrest.2)
end

/-- `generateImports`: React, then sorted react-native imports, then the
`expo-linear-gradient` line when the body contains `<LinearGradient`, then
sorted component-library imports, then the `lucide-react-native` line when
the body contains `<Menu`. -/
def generateImports (st : EmitState) (fullSourceCode : Str) : Str :=
  let lines : List Str :=
    ["import React from ".toList ++ q1 "react".toList ++ ";".toList]
    ++ (if st.rn.isEmpty then []
        else ["import ".toList ++ obCh :: (' ' :: joinSep ", ".toList (jsSortBy strLe st.rn)
                ++ ' ' :: cbCh :: " from ".toList ++ q1 "react-native".toList ++ ";".toList)])
    ++ (if includesL fullSourceCode "<LinearGradient".toList then
          ["import ".toList ++ obCh :: (" LinearGradient ".toList
             ++ cbCh :: " from ".toList ++ q1 "expo-linear-gradient".toList ++ ";".toList)]
        else [])
    ++ (if st.used.isEmpty then []
        else ["import ".toList ++ obCh :: (' ' :: joinSep ", ".toList (jsSortBy strLe st.used)
                ++ ' ' :: cbCh :: " from ".toList ++ q1 "../components".toList ++ ";".toList)])
    ++ (if includesL fullSourceCode "<Menu".toList then
          ["import ".toList ++ obCh :: (" Menu ".toList
             ++ cbCh :: " from ".toList ++ q1 "lucide-react-native".toList ++ ";".toList)]
        else [])
  joinSep "\n".toList lines

/-- `generateScreenTemplate` (the `({ navigation }: any)` screen shell). -/
def generateScreenTemplate (imps componentCode : Str) : Str :=
  imps ++ "\n\nexport default function GeneratedScreen(".toList
    ++ obCh :: (" navigation ".toList ++ cbCh :: ": any) ".toList)
    ++ obCh :: "\n  return (\n".toList
    ++ componentCode ++ "\n  );\n".toList ++ cbCh :: "\n".toList

/-- `generateCode`: emit the body at depth 2, synthesize imports from the
collected sets and the body text, wrap in the screen template. -/
def generateCode (uiTree : UITreeNode) : Str :=
  let r := generateComponent uiTree 2 ⟨[], []⟩
  generateScreenTemplate (generateImports r.2 r.1) r.1

/-! ## Claim C2: name classification -/

/-- `splitUnderscore` returns `none` exactly when the name has no
underscore. -/
theorem splitUnderscore_eq_none {s : Str} : splitUnderscore s = none ↔ '_' ∉ s := by
  induction s with
  | nil => simp [splitUnderscore]
  | cons c cs ih =>
    by_cases hc : c = '_'
    · subst hc; simp [splitUnderscore]
    · have hc2 : ¬ ('_' = c) := fun hh => hc hh.symm
      rcases h : splitUnderscore cs with - | ⟨pre, suffx⟩ <;>
        simp_all [splitUnderscore, hc]

/-- Decomposing at the first underscore computes `splitUnderscore`. -/
theorem splitUnderscore_decomp {pre suffx : Str} (hpre : '_' ∉ pre) :
    splitUnderscore (pre ++ '_' :: suffx) = some (pre, suffx) := by
  induction pre with
  | nil => simp [splitUnderscore]
  | cons c cs ih =>
    have hc : c ≠ '_' := fun h => hpre (h ▸ List.mem_cons_self c cs)
    have hcs : '_' ∉ cs := fun h => hpre (List.mem_cons_of_mem _ h)
    simp [splitUnderscore, hc, ih hcs]

/-- C2 (amended): the classifier locates the first underscore, *trims*
the suffix, and only then tests `^[A-Z_]+$`; on success `componentType`
is the trimmed suffix and `componentName` the trimmed prefix (empty
results become `undefined`); on failure (and with no underscore) the
type is `UNKNOWN` and `componentName` is the whole name (or `undefined`
when empty).  `role` always equals the original name. -/
theorem C2_classify_amended (name : Str) :
    (parseComponentName name).role = name ∧
    ('_' ∉ name →
      (parseComponentName name).componentType = "UNKNOWN".toList ∧
      (parseComponentName name).componentName = (if name = [] then none else some name)) ∧
    (∀ pre suffx, name = pre ++ '_' :: suffx → '_' ∉ pre →
      (allCapsU (trimL suffx) = true →
        (parseComponentName name).componentType = trimL suffx ∧
        (parseComponentName name).componentName =
          (if trimL pre = [] then none else some (trimL pre))) ∧
      (allCapsU (trimL suffx) = false →
        (parseComponentName name).componentType = "UNKNOWN".toList ∧
        (parseComponentName name).componentName = (if name = [] then none else some name))) := by
  refine ⟨?_, ?_, ?_⟩
  · unfold parseComponentName
    rcases h : splitUnderscore name with - | ⟨pre, suffx⟩ <;> simp [h]
    split <;> simp
  · intro hno
    have h : splitUnderscore name = none := splitUnderscore_eq_none.mpr hno
    unfold parseComponentName
    simp [h, List.isEmpty_iff]
  · intro pre suffx hdec hpre
    subst hdec
    have h := @splitUnderscore_decomp pre suffx hpre
    constructor
    · intro hcaps
      unfold parseComponentName
      simp [h, hcaps, List.isEmpty_iff]
    · intro hcaps
      unfold parseComponentName
      simp [h, hcaps, List.isEmpty_iff]

/-- C2 counterexample: for the name `"x_ TEXT"` everything after the first
underscore is `" TEXT"`, which does not satisfy `^[A-Z_]+$`, so the claim
requires `componentType = "UNKNOWN"`; the code trims the suffix first and
returns `"TEXT"` (which is also not the raw suffix). -/
theorem C2_counterexample :
    "x_ TEXT".toList = "x".toList ++ '_' :: " TEXT".toList ∧
    allCapsU " TEXT".toList = false ∧
    (parseComponentName "x_ TEXT".toList).componentType = "TEXT".toList ∧
    "TEXT".toList ≠ "UNKNOWN".toList ∧ "TEXT".toList ≠ " TEXT".toList := by
  decide

/-- Witness for `C2_classify_amended` at the name `"Btn_PRIMARY"`. -/
theorem C2_classify_amended_witness :
    ('_' ∉ "Btn".toList) ∧ allCapsU (trimL "PRIMARY".toList) = true ∧
    (parseComponentName "Btn_PRIMARY".toList).componentType = trimL "PRIMARY".toList ∧
    (parseComponentName "Btn_PRIMARY".toList).componentName =
      (if trimL "Btn".toList = [] then none else some (trimL "Btn".toList)) := by
  refine ⟨by decide, by decide, ?_⟩
  exact ((C2_classify_amended "Btn_PRIMARY".toList).2.2 "Btn".toList "PRIMARY".toList
    (by decide) (by decide)).1 (by decide)

/-! ## Claim C7: color conversion -/

/-- Spec-side single upper-case hex digit. -/
def hexDigitU (n : Nat) : Char :=
  if n < 10 then Char.ofNat (48 + n) else Char.ofNat (55 + n)

/-- Spec-side two-digit upper-case hex byte for an integer in `[0, 255]`. -/
def hexByteU (i : Int) : Str :=
  [hexDigitU (i.toNat / 16), hexDigitU (i.toNat % 16)]

set_option maxRecDepth 4000 in
/-- The code's lower-case-then-uppercase rendering agrees with the direct
upper-case rendering on every byte value. -/
theorem upperL_toHexByte (i : Int) (h0 : 0 ≤ i) (h255 : i ≤ 255) :
    upperL (toHexByte i) = hexByteU i := by
  have hlt : i.toNat < 256 := by omega
  have key : ∀ n : Fin 256, upperL (toHexByte ((n : Nat) : Int)) = hexByteU ((n : Nat) : Int) := by
    decide
  have hrepr : i = ((i.toNat : Nat) : Int) := by omega
  rw [hrepr]
  exact key ⟨i.toNat, hlt⟩

/-- Rounded channels stay in `[0, 255]` for channel values in `[0, 1]`. -/
theorem jsRound_channel_bounds {r : Rat} (h0 : 0 ≤ r) (h1 : r ≤ 1) :
    0 ≤ jsRound (r * 255) ∧ jsRound (r * 255) ≤ 255 := by
  unfold jsRound
  constructor
  · have : (0 : Rat) ≤ r * 255 + 1/2 := by nlinarith
    have := Int.floor_nonneg.mpr this
    omega
  · have hle : r * 255 + 1/2 ≤ 511 / 2 := by nlinarith
    have := Int.floor_le_floor hle
    have h511 : (⌊(511 / 2 : Rat)⌋ : Int) = 255 := by norm_num
    omega

/-- C7: effective alpha is `(a ?? 1) * opacity`; alpha `0` yields
`"transparent"`, alpha in `(0, 1)` yields `rgba(R, G, B, alpha.toFixed(2))`
with `R = round(r * 255)` (similarly G, B), and otherwise the upper-case
two-digit-per-channel `#RRGGBB` string is produced. -/
theorem C7_figmaColorToHex (c : FigColor) (op : Rat)
    (hr0 : 0 ≤ c.r) (hr1 : c.r ≤ 1) (hg0 : 0 ≤ c.g) (hg1 : c.g ≤ 1)
    (hb0 : 0 ≤ c.b) (hb1 : c.b ≤ 1) :
    ((c.a.getD 1) * op = 0 → figmaColorToHex c op = "transparent".toList) ∧
    ((c.a.getD 1) * op ≠ 0 → (c.a.getD 1) * op < 1 →
      figmaColorToHex c op =
        "rgba(".toList ++ intStr (jsRound (c.r * 255)) ++ ", ".toList
          ++ intStr (jsRound (c.g * 255)) ++ ", ".toList
          ++ intStr (jsRound (c.b * 255)) ++ ", ".toList
          ++ jsToFixed2 ((c.a.getD 1) * op) ++ ")".toList) ∧
    (1 ≤ (c.a.getD 1) * op →
      figmaColorToHex c op =
        '#' :: (hexByteU (jsRound (c.r * 255)) ++ hexByteU (jsRound (c.g * 255))
          ++ hexByteU (jsRound (c.b * 255)))) := by
  refine ⟨?_, ?_, ?_⟩
  · intro h0
    unfold figmaColorToHex
    simp [h0]
  · intro hne hlt
    unfold figmaColorToHex
    simp [hne, hlt]
  · intro hge
    have hne : (c.a.getD 1) * op ≠ 0 := by intro h; rw [h] at hge; norm_num at hge
    have hnlt : ¬ ((c.a.getD 1) * op < 1) := by linarith
    have hr := jsRound_channel_bounds hr0 hr1
    have hg := jsRound_channel_bounds hg0 hg1
    have hb := jsRound_channel_bounds hb0 hb1
    have e1 := upperL_toHexByte _ hr.1 hr.2
    have e2 := upperL_toHexByte _ hg.1 hg.2
    have e3 := upperL_toHexByte _ hb.1 hb.2
    have hhash : upChar '#' = '#' := by decide
    unfold figmaColorToHex
    simp only [hne, hnlt, if_false, ite_false, reduceIte]
    simp only [upperL, List.map_cons, List.map_append, hhash] at e1 e2 e3 ⊢
    simp [e1, e2, e3]

/-- Witness for `C7_figmaColorToHex` at `r=1/2, g=0, b=1, a=1/2,
opacity=1` (the rgba branch). -/
theorem C7_figmaColorToHex_witness :
    (0 : Rat) ≤ 1/2 ∧
    figmaColorToHex ⟨1/2, 0, 1, some (1/2)⟩ 1 =
      "rgba(".toList ++ intStr (jsRound ((1/2 : Rat) * 255)) ++ ", ".toList
        ++ intStr (jsRound ((0 : Rat) * 255)) ++ ", ".toList
        ++ intStr (jsRound ((1 : Rat) * 255)) ++ ", ".toList
        ++ jsToFixed2 (((some (1/2 : Rat)).getD 1) * 1) ++ ")".toList := by
  refine ⟨by norm_num, ?_⟩
  exact (C7_figmaColorToHex ⟨1/2, 0, 1, some (1/2)⟩ 1 (by norm_num) (by norm_num)
    (by norm_num) (by norm_num) (by norm_num) (by norm_num)).2.1
    (by norm_num) (by norm_num)

/-! ## Claim C5: unknown-type emission -/

/-- C5 (amended): for an unmapped `componentType` the emitter never
fails: it emits the bare placeholder `<View />` at the current
indentation — no Unknown-banner comment, no style forwarding, without
visiting children — and adds only `View` to the react-native import
set. -/
theorem C5_unknown_emission_amended (t : UITreeNode) (depth : Nat) (st : EmitState)
    (h : (getComponentMapping t.componentType).isNone = true) :
    generateComponent t depth st =
      (indentStr depth ++ "<View />".toList, { st with rn := addSet st.rn "View".toList }) := by
  rcases t with ⟨f, ch⟩
  have h' : getComponentMapping f.componentType = none := Option.isNone_iff_eq_none.mp h
  unfold generateComponent
  simp [h']

set_option maxRecDepth 40000 in
/-- C5 counterexample: for the unknown type `"FOO"` the current emitter
produces exactly `    <View />` — the Unknown-banner comment required
by the claim is absent (no substring `Unknown` anywhere in the emitted
source), and no style attribute is forwarded. -/
theorem C5_counterexample :
    (generateComponent (.mk { id := "7".toList, componentType := "FOO".toList } none) 2
        ⟨[], []⟩).1 = "    <View />".toList ∧
    ¬ ("Unknown".toList <:+:
        generateCode (.mk { id := "7".toList, componentType := "FOO".toList } none)) ∧
    (generateComponent (.mk { id := "7".toList, componentType := "FOO".toList } none) 2
        ⟨[], []⟩).2 = ⟨[], ["View".toList]⟩ := by
  decide

/-- Witness for `C5_unknown_emission_amended` at an unmapped type. -/
theorem C5_unknown_emission_amended_witness :
    (getComponentMapping ("BAR".toList)).isNone = true ∧
    generateComponent (.mk { componentType := "BAR".toList } none) 3 ⟨["X".toList], []⟩ =
      (indentStr 3 ++ "<View />".toList,
        { used := ["X".toList], rn := addSet [] "View".toList }) := by
  refine ⟨by decide, ?_⟩
  exact C5_unknown_emission_amended (.mk { componentType := "BAR".toList } none) 3
    ⟨["X".toList], []⟩ (by decide)

/-! ## Claim C6: the only terminal error -/

/-- The nodes the skip rule accepts, stated from the spec side: a `TEXT`
node; a `FRAME`/`COMPONENT` with exactly one `TEXT` child and an
underscore-free name; or a `Name_TYPE`-patterned node whose raw type is
not `DOCUMENT`/`CANVAS`/`PAGE`. -/
def AcceptableSpec (n : FigmaNode) : Prop :=
  n.flds.type = "TEXT".toList ∨
  ((n.flds.type = "FRAME".toList ∨ n.flds.type = "COMPONENT".toList) ∧
    (∃ c, n.children = [c] ∧ c.flds.type = "TEXT".toList) ∧
    (nameOr n).contains '_' = false) ∨
  (looksLikeComponent (nameOr n) = true ∧
    n.flds.type ≠ "DOCUMENT".toList ∧ n.flds.type ≠ "CANVAS".toList ∧
    n.flds.type ≠ "PAGE".toList)

/-- The skip rule accepts exactly the `AcceptableSpec` nodes. -/
theorem shouldSkipNode_eq_false_iff {n : FigmaNode} :
    shouldSkipNode n = false ↔ AcceptableSpec n := by
  rcases n with ⟨f, cs⟩
  have hf : (FigmaNode.mk f cs).flds = f := rfl
  have hch : (FigmaNode.mk f cs).children = cs := rfl
  have hna : nameOr (FigmaNode.mk f cs) = f.name.getD [] := rfl
  unfold shouldSkipNode AcceptableSpec
  rw [hf, hch, hna]
  by_cases ht : f.type = "TEXT".toList
  · simp [ht]
  · rw [if_neg ht]
    replace ht : f.type ≠ ['T', 'E', 'X', 'T'] := by simpa using ht
    rcases cs with - | ⟨c, - | ⟨d, rest⟩⟩
    · by_cases hl : looksLikeComponent (f.name.getD []) <;>
      by_cases h1 : f.type = "DOCUMENT".toList <;>
      by_cases h2 : f.type = "CANVAS".toList <;>
      by_cases h3 : f.type = "PAGE".toList <;>
        simp [ht, hl, h1, h2, h3, and_assoc]
    · by_cases hb : ((f.type = "FRAME".toList || f.type = "COMPONENT".toList) &&
          (c.flds.type = "TEXT".toList && !((f.name.getD [] : Str).contains '_'))) = true <;>
      by_cases hl : looksLikeComponent (f.name.getD []) <;>
      by_cases h1 : f.type = "DOCUMENT".toList <;>
      by_cases h2 : f.type = "CANVAS".toList <;>
      by_cases h3 : f.type = "PAGE".toList <;>
        simp_all [Bool.not_eq_true', and_assoc, Bool.and_eq_true, Bool.or_eq_true,
          decide_eq_true_eq] <;> tauto
    · by_cases hl : looksLikeComponent (f.name.getD []) <;>
      by_cases h1 : f.type = "DOCUMENT".toList <;>
      by_cases h2 : f.type = "CANVAS".toList <;>
      by_cases h3 : f.type = "PAGE".toList <;>
        simp [ht, hl, h1, h2, h3, and_assoc]

/-- A component is reachable: the node itself is acceptable, or some
child subtree contains one. -/
inductive HasComponent : FigmaNode → Prop where
  | here {n : FigmaNode} : AcceptableSpec n → HasComponent n
  | there {f : FigFields} {cs : List FigmaNode} {c : FigmaNode} :
      c ∈ cs → HasComponent c → HasComponent (.mk f cs)

theorem hasComponent_iff {f : FigFields} {cs : List FigmaNode} :
    HasComponent (.mk f cs) ↔
      AcceptableSpec (.mk f cs) ∨ ∃ c ∈ cs, HasComponent c := by
  constructor
  · intro h
    cases h with
    | here ha => exact Or.inl ha
    | there hmem hc => exact Or.inr ⟨_, hmem, hc⟩
  · intro h
    rcases h with ha | ⟨c, hmem, hc⟩
    · exact .here ha
    · exact .there hmem hc

mutual
theorem findTop_isSome_iff :
    ∀ n : FigmaNode, (findTopLevelComponent n).isSome = true ↔ HasComponent n
  | .mk f cs => by
    unfold findTopLevelComponent
    by_cases hs : shouldSkipNode (.mk f cs)
    · have hna : ¬ AcceptableSpec (.mk f cs) := by
        intro ha
        rw [← shouldSkipNode_eq_false_iff] at ha
        simp [ha] at hs
      rw [if_pos hs]
      rw [findTopList_isSome_iff cs, hasComponent_iff]
      tauto
    · have ha : AcceptableSpec (.mk f cs) := by
        rw [← shouldSkipNode_eq_false_iff]
        simpa using hs
      rw [if_neg hs]
      simpa using HasComponent.here ha

theorem findTopList_isSome_iff :
    ∀ l : List FigmaNode, (findTopInList l).isSome = true ↔ ∃ c ∈ l, HasComponent c
  | [] => by simp [findTopInList]
  | c :: cs => by
    have hrec := findTopList_isSome_iff cs
    rcases h : findTopLevelComponent c with - | r
    · have hc : ¬ HasComponent c := by
        rw [← findTop_isSome_iff c, h]; simp
      simp only [findTopInList, h]
      rw [hrec]
      constructor
      · rintro ⟨d, hd, hhas⟩
        exact ⟨d, List.mem_cons_of_mem _ hd, hhas⟩
      · rintro ⟨d, hd, hhas⟩
        rcases List.mem_cons.mp hd with rfl | hd
        · exact absurd hhas hc
        · exact ⟨d, hd, hhas⟩
    · have hc : HasComponent c := by
        rw [← findTop_isSome_iff c, h]; simp
      simp only [findTopInList, h]
      simp only [Option.isSome_some, true_iff]
      exact ⟨c, List.mem_cons_self c cs, hc⟩
end

/-- C6 (amended): `generateUITree` fails — with the `NoRootComponent`
message and no partial output (the `Except` carries nothing else) — if
and only if the skip-rule DFS finds no *acceptable* node
(`AcceptableSpec`, which also admits bare `TEXT` nodes and the
single-TEXT-child frames, and rejects `DOCUMENT`/`CANVAS`/`PAGE` even
when their names match `Name_TYPE`); when such a node exists it returns
a parsed tree. -/
theorem C6_no_root_amended (j : FigmaJson) :
    ((∃ t, generateUITree j = .ok t) ↔ HasComponent (docOf j)) ∧
    (generateUITree j = .error "No top-level component found in Figma JSON".toList
      ↔ ¬ HasComponent (docOf j)) := by
  unfold generateUITree
  rcases h : findTopLevelComponent (docOf j) with - | top
  · have : ¬ HasComponent (docOf j) := by
      rw [← findTop_isSome_iff, h]; simp
    simp [this]
  · have : HasComponent (docOf j) := by
      rw [← findTop_isSome_iff, h]; simp
    simp [this]

mutual
/-- Spec-side: does any node of the tree match the `Name_TYPE` component
pattern? -/
def anyPatternNode : FigmaNode → Bool
  | .mk f cs => looksLikeComponent (f.name.getD []) || anyPatternList cs

/-- List version of `anyPatternNode`. -/
def anyPatternList : List FigmaNode → Bool
  | [] => false
  | c :: cs => anyPatternNode c || anyPatternList cs
end

/-- The one-node `TEXT` document of `C6_counterexample`. -/
def c6TextNode : FigmaNode :=
  .mk { id := "t".toList, name := some "hello".toList, type := "TEXT".toList,
        characters := some "hi".toList } []

/-- C6 counterexample: a document whose only node is a raw `TEXT` node
named `"hello"` contains no node matching the `Name_TYPE` component
pattern, yet `generateUITree` succeeds (TEXT nodes are never skipped), so
"throws iff no `Name_TYPE` node is reachable" is false. -/
theorem C6_counterexample :
    anyPatternNode c6TextNode = false ∧
    (generateUITree (FigmaJson.raw c6TextNode)).isOk = true := by
  decide

/-- Witness for `C6_no_root_amended` on a one-node `TEXT` document. -/
theorem C6_no_root_amended_witness :
    HasComponent (.mk { id := "t".toList, type := "TEXT".toList } []) ∧
    (∃ t, generateUITree (FigmaJson.raw (.mk { id := "t".toList, type := "TEXT".toList } []))
      = .ok t) := by
  have hha : HasComponent (.mk { id := "t".toList, type := "TEXT".toList } []) :=
    HasComponent.here (Or.inl rfl)
  exact ⟨hha,
    ((C6_no_root_amended (FigmaJson.raw (.mk { id := "t".toList, type := "TEXT".toList } []))).1).mpr hha⟩

/-! ## Claim C4: the `_TEXT` wrapper rule T2 -/

/-- A name ending in `_TEXT` contains an underscore (so rule T3 can never
apply to a `_TEXT` wrapper). -/
theorem contains_of_endsWith_TEXT {s : Str} (h : endsWithL s "_TEXT".toList = true) :
    s.contains '_' = true := by
  unfold endsWithL at h
  have hsuf : "_TEXT".toList <:+ s := by
    rwa [List.isSuffixOf_iff_suffix] at h
  have hmem : '_' ∈ s := hsuf.subset (by decide)
  exact List.elem_iff.mpr hmem

/-- C4 (amended): for a `FRAME`/`COMPONENT` whose name ends in `_TEXT`,
the parser collects all `TEXT` descendants; with exactly one it returns
that collected `TEXT` node itself (whose `componentName` is the *text
node's own name*, not the wrapper's stripped name); with two or more it
returns a `VIEW` with the stripped wrapper name as `componentName`, the
wrapper name as `role`, and the collected texts, in document order, as
children; with zero the rule does not apply and parsing falls through to
the regular classifier path. -/
theorem C4_text_wrapper_amended (f : FigFields) (cs : List FigmaNode)
    (hfr : f.type = "FRAME".toList ∨ f.type = "COMPONENT".toList)
    (hsuf : endsWithL (f.name.getD []) "_TEXT".toList = true) :
    (∀ u, collectAllTextNodes (.mk f cs) = [u] → parseFigmaNode (.mk f cs) = u) ∧
    (∀ u v rest, collectAllTextNodes (.mk f cs) = u :: v :: rest →
      parseFigmaNode (.mk f cs) =
        .mk { id := f.id, componentType := "VIEW".toList,
              componentName := some (stripTextSuffix (f.name.getD [])),
              role := some (f.name.getD []) } (some (u :: v :: rest))) ∧
    (collectAllTextNodes (.mk f cs) = [] →
      parseFigmaNode (.mk f cs) =
        parseAfterText (fun m => parseGo (figDepthL cs) m) (.mk f cs)) := by
  have hd : figDepth (.mk f cs) = figDepthL cs + 1 := by simp [figDepth]
  have hT : ¬ ((FigmaNode.mk f cs).flds.type = "TEXT".toList) := by
    show ¬ (f.type = _)
    rcases hfr with h | h <;> rw [h] <;> decide
  have hname : nameOr (.mk f cs) = f.name.getD [] := rfl
  have hFL : ((FigmaNode.mk f cs).flds.type = "FRAME".toList
      || (FigmaNode.mk f cs).flds.type = "COMPONENT".toList) = true := by
    show (f.type = "FRAME".toList || f.type = "COMPONENT".toList) = true
    rcases hfr with h | h <;> simp [h]
  have hcond : (((FigmaNode.mk f cs).flds.type = "FRAME".toList
        || (FigmaNode.mk f cs).flds.type = "COMPONENT".toList)
      && endsWithL (nameOr (.mk f cs)) "_TEXT".toList) = true := by
    rw [hFL, hname, hsuf]; rfl
  refine ⟨?_, ?_, ?_⟩
  · intro u hu
    rw [parseFigmaNode, hd]
    unfold parseGo
    simp only [if_neg hT, if_pos hcond, hu]
  · intro u v rest hu
    rw [parseFigmaNode, hd]
    unfold parseGo
    simp only [if_neg hT, if_pos hcond, hu]
    rfl
  · intro h0
    have hcont : ((f.name.getD [] : Str).contains '_') = true :=
      contains_of_endsWith_TEXT hsuf
    have hmem : '_' ∈ f.name.getD [] := List.elem_iff.mp hcont
    rw [parseFigmaNode, hd, parseGo]
    simp only [if_neg hT, if_pos hcond, h0]
    have ht3 : (((FigmaNode.mk f cs).flds.type = "FRAME".toList
          || (FigmaNode.mk f cs).flds.type = "COMPONENT".toList) &&
        (match (FigmaNode.mk f cs).children with
         | [c] => c.flds.type = "TEXT".toList && !((nameOr (.mk f cs)).contains '_')
         | _ => false)) = false := by
      rcases cs with - | ⟨c, - | ⟨d, rest⟩⟩ <;>
        simp [FigmaNode.children, hname, hcont, hmem]
    simp only [ht3]
    rfl

/-- The `_TEXT` wrapper of `C4_counterexample`: one `TEXT` child named
`"Hello"` under a frame named `"Wrap_TEXT"`. -/
def c4Wrapper : FigmaNode :=
  .mk { id := "w".toList, name := some "Wrap_TEXT".toList, type := "FRAME".toList }
    [ .mk { id := "c".toList, name := some "Hello".toList, type := "TEXT".toList,
            characters := some "hi".toList } [] ]

/-- C4 counterexample: `"Wrap_TEXT"` has exactly one `TEXT` descendant, so
the claim requires a `TEXT` node whose `componentName` is the wrapper name
with `_TEXT` stripped (`"Wrap"`); the code returns the collected text node
itself, with `componentName` `"Hello"`. -/
theorem C4_counterexample :
    endsWithL (nameOr c4Wrapper) "_TEXT".toList = true ∧
    (collectAllTextNodes c4Wrapper).length = 1 ∧
    (parseFigmaNode c4Wrapper).flds.componentName = some "Hello".toList ∧
    stripTextSuffix (nameOr c4Wrapper) = "Wrap".toList ∧
    (some "Hello".toList : Option Str) ≠ some "Wrap".toList := by
  decide

/-- Witness for `C4_text_wrapper_amended` on `c4Wrapper` (the
single-descendant branch). -/
theorem C4_text_wrapper_amended_witness :
    endsWithL (("Wrap_TEXT".toList : Option Str).getD [] ) "_TEXT".toList = true ∧
    parseFigmaNode c4Wrapper =
      .mk { id := "c".toList, componentType := "TEXT".toList,
            componentName := some "Hello".toList, text := some "hi".toList } none := by
  refine ⟨by decide, ?_⟩
  exact (C4_text_wrapper_amended _ _ (Or.inl rfl) (by decide)).1 _ rfl

/-! ## Structural lemmas about the sort model and the parser recursion -/

theorem mergePairs_flatten_perm (le : α → α → Bool) :
    ∀ rs : List (List α), (mergePairs le rs).flatten.Perm rs.flatten
  | [] => by simp [mergePairs]
  | [r] => by simp [mergePairs]
  | a :: b :: rest => by
    simp only [mergePairs, List.flatten_cons]
    have h1 : (a.merge b le ++ (mergePairs le rest).flatten).Perm ((a ++ b) ++ rest.flatten) :=
      List.Perm.append (List.perm_merge le a b) (mergePairs_flatten_perm le rest)
    simpa [List.append_assoc] using h1

theorem mergeRuns_perm (le : α → α → Bool) :
    ∀ (f : Nat) (rs : List (List α)), (mergeRuns le f rs).Perm rs.flatten := by
  intro f
  induction f with
  | zero =>
    intro rs
    rcases rs with - | ⟨r, - | ⟨s, rest⟩⟩ <;> simp [mergeRuns]
  | succ f ih =>
    intro rs
    rcases rs with - | ⟨r, - | ⟨s, rest⟩⟩
    · simp [mergeRuns]
    · simp [mergeRuns]
    · exact (ih _).trans (mergePairs_flatten_perm le _)

theorem jsSortBy_perm (le : α → α → Bool) (l : List α) : (jsSortBy le l).Perm l := by
  have hflat : (l.map fun x => [x]).flatten = l := by
    induction l with
    | nil => simp
    | cons c cs ih => simp [ih]
  have h := mergeRuns_perm le l.length (l.map fun x => [x])
  rw [hflat] at h
  exact h

theorem mem_of_mem_jsSortBy {le : α → α → Bool} {l : List α} {x : α}
    (h : x ∈ jsSortBy le l) : x ∈ l :=
  (jsSortBy_perm le l).subset h

theorem mem_of_mem_sortChildren {cs : List FigmaNode} {mode : Option Str} {x : FigmaNode}
    (h : x ∈ sortChildrenByPosition cs mode) : x ∈ cs := by
  rcases cs with - | ⟨c, rest⟩
  · simpa [sortChildrenByPosition] using h
  · have := @mem_of_mem_jsSortBy _ (posLe mode)
      ((c :: rest).filter fun c => c.flds.visible ≠ some false) x
      (by simpa [sortChildrenByPosition] using h)
    exact List.mem_of_mem_filter this

theorem figDepth_le_of_mem {c : FigmaNode} : ∀ {cs : List FigmaNode}, c ∈ cs → figDepth c ≤ figDepthL cs
  | [], h => by cases h
  | d :: rest, h => by
    rcases List.mem_cons.mp h with rfl | h
    · simp [figDepthL, Nat.le_max_left]
    · have := @figDepth_le_of_mem c rest h
      simp only [figDepthL]
      omega

theorem figDepth_lt_of_mem {f : FigFields} {cs : List FigmaNode} {c : FigmaNode}
    (h : c ∈ cs) : figDepth c < figDepth (.mk f cs) := by
  have := figDepth_le_of_mem h
  simp only [figDepth]
  omega

theorem flattenFold_congr {p q : FigmaNode → UITreeNode} :
    ∀ {l : List FigmaNode}, (∀ c ∈ l, p c = q c) → flattenFold p l = flattenFold q l
  | [], _ => rfl
  | c :: cs, h => by
    have hc := h c (List.mem_cons_self c cs)
    have hcs := flattenFold_congr (l := cs) fun d hd => h d (List.mem_cons_of_mem _ hd)
    simp only [flattenFold, List.foldr_cons] at hcs ⊢
    rw [hc, hcs]

theorem parseCardNodeP_congr {p q : FigmaNode → UITreeNode} {n : FigmaNode} {t : UITreeNode}
    (h : ∀ c ∈ n.children, p c = q c) :
    parseCardNodeP p n t = parseCardNodeP q n t := by
  rcases n with ⟨f, cs⟩
  have hch : (FigmaNode.mk f cs).children = cs := rfl
  rw [hch] at h
  rcases cs with - | ⟨c, rest⟩
  · rfl
  · have hf : flattenFold p (sortChildrenByPosition (c :: rest) (FigmaNode.mk f (c :: rest)).flds.layoutMode)
        = flattenFold q (sortChildrenByPosition (c :: rest) (FigmaNode.mk f (c :: rest)).flds.layoutMode) :=
      flattenFold_congr fun d hd => h d (mem_of_mem_sortChildren hd)
    simp only [parseCardNodeP, hch]
    rw [hf]

theorem parseLayoutNodeP_congr {p q : FigmaNode → UITreeNode} {n : FigmaNode} {t : UITreeNode}
    (h : ∀ c ∈ n.children, p c = q c) :
    parseLayoutNodeP p n t = parseLayoutNodeP q n t := by
  rcases n with ⟨f, cs⟩
  have hch : (FigmaNode.mk f cs).children = cs := rfl
  rw [hch] at h
  rcases cs with - | ⟨c, rest⟩
  · rfl
  · have hf : flattenFold p ((sortChildrenByPosition (c :: rest) (FigmaNode.mk f (c :: rest)).flds.layoutMode).filter
          fun c => c.flds.type ≠ "TEXT".toList)
        = flattenFold q ((sortChildrenByPosition (c :: rest) (FigmaNode.mk f (c :: rest)).flds.layoutMode).filter
          fun c => c.flds.type ≠ "TEXT".toList) :=
      flattenFold_congr fun d hd =>
        h d (mem_of_mem_sortChildren (List.mem_of_mem_filter hd))
    simp only [parseLayoutNodeP, hch]
    rw [hf]

theorem dispatchLeaf_congr {p q : FigmaNode → UITreeNode} {n : FigmaNode}
    (h : ∀ c ∈ n.children, p c = q c) (ct : Str) (t : UITreeNode) :
    dispatchLeaf p ct n t = dispatchLeaf q ct n t := by
  unfold dispatchLeaf
  by_cases h1 : ct = "TEXT".toList
  · simp only [if_pos h1]
  simp only [if_neg h1]
  by_cases h2 : ct = "BUTTON".toList
  · simp only [if_pos h2]
  simp only [if_neg h2]
  by_cases h3 : ct = "CHIP".toList
  · simp only [if_pos h3]
  simp only [if_neg h3]
  by_cases h4 : ct = "CARD".toList
  · simp only [if_pos h4]
    exact parseCardNodeP_congr h
  simp only [if_neg h4]
  by_cases h5 : (decide (ct = "INPUT".toList) || decide (ct = "SEARCHABLE_INPUT".toList)) = true
  · simp only [if_pos h5]
  simp only [if_neg h5]
  by_cases h6 : (decide (ct = "SVG".toList) || decide (ct = "ICON".toList)) = true
  · simp only [if_pos h6]
  simp only [if_neg h6]
  by_cases h7 : ct = "DROPDOWN".toList
  · simp only [if_pos h7]
  simp only [if_neg h7]
  by_cases h8 : ct = "CHECKBOX".toList
  · simp only [if_pos h8]
  simp only [if_neg h8]
  by_cases h9 : ct = "RADIO".toList
  · simp only [if_pos h9]
  simp only [if_neg h9]
  by_cases h10 : (decide (ct = "VIEW".toList) || decide (ct = "SCROLLABLE_VIEW".toList)
      || decide (ct = "HEADER".toList) || decide (ct = "TOPBAR".toList)
      || decide (ct = "SAFEAREAVIEW".toList)) = true
  · simp only [if_pos h10]
    exact parseLayoutNodeP_congr h
  simp only [if_neg h10]
  by_cases h11 : strTruthy n.flds.layoutMode = true
  · simp only [if_pos h11]
    exact parseLayoutNodeP_congr h
  simp only [if_neg h11]

theorem dispatchComp_congr {p q : FigmaNode → UITreeNode} {n : FigmaNode}
    (h : ∀ c ∈ n.children, p c = q c) (cn : Option Str) (ct r : Str) :
    dispatchComp p cn ct r n = dispatchComp q cn ct r n := by
  unfold dispatchComp
  by_cases hc : ct = "TOUCHABLE_CARD".toList
  · simp only [if_pos hc]
  · simp only [if_neg hc]
    exact dispatchLeaf_congr h ct _

theorem parseAfterText_congr {p q : FigmaNode → UITreeNode} {n : FigmaNode}
    (h : ∀ c ∈ n.children, p c = q c) :
    parseAfterText p n = parseAfterText q n := by
  unfold parseAfterText
  exact dispatchComp_congr h _ _ _

theorem parseGo_fuel : ∀ (k : Nat), ∀ (n : FigmaNode) (g : Nat),
    figDepth n ≤ k → figDepth n ≤ g → parseGo k n = parseGo g n := by
  intro k
  induction k using Nat.strong_induction_on with
  | _ k ih =>
    intro n g hk hg
    rcases n with ⟨f, cs⟩
    have hd : figDepth (.mk f cs) = figDepthL cs + 1 := by simp [figDepth]
    rcases k with - | k'
    · rw [hd] at hk; omega
    rcases g with - | g'
    · rw [hd] at hg; omega
    have hcongr : parseAfterText (fun m => parseGo k' m) (.mk f cs)
        = parseAfterText (fun m => parseGo g' m) (.mk f cs) := by
      apply parseAfterText_congr
      intro m hm
      have hdm : figDepth m < figDepth (.mk f cs) := figDepth_lt_of_mem hm
      rw [hd] at hdm hk hg
      exact ih k' (Nat.lt_succ_self k') m g' (by omega) (by omega)
    unfold parseGo
    rw [hcongr]

/-- `parseFigmaNode` equals `parseGo` at any sufficient fuel. -/
theorem parseFigmaNode_eq_parseGo {n : FigmaNode} {f : Nat} (h : figDepth n ≤ f) :
    parseFigmaNode n = parseGo f n := by
  unfold parseFigmaNode
  exact parseGo_fuel (figDepth n) n f le_rfl h

/-- When none of the three TEXT-detection rules T1–T3 fires, one step of
`parseFigmaNode` is exactly `parseAfterText` with `parseFigmaNode` itself
as the recursive parser. -/
theorem parseFigmaNode_step (f : FigFields) (cs : List FigmaNode)
    (hT1 : ¬(f.type = "TEXT".toList))
    (ht3 : ((f.type = "FRAME".toList || f.type = "COMPONENT".toList) &&
        (match cs with
         | [c] => c.flds.type = "TEXT".toList && !((f.name.getD []).contains '_')
         | _ => false)) = false)
    (hcollect : ((f.type = "FRAME".toList || f.type = "COMPONENT".toList)
        && endsWithL (f.name.getD []) "_TEXT".toList) = true →
      collectAllTextNodes (.mk f cs) = []) :
    parseFigmaNode (.mk f cs) = parseAfterText parseFigmaNode (.mk f cs) := by
  have hd : figDepth (.mk f cs) = figDepthL cs + 1 := by simp [figDepth]
  have hT : ¬((FigmaNode.mk f cs).flds.type = "TEXT".toList) := hT1
  have hcongr : parseAfterText (fun m => parseGo (figDepthL cs) m) (.mk f cs)
      = parseAfterText parseFigmaNode (.mk f cs) := by
    apply parseAfterText_congr
    intro m hm
    have hdm : figDepth m < figDepth (.mk f cs) := figDepth_lt_of_mem hm
    rw [hd] at hdm
    exact (parseFigmaNode_eq_parseGo (show figDepth m ≤ figDepthL cs by omega)).symm
  have ht3b : (((FigmaNode.mk f cs).flds.type = "FRAME".toList
        || (FigmaNode.mk f cs).flds.type = "COMPONENT".toList) &&
      (match (FigmaNode.mk f cs).children with
       | [c] => c.flds.type = "TEXT".toList && !((nameOr (.mk f cs)).contains '_')
       | _ => false)) = false := ht3
  have hnot : ¬((((FigmaNode.mk f cs).flds.type = "FRAME".toList
        || (FigmaNode.mk f cs).flds.type = "COMPONENT".toList) &&
      (match (FigmaNode.mk f cs).children with
       | [c] => c.flds.type = "TEXT".toList && !((nameOr (.mk f cs)).contains '_')
       | _ => false)) = true) := by
    rw [ht3b]; simp
  rw [parseFigmaNode, hd, parseGo]
  by_cases hb : (((FigmaNode.mk f cs).flds.type = "FRAME".toList
      || (FigmaNode.mk f cs).flds.type = "COMPONENT".toList)
      && endsWithL (nameOr (.mk f cs)) "_TEXT".toList) = true
  · simp only [if_neg hT, if_pos hb, hcollect hb, if_neg hnot]
    exact hcongr
  · simp only [if_neg hT, if_neg hb, if_neg hnot]
    exact hcongr

/-! ## Children/componentType preservation lemmas -/

theorem updF_children (t : UITreeNode) (g : UIFields → UIFields) :
    (t.updF g).children = t.children := rfl

theorem withChildren_flds (t : UITreeNode) (c : Option (List UITreeNode)) :
    (t.withChildren c).flds = t.flds := rfl

theorem withChildren_children (t : UITreeNode) (c : Option (List UITreeNode)) :
    (t.withChildren c).children = c := rfl

theorem attachLayout_children (n : FigmaNode) (t : UITreeNode) :
    (attachLayout n t).children = t.children := by
  unfold attachLayout
  split <;> rfl

theorem attachLayout_componentType (n : FigmaNode) (t : UITreeNode) :
    (attachLayout n t).flds.componentType = t.flds.componentType := by
  unfold attachLayout
  split <;> rfl

theorem extractTextChildren_children (n : FigmaNode) (t : UITreeNode) :
    (extractTextChildren n t).children = t.children := by
  simp only [extractTextChildren]
  repeat' split
  all_goals rfl

theorem extractTextChildren_componentType (n : FigmaNode) (t : UITreeNode) :
    (extractTextChildren n t).flds.componentType = t.flds.componentType := by
  simp only [extractTextChildren]
  repeat' split
  all_goals rfl

theorem dcBase_children (cn : Option Str) (ct r : Str) (n : FigmaNode) :
    (dcBase cn ct r n).children = none := by
  simp only [dcBase, attachLayout]
  repeat' split
  all_goals rfl

theorem dcBase_componentType (cn : Option Str) (ct r : Str) (n : FigmaNode) :
    (dcBase cn ct r n).flds.componentType = ct := by
  simp only [dcBase, attachLayout]
  repeat' split
  all_goals rfl

theorem flattenFold_nil (p : FigmaNode → UITreeNode) : flattenFold p [] = [] := rfl

theorem flattenFold_cons (p : FigmaNode → UITreeNode) (a : FigmaNode) (l : List FigmaNode) :
    flattenFold p (a :: l) =
      (if ((p a).componentType = "VIEW".toList && !hasSemanticContent (p a)) = true
       then (p a).childrenD else [p a]) ++ flattenFold p l := rfl

/-- Every processed child contributes to the flattened list: its own
parse when it is kept, or all of its children when it is a hoisted
content-less `VIEW`. -/
theorem flattenFold_mem_of_mem (p : FigmaNode → UITreeNode) {l : List FigmaNode} {c : FigmaNode}
    (hc : c ∈ l) :
    (((p c).componentType = "VIEW".toList && !hasSemanticContent (p c)) = true →
        ∀ g ∈ (p c).childrenD, g ∈ flattenFold p l) ∧
    (((p c).componentType = "VIEW".toList && !hasSemanticContent (p c)) = false →
        p c ∈ flattenFold p l) := by
  induction l with
  | nil => cases hc
  | cons a l ih =>
    rw [flattenFold_cons]
    rcases List.mem_cons.mp hc with rfl | hc
    · constructor
      · intro hb g hg
        rw [if_pos hb]
        exact List.mem_append_left _ hg
      · intro hb
        have hb2 : ¬((((p c).componentType = "VIEW".toList && !hasSemanticContent (p c)) : Bool) = true) := by
          intro h2
          rw [h2] at hb
          exact absurd hb (by decide)
        rw [if_neg hb2]
        exact List.mem_append_left _ (List.mem_singleton.mpr rfl)
    · exact ⟨fun hb g hg => List.mem_append_right _ ((ih hc).1 hb g hg),
        fun hb => List.mem_append_right _ ((ih hc).2 hb)⟩

/-- Away from the `VECTOR` override, `parseAfterText` is the dispatch on
the classified name. -/
theorem parseAfterText_notVector (p : FigmaNode → UITreeNode) (n : FigmaNode)
    (hvec : ¬(n.flds.type = "VECTOR".toList)) :
    parseAfterText p n =
      dispatchComp p (parseComponentName (nameOr n)).componentName
        (parseComponentName (nameOr n)).componentType (parseComponentName (nameOr n)).role n := by
  unfold parseAfterText
  have hv : (decide (n.flds.type = "VECTOR".toList)
      && decide ((parseComponentName (nameOr n)).componentType = "UNKNOWN".toList)) = false := by
    rw [decide_eq_false hvec, Bool.false_and]
  have hv2 : ¬((decide (n.flds.type = "VECTOR".toList)
      && decide ((parseComponentName (nameOr n)).componentType = "UNKNOWN".toList)) = true) := by
    rw [hv]; decide
  simp only [if_neg hv2]

theorem dispatchLeaf_UNKNOWN (p : FigmaNode → UITreeNode) (n : FigmaNode) (t : UITreeNode) :
    dispatchLeaf p "UNKNOWN".toList n t =
      if strTruthy n.flds.layoutMode then parseLayoutNodeP p n t else t := rfl

theorem dispatchComp_UNKNOWN (p : FigmaNode → UITreeNode) (cn : Option Str) (r : Str)
    (n : FigmaNode) :
    dispatchComp p cn "UNKNOWN".toList r n =
      if strTruthy n.flds.layoutMode then parseLayoutNodeP p n (dcBase cn "UNKNOWN".toList r n)
      else dcBase cn "UNKNOWN".toList r n := by
  unfold dispatchComp
  rw [if_neg (by decide : ¬("UNKNOWN".toList = "TOUCHABLE_CARD".toList)), dispatchLeaf_UNKNOWN]

theorem parseLayoutNodeP_children (p : FigmaNode → UITreeNode) (n : FigmaNode) (t : UITreeNode)
    (ht : t.children = none) :
    (parseLayoutNodeP p n t).children =
      (let kids := flattenFold p
          ((sortChildrenByPosition n.children n.flds.layoutMode).filter fun c =>
            c.flds.type ≠ "TEXT".toList)
       if kids.isEmpty then none else some kids) := by
  rcases n with ⟨f, cs⟩
  have hch : (FigmaNode.mk f cs).children = cs := rfl
  have hpre : (extractTextChildren (.mk f cs) (attachLayout (.mk f cs) t)).children = none := by
    rw [extractTextChildren_children, attachLayout_children, ht]
  rcases cs with - | ⟨c, rest⟩
  · simp only [parseLayoutNodeP, hch]
    rw [hpre]
    rfl
  · simp only [parseLayoutNodeP, hch]
    by_cases he : (flattenFold p
        ((sortChildrenByPosition (c :: rest) (FigmaNode.mk f (c :: rest)).flds.layoutMode).filter
          fun c => c.flds.type ≠ "TEXT".toList)).isEmpty = true
    · simp only [if_pos he]
      rw [hpre]
    · simp only [if_neg he]
      rfl

theorem parseLayoutNodeP_componentType (p : FigmaNode → UITreeNode) (n : FigmaNode)
    (t : UITreeNode) :
    (parseLayoutNodeP p n t).flds.componentType = t.flds.componentType := by
  rcases n with ⟨f, cs⟩
  have hch : (FigmaNode.mk f cs).children = cs := rfl
  have hpre : (extractTextChildren (.mk f cs) (attachLayout (.mk f cs) t)).flds.componentType
      = t.flds.componentType := by
    rw [extractTextChildren_componentType, attachLayout_componentType]
  rcases cs with - | ⟨c, rest⟩
  · simp only [parseLayoutNodeP, hch]
    exact hpre
  · simp only [parseLayoutNodeP, hch]
    split
    · exact hpre
    · rw [withChildren_flds]
      exact hpre

theorem mem_sortChildren_of_mem {cs : List FigmaNode} {mode : Option Str} {x : FigmaNode}
    (hx : x ∈ cs) (hv : x.flds.visible ≠ some false) : x ∈ sortChildrenByPosition cs mode := by
  rcases cs with - | ⟨c, rest⟩
  · cases hx
  · show x ∈ jsSortBy (posLe mode) ((c :: rest).filter fun c => c.flds.visible ≠ some false)
    exact (jsSortBy_perm _ _).mem_iff.mpr (List.mem_filter.mpr ⟨hx, decide_eq_true hv⟩)

/-- C10: a node classified `UNKNOWN` (with no TEXT-detection rule firing
and no `VECTOR` override) keeps `componentType` `UNKNOWN`; without a
truthy `layoutMode` it is returned childless, while with one it is parsed
as a layout container: its children are the flatten-fold of the
recursively parsed visible, non-`TEXT` children in visually sorted order,
so every such child's parse (or, for a hoisted content-less `VIEW`, each
of its children) is preserved in the result. -/
theorem C10_unknown_layout (f : FigFields) (cs : List FigmaNode)
    (hct : (parseComponentName (f.name.getD [])).componentType = "UNKNOWN".toList)
    (hT1 : ¬(f.type = "TEXT".toList))
    (hvec : ¬(f.type = "VECTOR".toList))
    (ht3 : ((f.type = "FRAME".toList || f.type = "COMPONENT".toList) &&
        (match cs with
         | [c] => c.flds.type = "TEXT".toList && !((f.name.getD []).contains '_')
         | _ => false)) = false)
    (hcollect : ((f.type = "FRAME".toList || f.type = "COMPONENT".toList)
        && endsWithL (f.name.getD []) "_TEXT".toList) = true →
      collectAllTextNodes (.mk f cs) = []) :
    (parseFigmaNode (.mk f cs)).flds.componentType = "UNKNOWN".toList
    ∧ (strTruthy f.layoutMode = false → (parseFigmaNode (.mk f cs)).children = none)
    ∧ (strTruthy f.layoutMode = true →
        ((parseFigmaNode (.mk f cs)).children =
          (let kids := flattenFold parseFigmaNode
              ((sortChildrenByPosition cs f.layoutMode).filter fun c =>
                c.flds.type ≠ "TEXT".toList)
           if kids.isEmpty then none else some kids))
        ∧ ∀ c ∈ cs, c.flds.visible ≠ some false → ¬(c.flds.type = "TEXT".toList) →
            (parseFigmaNode c ∈ (parseFigmaNode (.mk f cs)).childrenD ∨
              ∀ g ∈ (parseFigmaNode c).childrenD, g ∈ (parseFigmaNode (.mk f cs)).childrenD)) := by
  have hstep := parseFigmaNode_step f cs hT1 ht3 hcollect
  have hafter := parseAfterText_notVector parseFigmaNode (.mk f cs) hvec
  have hname : nameOr (.mk f cs) = f.name.getD [] := rfl
  rw [hname, hct] at hafter
  have hdisp := dispatchComp_UNKNOWN parseFigmaNode
    (parseComponentName (f.name.getD [])).componentName
    (parseComponentName (f.name.getD [])).role (.mk f cs)
  have hmain := hstep.trans (hafter.trans hdisp)
  have hlm : (FigmaNode.mk f cs).flds.layoutMode = f.layoutMode := rfl
  rw [hlm] at hmain
  have hch3 : strTruthy f.layoutMode = true →
      (parseFigmaNode (.mk f cs)).children =
        (let kids := flattenFold parseFigmaNode
            ((sortChildrenByPosition cs f.layoutMode).filter fun c =>
              c.flds.type ≠ "TEXT".toList)
         if kids.isEmpty then none else some kids) := by
    intro hb1
    rw [hmain, if_pos hb1, parseLayoutNodeP_children _ _ _ (dcBase_children _ _ _ _)]
    rfl
  have hkd : strTruthy f.layoutMode = true →
      (parseFigmaNode (.mk f cs)).childrenD =
        flattenFold parseFigmaNode
          ((sortChildrenByPosition cs f.layoutMode).filter fun c =>
            c.flds.type ≠ "TEXT".toList) := by
    intro hb1
    unfold UITreeNode.childrenD
    rw [hch3 hb1]
    by_cases he : (flattenFold parseFigmaNode
        ((sortChildrenByPosition cs f.layoutMode).filter fun c =>
          c.flds.type ≠ "TEXT".toList)).isEmpty = true
    · simp only [if_pos he]
      rw [List.isEmpty_iff.mp he]
      rfl
    · simp only [if_neg he]
      rfl
  refine ⟨?_, ?_, ?_⟩
  · rw [hmain]
    by_cases hb : strTruthy f.layoutMode = true
    · rw [if_pos hb, parseLayoutNodeP_componentType, dcBase_componentType]
    · rw [if_neg hb, dcBase_componentType]
  · intro hb0
    rw [hmain, if_neg (by rw [hb0]; decide), dcBase_children]
  · intro hb1
    refine ⟨hch3 hb1, ?_⟩
    intro c hcmem hvis htype
    have hcf : c ∈ (sortChildrenByPosition cs f.layoutMode).filter
        (fun c => c.flds.type ≠ "TEXT".toList) :=
      List.mem_filter.mpr ⟨mem_sortChildren_of_mem hcmem hvis, decide_eq_true htype⟩
    have hmm := flattenFold_mem_of_mem parseFigmaNode hcf
    cases hbv : (((parseFigmaNode c).componentType = "VIEW".toList
        && !hasSemanticContent (parseFigmaNode c)) : Bool) with
    | true =>
      right
      intro g hg
      rw [hkd hb1]
      exact hmm.1 hbv g hg
    | false =>
      left
      rw [hkd hb1]
      exact hmm.2 hbv

/-- Scalar fields of the `C10_unknown_layout_witness` node: an
auto-layout `FRAME` whose name matches no `Name_TYPE` pattern. -/
def c10F : FigFields :=
  { id := "u1".toList, name := some "mystery box".toList, type := "FRAME".toList,
    layoutMode := some "VERTICAL".toList }

/-- Children of the `C10_unknown_layout_witness` node. -/
def c10Cs : List FigmaNode :=
  [ .mk { id := "u2".toList, name := some "child_BUTTON".toList, type := "INSTANCE".toList } [] ]

theorem C10_unknown_layout_witness :
    (parseFigmaNode (.mk c10F c10Cs)).flds.componentType = "UNKNOWN".toList
    ∧ (strTruthy c10F.layoutMode = false → (parseFigmaNode (.mk c10F c10Cs)).children = none)
    ∧ (strTruthy c10F.layoutMode = true →
        ((parseFigmaNode (.mk c10F c10Cs)).children =
          (let kids := flattenFold parseFigmaNode
              ((sortChildrenByPosition c10Cs c10F.layoutMode).filter fun c =>
                c.flds.type ≠ "TEXT".toList)
           if kids.isEmpty then none else some kids))
        ∧ ∀ c ∈ c10Cs, c.flds.visible ≠ some false → ¬(c.flds.type = "TEXT".toList) →
            (parseFigmaNode c ∈ (parseFigmaNode (.mk c10F c10Cs)).childrenD ∨
              ∀ g ∈ (parseFigmaNode c).childrenD,
                g ∈ (parseFigmaNode (.mk c10F c10Cs)).childrenD)) :=
  C10_unknown_layout c10F c10Cs (by decide) (by decide) (by decide) (by decide)
    (fun h => absurd h (by decide))

/-! ## Claim C3: the leaf-collapse invariant -/

/-- The componentTypes handled by a dedicated childless leaf parser in the
dispatch (the source's dispatch has no case for `AVATAR`, `LISTITEM`,
`SPACER`, `SWITCH`). -/
def leafTypes : List Str :=
  ["TEXT".toList, "BUTTON".toList, "INPUT".toList, "SEARCHABLE_INPUT".toList,
   "ICON".toList, "SVG".toList, "CHECKBOX".toList, "RADIO".toList,
   "DROPDOWN".toList, "CHIP".toList]

/-- `SubUI t r`: `t` occurs in the tree `r` (reflexive-transitive descent
through `children`). -/
inductive SubUI : UITreeNode → UITreeNode → Prop
  | refl (t : UITreeNode) : SubUI t t
  | child {t c r : UITreeNode} : c ∈ r.childrenD → SubUI t c → SubUI t r

theorem SubUI.trans {a b c : UITreeNode} (h1 : SubUI a b) (h2 : SubUI b c) : SubUI a c := by
  induction h2 with
  | refl => exact h1
  | child hc _ ih => exact SubUI.child hc ih

theorem SubUI.eq_of_none {t r : UITreeNode} (hr : r.children = none) (h : SubUI t r) : t = r := by
  cases h with
  | refl => rfl
  | child hc _ =>
    unfold UITreeNode.childrenD at hc
    rw [hr] at hc
    cases hc

/-- All leaf-typed nodes occurring in `r` are childless. -/
def LeafInv (r : UITreeNode) : Prop :=
  ∀ t, SubUI t r → t.componentType ∈ leafTypes → t.children = none

theorem leafInv_childless {r : UITreeNode} (hr : r.children = none) : LeafInv r :=
  fun t ht _ => (SubUI.eq_of_none hr ht) ▸ hr

theorem foldl_pres_children {α : Type} (g : UITreeNode → α → UITreeNode)
    (hg : ∀ t a, (g t a).children = t.children) :
    ∀ (l : List α) (t : UITreeNode), (l.foldl g t).children = t.children
  | [], _ => rfl
  | a :: l, t => by
    rw [List.foldl_cons, foldl_pres_children g hg l (g t a), hg]

theorem cardPre_children (n : FigmaNode) (t : UITreeNode) :
    (cardPre n t).children = t.children := by
  simp only [cardPre, extractCardVariant]
  repeat' split
  all_goals rfl

set_option maxHeartbeats 2000000 in
theorem cardPre_componentType (n : FigmaNode) (t : UITreeNode) :
    (cardPre n t).flds.componentType = t.flds.componentType := by
  simp only [cardPre, extractCardVariant]
  repeat' split
  all_goals rfl

theorem parseTextNode_children (n : FigmaNode) (t : UITreeNode) :
    (parseTextNode n t).children = t.children := by
  simp only [parseTextNode]
  repeat' split
  all_goals rfl

theorem updProps_children (t : UITreeNode) (g : UIProps → UIProps) :
    (t.updProps g).children = t.children := rfl

theorem updHints_children (t : UITreeNode) (g : StyleHints → StyleHints) :
    (t.updHints g).children = t.children := rfl

theorem extractVariant_children (n : FigmaNode) (t : UITreeNode) :
    (extractVariant n t).children = t.children := rfl

theorem btnText_children (scan : Option (FigmaNode × Option Nat)) (t : UITreeNode) :
    (btnText scan t).children = t.children := by
  simp only [btnText]
  repeat' split
  all_goals rfl

theorem btnIcons_children (scan : Option (FigmaNode × Option Nat))
    (iconPairs : List (Nat × FigmaNode)) (t : UITreeNode) :
    (btnIcons scan iconPairs t).children = t.children := by
  have hstep : ∀ (tX : Rat) (t0 : UITreeNode) (a0 : Nat × FigmaNode),
      ((fun (t : UITreeNode) (ic : Nat × FigmaNode) =>
          let iconX : Rat := (ic.2.flds.absoluteBoundingBox.map FigBox.x).getD 0
          if iconX < tX then t.updProps fun p => { p with leftIcon := some (cleanIconName ic.2) }
          else t.updProps fun p => { p with rightIcon := some (cleanIconName ic.2) }) t0 a0).children
        = t0.children := by
    intro tX t0 a0
    dsimp only
    split <;> rfl
  simp only [btnIcons]
  repeat' split
  all_goals
    first
      | rfl
      | exact foldl_pres_children _ (hstep _) _ _

theorem btnOpacity_children (n : FigmaNode) (t : UITreeNode) :
    (btnOpacity n t).children = t.children := by
  simp only [btnOpacity]
  repeat' split
  all_goals rfl

theorem parseButtonNode_children (n : FigmaNode) (t : UITreeNode) :
    (parseButtonNode n t).children = t.children := by
  simp only [parseButtonNode]
  rw [updF_children, btnOpacity_children, btnIcons_children, btnText_children,
    extractVariant_children, updProps_children, updHints_children, attachLayout_children]

set_option maxHeartbeats 2000000 in
theorem parseChipNode_children (n : FigmaNode) (t : UITreeNode) :
    (parseChipNode n t).children = t.children := by
  simp only [parseChipNode, attachLayout]
  repeat' split
  all_goals rfl

theorem parseInputNode_children (n : FigmaNode) (t : UITreeNode) :
    (parseInputNode n t).children = t.children := by
  simp only [parseInputNode, attachLayout]
  repeat' split
  all_goals rfl

theorem parseIconNode_children (n : FigmaNode) (t : UITreeNode) :
    (parseIconNode n t).children = t.children := rfl

theorem parseDropdownNode_children (n : FigmaNode) (t : UITreeNode) :
    (parseDropdownNode n t).children = t.children := by
  simp only [parseDropdownNode, attachLayout]
  repeat' split
  all_goals rfl

theorem parseCheckboxNode_children (n : FigmaNode) (t : UITreeNode) :
    (parseCheckboxNode n t).children = t.children := by
  have hstep : ∀ (t0 : UITreeNode) (a0 : FigmaNode),
      ((fun (t : UITreeNode) (c : FigmaNode) =>
          let childName := nameOr c
          let t :=
            if childName = "_TRUE".toList then t.updProps fun p => { p with checked := some true }
            else if childName = "_FALSE".toList then t.updProps fun p => { p with checked := some false }
            else t
          if c.flds.type = "TEXT".toList then
            let labelText := orStr c.flds.characters (orStr c.flds.name [])
            if labelText.isEmpty then t else t.updProps fun p => { p with label := some labelText }
          else t) t0 a0).children = t0.children := by
    intro t0 a0
    dsimp only
    repeat' split
    all_goals rfl
  simp only [parseCheckboxNode, attachLayout]
  repeat' split
  all_goals
    first
      | rfl
      | exact (foldl_pres_children _ hstep _ _).trans rfl

theorem parseRadioNode_children (n : FigmaNode) (t : UITreeNode) :
    (parseRadioNode n t).children = t.children := by
  have hstep : ∀ (t0 : UITreeNode) (a0 : FigmaNode),
      ((fun (t : UITreeNode) (c : FigmaNode) =>
          let childName := nameOr c
          let t :=
            if childName = "_TRUE".toList then t.updProps fun p => { p with selected := some true }
            else if childName = "_FALSE".toList then t.updProps fun p => { p with selected := some false }
            else t
          if c.flds.type = "TEXT".toList then
            let labelText := c.flds.characters.getD []
            if labelText.isEmpty then t else t.updProps fun p => { p with label := some labelText }
          else t) t0 a0).children = t0.children := by
    intro t0 a0
    dsimp only
    repeat' split
    all_goals rfl
  simp only [parseRadioNode, attachLayout]
  repeat' split
  all_goals
    first
      | rfl
      | exact (foldl_pres_children _ hstep _ _).trans rfl

theorem parseTouchableCard_children (n : FigmaNode) (cn : Option Str) (r : Str) :
    (parseTouchableCard n cn r).children = none := by
  simp only [parseTouchableCard, extractVariant]
  repeat' split
  all_goals rfl

mutual
theorem collectAllTextNodes_childless : ∀ (n : FigmaNode), ∀ u ∈ collectAllTextNodes n, u.children = none
  | .mk f cs, u, hu => by
    unfold collectAllTextNodes at hu
    split at hu
    · rw [List.mem_singleton.mp hu]
      rfl
    · exact collectAllTextInList_childless cs u hu

theorem collectAllTextInList_childless : ∀ (l : List FigmaNode), ∀ u ∈ collectAllTextInList l, u.children = none
  | c :: cs, u, hu => by
    unfold collectAllTextInList at hu
    rcases List.mem_append.mp hu with h | h
    · exact collectAllTextNodes_childless c u h
    · exact collectAllTextInList_childless cs u h
end

theorem subui_of_mem_flattenFold {p : FigmaNode → UITreeNode} {l : List FigmaNode}
    {x : UITreeNode} (hx : x ∈ flattenFold p l) : ∃ m ∈ l, SubUI x (p m) := by
  induction l with
  | nil => cases hx
  | cons a l ih =>
    rw [flattenFold_cons] at hx
    rcases List.mem_append.mp hx with h1 | h2
    · refine ⟨a, List.mem_cons_self a l, ?_⟩
      split at h1
      · exact SubUI.child h1 (SubUI.refl x)
      · rw [List.mem_singleton.mp h1]
        exact SubUI.refl _
    · obtain ⟨m, hm, hs⟩ := ih h2
      exact ⟨m, List.mem_cons_of_mem _ hm, hs⟩

theorem parseCardNodeP_children (p : FigmaNode → UITreeNode) (n : FigmaNode) (t : UITreeNode)
    (ht : t.children = none) :
    (parseCardNodeP p n t).children =
      (let kids := flattenFold p (sortChildrenByPosition n.children n.flds.layoutMode)
       if kids.isEmpty then none else some kids) := by
  rcases n with ⟨f, cs⟩
  have hch : (FigmaNode.mk f cs).children = cs := rfl
  have hpre : (cardPre (.mk f cs) t).children = none := by
    rw [cardPre_children, ht]
  rcases cs with - | ⟨c, rest⟩
  · simp only [parseCardNodeP, hch]
    rw [hpre]
    rfl
  · simp only [parseCardNodeP, hch]
    by_cases he : (flattenFold p
        (sortChildrenByPosition (c :: rest) (FigmaNode.mk f (c :: rest)).flds.layoutMode)).isEmpty = true
    · simp only [if_pos he]
      rw [hpre]
    · simp only [if_neg he]
      rfl

theorem parseCardNodeP_componentType (p : FigmaNode → UITreeNode) (n : FigmaNode)
    (t : UITreeNode) :
    (parseCardNodeP p n t).flds.componentType = t.flds.componentType := by
  rcases n with ⟨f, cs⟩
  have hch : (FigmaNode.mk f cs).children = cs := rfl
  have hpre : (cardPre (.mk f cs) t).flds.componentType = t.flds.componentType :=
    cardPre_componentType _ _
  rcases cs with - | ⟨c, rest⟩
  · simp only [parseCardNodeP, hch]
    exact hpre
  · simp only [parseCardNodeP, hch]
    split
    · exact hpre
    · rw [withChildren_flds]
      exact hpre

theorem parseCardNodeP_leafInv (p : FigmaNode → UITreeNode) (n : FigmaNode) (t : UITreeNode)
    (hp : ∀ m, LeafInv (p m)) (ht : t.children = none)
    (hct : t.flds.componentType ∉ leafTypes) : LeafInv (parseCardNodeP p n t) := by
  intro t0 hsub hleaf
  cases hsub with
  | refl =>
    rw [UITreeNode.componentType, parseCardNodeP_componentType] at hleaf
    exact absurd hleaf hct
  | child hc hs =>
    unfold UITreeNode.childrenD at hc
    rw [parseCardNodeP_children p n t ht] at hc
    by_cases he : (flattenFold p (sortChildrenByPosition n.children n.flds.layoutMode)).isEmpty = true
    · simp only [if_pos he, Option.getD_none] at hc
      cases hc
    · simp only [if_neg he, Option.getD_some] at hc
      obtain ⟨m, _, hsm⟩ := subui_of_mem_flattenFold hc
      exact hp m t0 (hs.trans hsm) hleaf

theorem parseLayoutNodeP_leafInv (p : FigmaNode → UITreeNode) (n : FigmaNode) (t : UITreeNode)
    (hp : ∀ m, LeafInv (p m)) (ht : t.children = none)
    (hct : t.flds.componentType ∉ leafTypes) : LeafInv (parseLayoutNodeP p n t) := by
  intro t0 hsub hleaf
  cases hsub with
  | refl =>
    rw [UITreeNode.componentType, parseLayoutNodeP_componentType] at hleaf
    exact absurd hleaf hct
  | child hc hs =>
    unfold UITreeNode.childrenD at hc
    rw [parseLayoutNodeP_children p n t ht] at hc
    by_cases he : (flattenFold p
        ((sortChildrenByPosition n.children n.flds.layoutMode).filter fun c =>
          c.flds.type ≠ "TEXT".toList)).isEmpty = true
    · simp only [if_pos he, Option.getD_none] at hc
      cases hc
    · simp only [if_neg he, Option.getD_some] at hc
      obtain ⟨m, _, hsm⟩ := subui_of_mem_flattenFold hc
      exact hp m t0 (hs.trans hsm) hleaf

theorem dispatchLeaf_leafInv (p : FigmaNode → UITreeNode) (ct : Str) (n : FigmaNode)
    (t : UITreeNode) (hp : ∀ m, LeafInv (p m)) (ht : t.children = none)
    (hctt : t.flds.componentType = ct) : LeafInv (dispatchLeaf p ct n t) := by
  unfold dispatchLeaf
  by_cases h1 : ct = "TEXT".toList
  · simp only [if_pos h1]
    exact leafInv_childless (by rw [parseTextNode_children, ht])
  simp only [if_neg h1]
  by_cases h2 : ct = "BUTTON".toList
  · simp only [if_pos h2]
    exact leafInv_childless (by rw [parseButtonNode_children, ht])
  simp only [if_neg h2]
  by_cases h3 : ct = "CHIP".toList
  · simp only [if_pos h3]
    exact leafInv_childless (by rw [parseChipNode_children, ht])
  simp only [if_neg h3]
  by_cases h4 : ct = "CARD".toList
  · simp only [if_pos h4]
    exact parseCardNodeP_leafInv p n t hp ht (by rw [hctt, h4]; decide)
  simp only [if_neg h4]
  by_cases h5 : (decide (ct = "INPUT".toList) || decide (ct = "SEARCHABLE_INPUT".toList)) = true
  · simp only [if_pos h5]
    exact leafInv_childless (by rw [parseInputNode_children, ht])
  simp only [if_neg h5]
  by_cases h6 : (decide (ct = "SVG".toList) || decide (ct = "ICON".toList)) = true
  · simp only [if_pos h6]
    exact leafInv_childless (by rw [parseIconNode_children, ht])
  simp only [if_neg h6]
  by_cases h7 : ct = "DROPDOWN".toList
  · simp only [if_pos h7]
    exact leafInv_childless (by rw [parseDropdownNode_children, ht])
  simp only [if_neg h7]
  by_cases h8 : ct = "CHECKBOX".toList
  · simp only [if_pos h8]
    exact leafInv_childless (by rw [parseCheckboxNode_children, ht])
  simp only [if_neg h8]
  by_cases h9 : ct = "RADIO".toList
  · simp only [if_pos h9]
    exact leafInv_childless (by rw [parseRadioNode_children, ht])
  simp only [if_neg h9]
  by_cases h10 : (decide (ct = "VIEW".toList) || decide (ct = "SCROLLABLE_VIEW".toList)
      || decide (ct = "HEADER".toList) || decide (ct = "TOPBAR".toList)
      || decide (ct = "SAFEAREAVIEW".toList)) = true
  · simp only [if_pos h10]
    refine parseLayoutNodeP_leafInv p n t hp ht ?_
    rw [hctt]
    simp only [Bool.or_eq_true, decide_eq_true_eq] at h10
    rcases h10 with ((((h | h) | h) | h) | h) <;> rw [h] <;> decide
  simp only [if_neg h10]
  by_cases h11 : strTruthy n.flds.layoutMode = true
  · simp only [if_pos h11]
    refine parseLayoutNodeP_leafInv p n t hp ht ?_
    rw [hctt]
    simp only [Bool.or_eq_true, decide_eq_true_eq, not_or] at h5 h6
    intro hmem
    simp only [leafTypes, List.mem_cons, List.not_mem_nil, or_false] at hmem
    rcases hmem with h | h | h | h | h | h | h | h | h | h
    · exact h1 h
    · exact h2 h
    · exact h5.1 h
    · exact h5.2 h
    · exact h6.2 h
    · exact h6.1 h
    · exact h8 h
    · exact h9 h
    · exact h7 h
    · exact h3 h
  · simp only [if_neg h11]
    exact leafInv_childless ht

theorem dispatchComp_leafInv (p : FigmaNode → UITreeNode) (cn : Option Str) (ct r : Str)
    (n : FigmaNode) (hp : ∀ m, LeafInv (p m)) : LeafInv (dispatchComp p cn ct r n) := by
  unfold dispatchComp
  by_cases hc : ct = "TOUCHABLE_CARD".toList
  · simp only [if_pos hc]
    exact leafInv_childless (parseTouchableCard_children n cn r)
  · simp only [if_neg hc]
    exact dispatchLeaf_leafInv p ct n _ hp (dcBase_children cn ct r n)
      (dcBase_componentType cn ct r n)

theorem parseAfterText_leafInv (p : FigmaNode → UITreeNode) (n : FigmaNode)
    (hp : ∀ m, LeafInv (p m)) : LeafInv (parseAfterText p n) := by
  unfold parseAfterText
  exact dispatchComp_leafInv p _ _ _ n hp

theorem parseGo_leaf : ∀ (fuel : Nat) (n : FigmaNode), LeafInv (parseGo fuel n) := by
  intro fuel
  induction fuel with
  | zero => intro n; exact leafInv_childless rfl
  | succ fuel ih =>
    intro n
    rcases n with ⟨f, cs⟩
    rw [parseGo]
    by_cases hT : (FigmaNode.mk f cs).flds.type = "TEXT".toList
    · simp only [if_pos hT]
      split
      · exact leafInv_childless rfl
      · exact leafInv_childless rfl
    · simp only [if_neg hT]
      by_cases hb : ((decide ((FigmaNode.mk f cs).flds.type = "FRAME".toList)
          || decide ((FigmaNode.mk f cs).flds.type = "COMPONENT".toList))
          && endsWithL (nameOr (.mk f cs)) "_TEXT".toList) = true
      · simp only [if_pos hb]
        rcases hcol : collectAllTextNodes (.mk f cs) with - | ⟨u, - | ⟨v, rest⟩⟩
        · simp only [hcol]
          repeat' split
          all_goals
            first
              | exact leafInv_childless rfl
              | exact parseAfterText_leafInv _ _ ih
        · simp only [hcol]
          have hu : u ∈ collectAllTextNodes (.mk f cs) := by
            rw [hcol]
            exact List.mem_singleton.mpr rfl
          exact leafInv_childless (collectAllTextNodes_childless _ u hu)
        · simp only [hcol]
          intro t0 hsub hleaf
          cases hsub with
          | refl =>
            have hv : ("VIEW".toList : Str) ∈ leafTypes := hleaf
            exact absurd hv (by decide)
          | child hc hs =>
            rename_i cmid
            have hcm : cmid ∈ collectAllTextNodes (.mk f cs) := by
              rw [hcol]
              exact hc
            have hnone := collectAllTextNodes_childless _ _ hcm
            rw [SubUI.eq_of_none hnone hs]
            exact hnone
      · simp only [if_neg hb]
        repeat' split
        all_goals
          first
            | exact leafInv_childless rfl
            | exact parseAfterText_leafInv _ _ ih

/-- C3 (amended): in every tree returned by `generateUITree`, every node
whose `componentType` is one of the ten dispatch leaf types — `TEXT`,
`BUTTON`, `INPUT`, `SEARCHABLE_INPUT`, `ICON`, `SVG`, `CHECKBOX`,
`RADIO`, `DROPDOWN`, `CHIP` — has `children` undefined.  (`AVATAR`,
`LISTITEM` and `SPACER`, which the claim also lists, do NOT satisfy
this: they have no dispatch case, so with a truthy `layoutMode` they
fall through to the layout parser and can receive children, see
`C3_counterexample`.) -/
theorem C3_leaf_collapse_amended (j : FigmaJson) (root : UITreeNode)
    (hok : generateUITree j = .ok root) :
    ∀ t, SubUI t root → t.componentType ∈ leafTypes → t.children = none := by
  unfold generateUITree at hok
  cases htop : findTopLevelComponent (docOf j) with
  | none =>
    rw [htop] at hok
    cases hok
  | some top =>
    rw [htop] at hok
    have hroot : parseFigmaNode top = root := by
      injection hok
    rw [← hroot]
    exact parseGo_leaf (figDepth top) top

/-- The `C3_counterexample` node: an `A_AVATAR`-named auto-layout frame
with one `B_BUTTON` child. -/
def c3Avatar : FigmaNode :=
  .mk { id := "a1".toList, name := some "A_AVATAR".toList, type := "FRAME".toList,
        layoutMode := some "VERTICAL".toList }
    [ .mk { id := "a2".toList, name := some "B_BUTTON".toList, type := "INSTANCE".toList } [] ]

/-- C3 counterexample: an accepted input whose parsed root has
componentType `AVATAR` — a member of the claim's leaf set — yet carries
`children`, because `AVATAR` has no dispatch case and the node's
`layoutMode` routes it to the recursive layout parser. -/
theorem C3_counterexample :
    (parseFigmaNode c3Avatar).flds.componentType = "AVATAR".toList
    ∧ (parseFigmaNode c3Avatar).children.isSome = true
    ∧ generateUITree (FigmaJson.raw c3Avatar) = .ok (parseFigmaNode c3Avatar) := by
  refine ⟨by decide, by decide, ?_⟩
  rfl

/-- Input document of `C3_leaf_collapse_amended_witness`. -/
def c3TextDoc : FigmaNode :=
  .mk { id := "w1".toList, name := some "hello".toList, type := "TEXT".toList,
        characters := some "hi".toList } []

/-- The tree `generateUITree` returns for `c3TextDoc`. -/
def c3TextRoot : UITreeNode :=
  .mk { id := "w1".toList, componentType := "TEXT".toList,
        componentName := some "Text".toList, role := some "hello".toList,
        text := some "hi".toList } none

theorem C3_leaf_collapse_amended_witness :
    generateUITree (FigmaJson.raw c3TextDoc) = .ok c3TextRoot
    ∧ c3TextRoot.componentType ∈ leafTypes
    ∧ c3TextRoot.children = none :=
  ⟨rfl, by decide,
    C3_leaf_collapse_amended (FigmaJson.raw c3TextDoc) c3TextRoot rfl c3TextRoot
      (SubUI.refl _) (by decide)⟩

/-! ## Claim C8: sibling ordering -/

theorem merge_nilR {le : α → α → Bool} (l : List α) : l.merge [] le = l := by
  cases l with
  | nil => rw [List.nil_merge]
  | cons a l =>
    rw [List.merge]
    simp

/-! ## Sibling ordering: the engine sort

`Array.prototype.sort` under Node runs V8's TimSort.  For an array of
length `n < 64`, `minRunLength(n) = n`, so TimSort performs no merging
at all: `CountAndMakeRun` detects the initial run (ascending while
`cmp(cur, prev) >= 0`, else strictly descending, which is then
reversed), and `BinaryInsertionSort` extends that run over the whole
array (binary search with `mid = left + ((right - left) >> 1)`, moving
`right` to `mid` exactly when `cmp(pivot, a[mid]) < 0`).  The
definitions below are that algorithm verbatim, hence an exact model of
the engine sort for child lists of fewer than 64 elements — in
particular in the regime where the comparator is inconsistent (missing
bounding boxes compare as 0) and a stable-merge model can diverge from
the engine. -/

/-- `Math.abs` (executable on `Rat`; equal to `|q|`, see `jsAbs_eq_abs`). -/
def jsAbs (q : Rat) : Rat := if q < 0 then -q else q

theorem jsAbs_eq_abs (q : Rat) : jsAbs q = |q| := by
  unfold jsAbs
  by_cases h : q < 0
  · rw [if_pos h, abs_of_neg h]
  · rw [if_neg h, abs_of_nonneg (not_lt.mp h)]

theorem jsAbs_sub_comm (a b : Rat) : jsAbs (a - b) = jsAbs (b - a) := by
  rw [jsAbs_eq_abs, jsAbs_eq_abs, abs_sub_comm]

/-- The raw comparator handed to `visibleChildren.sort(...)` (a JS
`number`, modelled as `Rat`; only its sign is consulted): `0` when
either node lacks `absoluteBoundingBox`, else the `x`-difference for
`HORIZONTAL` layouts, else the `y`-difference with the `x`-difference
fallback inside the 2-unit tolerance band. -/
def posCmp (layoutMode : Option Str) (a b : FigmaNode) : Rat :=
  match a.flds.absoluteBoundingBox, b.flds.absoluteBoundingBox with
  | some ab, some bb =>
    if layoutMode = some "HORIZONTAL".toList then ab.x - bb.x
    else if jsAbs (ab.y - bb.y) < 2 then ab.x - bb.x else ab.y - bb.y
  | _, _ => 0

/-- The boolean comparator of the merge model is exactly the sign test
of the raw comparator. -/
theorem posLe_eq_posCmp (mode : Option Str) (a b : FigmaNode) :
    posLe mode a b = decide (posCmp mode a b ≤ 0) := by
  unfold posLe posCmp
  rcases a.flds.absoluteBoundingBox with - | ab <;>
    rcases b.flds.absoluteBoundingBox with - | bb
  · exact (decide_eq_true le_rfl).symm
  · exact (decide_eq_true le_rfl).symm
  · exact (decide_eq_true le_rfl).symm
  · simp only [jsAbs_eq_abs]
    by_cases hm : mode = some "HORIZONTAL".toList
    · rw [if_pos hm, if_pos hm]
    · rw [if_neg hm, if_neg hm]
      by_cases ha : |ab.y - bb.y| < 2
      · rw [if_pos ha, if_pos ha]
      · rw [if_neg ha, if_neg ha]

/-- The comparator is antisymmetric (`cmp(a,b) = -cmp(b,a)`), so
`cmp(a,b) >= 0` and `cmp(b,a) <= 0` coincide. -/
theorem posCmp_anti (mode : Option Str) (a b : FigmaNode) :
    posCmp mode a b = -posCmp mode b a := by
  unfold posCmp
  rcases a.flds.absoluteBoundingBox with - | ab <;>
    rcases b.flds.absoluteBoundingBox with - | bb
  · norm_num
  · norm_num
  · norm_num
  · dsimp only
    by_cases hm : mode = some "HORIZONTAL".toList
    · rw [if_pos hm, if_pos hm]
      ring
    · rw [if_neg hm, if_neg hm]
      by_cases ha : jsAbs (ab.y - bb.y) < 2
      · rw [if_pos ha, if_pos (by rwa [jsAbs_sub_comm])]
        ring
      · rw [if_neg ha, if_neg (by rwa [jsAbs_sub_comm])]
        ring

/-- Insertion at an index (`take p ++ x :: drop p`), as performed by
`BinaryInsertionSort` after the binary search. -/
def insertAt (l : List α) (p : Nat) (x : α) : List α := l.take p ++ x :: l.drop p

/-- The binary search of V8's `BinaryInsertionSort`: probe
`mid = lo + (hi - lo) / 2`; `cmp(pivot, a[mid]) < 0` moves `hi` down to
`mid`, anything else moves `lo` past `mid`.  The fuel only bounds the
recursion; `fuel ≥ hi - lo` is always enough (`binSearch_spec`). -/
def binSearch (cmp : α → α → Rat) (x : α) (arr : List α) : Nat → Nat → Nat → Nat
  | 0, lo, _ => lo
  | fuel + 1, lo, hi =>
    if lo < hi then
      if cmp x (arr.getD (lo + (hi - lo) / 2) x) < 0 then
        binSearch cmp x arr fuel lo (lo + (hi - lo) / 2)
      else binSearch cmp x arr fuel (lo + (hi - lo) / 2 + 1) hi
    else lo

/-- One `BinaryInsertionSort` step: insert `x` into the sorted prefix at
the position found by the binary search over the whole prefix. -/
def binInsert (cmp : α → α → Rat) (acc : List α) (x : α) : List α :=
  insertAt acc (binSearch cmp x acc acc.length 0 acc.length) x

/-- `BinaryInsertionSort(low, start, high)`: insert the remaining
elements left to right. -/
def binInsertAll (cmp : α → α → Rat) (run rest : List α) : List α :=
  rest.foldl (binInsert cmp) run

/-- The extension loop of `CountAndMakeRun`: with `desc = true` continue
while `cmp(cur, prev) < 0`, otherwise while `cmp(cur, prev) >= 0`;
returns the run tail and the unconsumed remainder. -/
def takeRun (cmp : α → α → Rat) : Bool → α → List α → List α × List α
  | _, _, [] => ([], [])
  | true, prev, x :: xs =>
    if cmp x prev < 0 then
      (x :: (takeRun cmp true x xs).1, (takeRun cmp true x xs).2)
    else ([], x :: xs)
  | false, prev, x :: xs =>
    if cmp x prev < 0 then ([], x :: xs)
    else (x :: (takeRun cmp false x xs).1, (takeRun cmp false x xs).2)

/-- V8's `Array.prototype.sort` for arrays of length < 64 (where
`minRunLength` equals the length, so a single forced run covers the
array and no merge happens): detect the initial ascending or strictly
descending run (reversing the latter), then binary-insert the rest. -/
def v8SortSmall (cmp : α → α → Rat) : List α → List α
  | [] => []
  | [a] => [a]
  | a :: b :: rest =>
    if cmp b a < 0 then
      binInsertAll cmp (a :: b :: (takeRun cmp true b rest).1).reverse
        (takeRun cmp true b rest).2
    else
      binInsertAll cmp (a :: b :: (takeRun cmp false b rest).1)
        (takeRun cmp false b rest).2

/-- `sortChildrenByPosition` with the engine-exact sort model (exact for
fewer than 64 children). -/
def sortChildrenV8 (children : List FigmaNode) (layoutMode : Option Str) : List FigmaNode :=
  match children with
  | [] => []
  | cs => v8SortSmall (posCmp layoutMode) (cs.filter fun c => c.flds.visible ≠ some false)

theorem takeRun_append (cmp : α → α → Rat) :
    ∀ (d : Bool) (prev : α) (xs : List α),
      (takeRun cmp d prev xs).1 ++ (takeRun cmp d prev xs).2 = xs
  | d, _, [] => by cases d <;> rfl
  | true, prev, x :: xs => by
    rw [takeRun]
    by_cases h : cmp x prev < 0
    · simp only [if_pos h, List.cons_append, takeRun_append cmp true x xs]
    · simp only [if_neg h, List.nil_append]
  | false, prev, x :: xs => by
    rw [takeRun]
    by_cases h : cmp x prev < 0
    · simp only [if_pos h, List.nil_append]
    · simp only [if_neg h, List.cons_append, takeRun_append cmp false x xs]

theorem insertAt_perm (l : List α) (p : Nat) (x : α) :
    (insertAt l p x).Perm (x :: l) := by
  unfold insertAt
  have h1 : (l.take p ++ x :: l.drop p).Perm (x :: (l.take p ++ l.drop p)) :=
    List.perm_middle
  rwa [List.take_append_drop] at h1

theorem binInsertAll_perm (cmp : α → α → Rat) :
    ∀ (rest run : List α), (binInsertAll cmp run rest).Perm (run ++ rest)
  | [], run => by simp [binInsertAll]
  | x :: rest, run => by
    have h1 := binInsertAll_perm cmp rest (binInsert cmp run x)
    have h2 : (binInsert cmp run x).Perm (x :: run) := insertAt_perm _ _ _
    have h3 : (binInsertAll cmp run (x :: rest)).Perm ((x :: run) ++ rest) :=
      h1.trans (h2.append_right rest)
    exact h3.trans List.perm_middle.symm

theorem v8SortSmall_perm (cmp : α → α → Rat) : ∀ l : List α, (v8SortSmall cmp l).Perm l
  | [] => List.Perm.refl _
  | [a] => List.Perm.refl _
  | a :: b :: rest => by
    rw [v8SortSmall]
    by_cases h : cmp b a < 0
    · rw [if_pos h]
      have h1 := binInsertAll_perm cmp (takeRun cmp true b rest).2
        (a :: b :: (takeRun cmp true b rest).1).reverse
      have h2 : ((a :: b :: (takeRun cmp true b rest).1).reverse
          ++ (takeRun cmp true b rest).2).Perm
          ((a :: b :: (takeRun cmp true b rest).1) ++ (takeRun cmp true b rest).2) :=
        (List.reverse_perm _).append_right _
      have h3 : (a :: b :: (takeRun cmp true b rest).1) ++ (takeRun cmp true b rest).2
          = a :: b :: rest := by
        simp only [List.cons_append, takeRun_append]
      exact (h1.trans h2).trans (h3 ▸ List.Perm.refl _)
    · rw [if_neg h]
      have h1 := binInsertAll_perm cmp (takeRun cmp false b rest).2
        (a :: b :: (takeRun cmp false b rest).1)
      have h3 : (a :: b :: (takeRun cmp false b rest).1) ++ (takeRun cmp false b rest).2
          = a :: b :: rest := by
        simp only [List.cons_append, takeRun_append]
      exact h1.trans (h3 ▸ List.Perm.refl _)

/-- Invariants of the binary search: the returned position lies in
`[lo, hi]`, the probed left neighbour (when the position is not `lo`)
compared `>= 0` against the pivot, and the probed element at the
position (when it is not `hi`) compared `< 0`. -/
theorem binSearch_spec (cmp : α → α → Rat) (x : α) (arr : List α) :
    ∀ (fuel lo hi : Nat), hi - lo ≤ fuel → lo ≤ hi →
      lo ≤ binSearch cmp x arr fuel lo hi ∧ binSearch cmp x arr fuel lo hi ≤ hi ∧
      (binSearch cmp x arr fuel lo hi = lo ∨
        ¬ cmp x (arr.getD (binSearch cmp x arr fuel lo hi - 1) x) < 0) ∧
      (binSearch cmp x arr fuel lo hi = hi ∨
        cmp x (arr.getD (binSearch cmp x arr fuel lo hi) x) < 0)
  | 0, lo, hi, hf, hlh => by
    have h : lo = hi := by omega
    subst h
    exact ⟨le_rfl, le_rfl, Or.inl rfl, Or.inl rfl⟩
  | fuel + 1, lo, hi, hf, hlh => by
    rw [binSearch]
    by_cases h : lo < hi
    · rw [if_pos h]
      by_cases hc : cmp x (arr.getD (lo + (hi - lo) / 2) x) < 0
      · rw [if_pos hc]
        obtain ⟨h1, h2, h3, h4⟩ :=
          binSearch_spec cmp x arr fuel lo (lo + (hi - lo) / 2) (by omega) (by omega)
        refine ⟨h1, by omega, h3, ?_⟩
        rcases h4 with h4 | h4
        · right
          rw [h4]
          exact hc
        · exact Or.inr h4
      · rw [if_neg hc]
        obtain ⟨h1, h2, h3, h4⟩ :=
          binSearch_spec cmp x arr fuel (lo + (hi - lo) / 2 + 1) hi (by omega) (by omega)
        refine ⟨by omega, h2, ?_, h4⟩
        rcases h3 with h3 | h3
        · right
          rw [h3]
          simpa using hc
        · exact Or.inr h3
    · rw [if_neg h]
      have he : lo = hi := by omega
      exact ⟨le_rfl, le_of_eq he, Or.inl rfl, Or.inl he⟩

/-- Inserting between a compatible left neighbour and a compatible
right neighbour preserves adjacent sortedness. -/
theorem chain'_insertAt {R : α → α → Prop} (x : α) :
    ∀ (l : List α) (p : Nat), l.Chain' R → p ≤ l.length →
      (p = 0 ∨ R (l.getD (p - 1) x) x) → (p = l.length ∨ R x (l.getD p x)) →
      (l.take p ++ x :: l.drop p).Chain' R
  | l, 0, hc, hp, hl, hr => by
    simp only [List.take_zero, List.drop_zero, List.nil_append]
    refine List.chain'_cons'.mpr ⟨?_, hc⟩
    intro y hy
    rcases l with - | ⟨a, l⟩
    · simp at hy
    · simp only [List.head?_cons, Option.mem_def, Option.some.injEq] at hy
      subst hy
      rcases hr with h0 | hrx
      · simp at h0
      · simpa using hrx
  | [], p + 1, hc, hp, hl, hr => by simp at hp
  | a :: l, p + 1, hc, hp, hl, hr => by
    simp only [List.take_succ_cons, List.drop_succ_cons, List.cons_append]
    have hc2 : l.Chain' R := (List.chain'_cons'.mp hc).2
    have hrec : (l.take p ++ x :: l.drop p).Chain' R := by
      refine chain'_insertAt x l p hc2 (by simpa using hp) ?_ ?_
      · rcases p with - | q
        · exact Or.inl rfl
        · rcases hl with h | h
          · simp at h
          · exact Or.inr (by simpa using h)
      · rcases hr with h | h
        · exact Or.inl (by simpa using h)
        · exact Or.inr (by simpa using h)
    refine List.chain'_cons'.mpr ⟨?_, hrec⟩
    intro y hy
    rcases p with - | q
    · simp only [List.take_zero, List.nil_append, List.head?_cons, Option.mem_def,
        Option.some.injEq] at hy
      subst hy
      rcases hl with h | h
      · simp at h
      · simpa using h
    · have hlen : q + 1 ≤ l.length := by simpa using hp
      rcases l with - | ⟨c, l'⟩
      · simp at hlen
      · simp only [List.take_succ_cons, List.cons_append, List.head?_cons, Option.mem_def,
          Option.some.injEq] at hy
        subst hy
        exact (List.chain'_cons.mp hc).1

theorem binInsert_chain' (cmp : α → α → Rat) (hanti : ∀ a b, cmp a b = -cmp b a)
    {acc : List α} (x : α) (hc : acc.Chain' fun a b => cmp a b ≤ 0) :
    (binInsert cmp acc x).Chain' fun a b => cmp a b ≤ 0 := by
  obtain ⟨h1, h2, h3, h4⟩ :=
    binSearch_spec cmp x acc acc.length 0 acc.length (by omega) (by omega)
  refine chain'_insertAt x acc _ hc h2 ?_ ?_
  · rcases h3 with h | h
    · exact Or.inl h
    · right
      have hge := not_lt.mp h
      rw [hanti]
      linarith
  · rcases h4 with h | h
    · exact Or.inl h
    · exact Or.inr (le_of_lt h)

theorem binInsertAll_chain' (cmp : α → α → Rat) (hanti : ∀ a b, cmp a b = -cmp b a) :
    ∀ (rest run : List α), run.Chain' (fun a b => cmp a b ≤ 0) →
      (binInsertAll cmp run rest).Chain' fun a b => cmp a b ≤ 0
  | [], _, hc => hc
  | x :: rest, run, hc =>
    binInsertAll_chain' cmp hanti rest (binInsert cmp run x) (binInsert_chain' cmp hanti x hc)

theorem takeRun_chain'_asc (cmp : α → α → Rat) :
    ∀ (prev : α) (xs : List α),
      (prev :: (takeRun cmp false prev xs).1).Chain' fun a b => ¬ cmp b a < 0
  | prev, [] => List.chain'_singleton prev
  | prev, x :: xs => by
    rw [takeRun]
    by_cases h : cmp x prev < 0
    · rw [if_pos h]
      exact List.chain'_singleton prev
    · rw [if_neg h]
      exact List.chain'_cons.mpr ⟨h, takeRun_chain'_asc cmp x xs⟩

theorem takeRun_chain'_desc (cmp : α → α → Rat) :
    ∀ (prev : α) (xs : List α),
      (prev :: (takeRun cmp true prev xs).1).Chain' fun a b => cmp b a < 0
  | prev, [] => List.chain'_singleton prev
  | prev, x :: xs => by
    rw [takeRun]
    by_cases h : cmp x prev < 0
    · rw [if_pos h]
      exact List.chain'_cons.mpr ⟨h, takeRun_chain'_desc cmp x xs⟩
    · rw [if_neg h]
      exact List.chain'_singleton prev

/-- For an antisymmetric comparator, the small-array sort produces a
list whose consecutive elements satisfy `cmp ≤ 0`: the detected run
does, and every binary insertion lands between compatible probed
neighbours. -/
theorem v8SortSmall_chain' (cmp : α → α → Rat) (hanti : ∀ a b, cmp a b = -cmp b a) :
    ∀ l : List α, (v8SortSmall cmp l).Chain' fun a b => cmp a b ≤ 0
  | [] => List.chain'_nil
  | [a] => List.chain'_singleton a
  | a :: b :: rest => by
    rw [v8SortSmall]
    have himp : ∀ p q : α, ¬ cmp q p < 0 → cmp p q ≤ 0 := by
      intro p q h
      have hge := not_lt.mp h
      rw [hanti]
      linarith
    by_cases h : cmp b a < 0
    · rw [if_pos h]
      refine binInsertAll_chain' cmp hanti _ _ ?_
      rw [List.chain'_reverse]
      have hdesc : (a :: b :: (takeRun cmp true b rest).1).Chain'
          fun p q => cmp q p < 0 :=
        List.chain'_cons.mpr ⟨h, takeRun_chain'_desc cmp b rest⟩
      exact hdesc.imp fun p q hpq => le_of_lt hpq
    · rw [if_neg h]
      refine binInsertAll_chain' cmp hanti _ _ ?_
      have hasc : (a :: b :: (takeRun cmp false b rest).1).Chain'
          fun p q => ¬ cmp q p < 0 :=
        List.chain'_cons.mpr ⟨h, takeRun_chain'_asc cmp b rest⟩
      exact hasc.imp fun p q hpq => himp p q hpq

/-- C8 (amended): over the engine-exact sort model (`sortChildrenV8`,
which is exactly Node/V8's TimSort for child lists of fewer than 64
elements — the hypothesis below), the sort removes children with
`visible == false` (the result is a permutation of the visible
children) and consecutive siblings of the result satisfy the positional
comparator (`posCmp ≤ 0`): ordered by `x` when `layoutMode` is
`HORIZONTAL`, otherwise by `y` except that two children whose `y`
coordinates differ by less than the 2-unit tolerance are ordered by
`x`, and any pair involving a child lacking `absoluteBoundingBox`
compares as equal.  A child lacking `absoluteBoundingBox` does NOT in
general keep its input order relative to bounded peers
(`C8_counterexample`). -/
theorem C8_sibling_order_amended (cs : List FigmaNode) (mode : Option Str)
    (h64 : (cs.filter fun c => c.flds.visible ≠ some false).length < 64) :
    (sortChildrenV8 cs mode).Perm (cs.filter fun c => c.flds.visible ≠ some false)
    ∧ (sortChildrenV8 cs mode).Chain' fun a b => posCmp mode a b ≤ 0 := by
  rcases cs with - | ⟨c, rest⟩
  · exact ⟨List.Perm.refl _, List.chain'_nil⟩
  · exact ⟨v8SortSmall_perm _ _, v8SortSmall_chain' _ (posCmp_anti mode) _⟩

/-- `C8_sibling_order_amended_witness` child (visible, no bounds). -/
def c8w1 : FigmaNode := .mk { id := "w1".toList } []

/-- `C8_sibling_order_amended_witness` child with `visible = false`. -/
def c8w2 : FigmaNode := .mk { id := "w2".toList, visible := some false } []

theorem C8_sibling_order_amended_witness :
    (([c8w1, c8w2].filter fun c => c.flds.visible ≠ some false).length < 64)
    ∧ ((sortChildrenV8 [c8w1, c8w2] none).Perm
          ([c8w1, c8w2].filter fun c => c.flds.visible ≠ some false)
        ∧ (sortChildrenV8 [c8w1, c8w2] none).Chain' fun a b => posCmp none a b ≤ 0) :=
  ⟨by decide, C8_sibling_order_amended [c8w1, c8w2] none (by decide)⟩

/-- `C8_counterexample` node at `y = 0`. -/
def c8n0 : FigmaNode :=
  .mk { id := "n0".toList,
        absoluteBoundingBox := some { x := 0, y := 0, width := 10, height := 10 } } []

/-- `C8_counterexample` node at `y = 10`. -/
def c8n1 : FigmaNode :=
  .mk { id := "n1".toList,
        absoluteBoundingBox := some { x := 0, y := 10, width := 10, height := 10 } } []

/-- `C8_counterexample` node at `y = 20`. -/
def c8n2 : FigmaNode :=
  .mk { id := "n2".toList,
        absoluteBoundingBox := some { x := 0, y := 20, width := 10, height := 10 } } []

/-- `C8_counterexample` node without `absoluteBoundingBox`. -/
def c8nB : FigmaNode := .mk { id := "nB".toList } []

/-- `C8_counterexample` node at `y = 100`. -/
def c8n4 : FigmaNode :=
  .mk { id := "n4".toList,
        absoluteBoundingBox := some { x := 0, y := 100, width := 10, height := 10 } } []

/-- `C8_counterexample` node at `y = 15`. -/
def c8n5 : FigmaNode :=
  .mk { id := "n5".toList,
        absoluteBoundingBox := some { x := 0, y := 15, width := 10, height := 10 } } []

/-- C8 counterexample, traced through the engine algorithm: on the
vertical input `[y=0, y=10, y=20, no box, y=100, y=15]` run detection
consumes the first five nodes as one ascending run (the comparisons
against the boundless `c8nB` return 0, which counts as ascending), and
the final node `c8n5` (y = 15) is then binary-inserted: the search
probes index 2 (`c8n2`, cmp = -5 < 0) and index 1 (`c8n1`, cmp = 5 ≥ 0)
and inserts at index 2 — ahead of `c8nB`.  So `c8nB` precedes `c8n5` in
the input but follows it in the output: a child lacking bounds does not
keep its input order relative to its peers, refuting the stability part
of the claim. -/
theorem C8_counterexample :
    c8nB.flds.absoluteBoundingBox = none
    ∧ sortChildrenV8 [c8n0, c8n1, c8n2, c8nB, c8n4, c8n5] (some "VERTICAL".toList)
        = [c8n0, c8n1, c8n5, c8n2, c8nB, c8n4] := by
  refine ⟨rfl, ?_⟩
  have hVH : ('V' : Char) ≠ 'H' := by decide
  have d1 : ¬ posCmp (some "VERTICAL".toList) c8n1 c8n0 < 0 := by
    norm_num [posCmp, c8n1, c8n0, jsAbs, hVH, FigmaNode.flds]
  have d2 : ¬ posCmp (some "VERTICAL".toList) c8n2 c8n1 < 0 := by
    norm_num [posCmp, c8n2, c8n1, jsAbs, hVH, FigmaNode.flds]
  have d3 : ¬ posCmp (some "VERTICAL".toList) c8nB c8n2 < 0 := by
    rw [show posCmp (some "VERTICAL".toList) c8nB c8n2 = 0 from rfl]
    norm_num
  have d4 : ¬ posCmp (some "VERTICAL".toList) c8n4 c8nB < 0 := by
    rw [show posCmp (some "VERTICAL".toList) c8n4 c8nB = 0 from rfl]
    norm_num
  have d5 : posCmp (some "VERTICAL".toList) c8n5 c8n4 < 0 := by
    norm_num [posCmp, c8n5, c8n4, jsAbs, hVH, FigmaNode.flds]
  have d6 : posCmp (some "VERTICAL".toList) c8n5 c8n2 < 0 := by
    norm_num [posCmp, c8n5, c8n2, jsAbs, hVH, FigmaNode.flds]
  have d7 : ¬ posCmp (some "VERTICAL".toList) c8n5 c8n1 < 0 := by
    norm_num [posCmp, c8n5, c8n1, jsAbs, hVH, FigmaNode.flds]
  show v8SortSmall (posCmp (some "VERTICAL".toList))
      [c8n0, c8n1, c8n2, c8nB, c8n4, c8n5] = [c8n0, c8n1, c8n5, c8n2, c8nB, c8n4]
  simp only [v8SortSmall, takeRun, binInsertAll, binInsert, binSearch, insertAt,
    d1, d2, d3, d4, d5, d6, d7, if_true, if_false, ite_true, ite_false,
    List.foldl, List.length, List.getD, List.get?, List.getElem?_cons_zero,
    List.getElem?_cons_succ, Option.getD_some, List.take_succ_cons, List.take_zero,
    List.drop_succ_cons, List.drop_zero, List.take, List.drop, List.cons_append,
    List.nil_append, Nat.reduceAdd, Nat.reduceSub, Nat.reduceDiv, Nat.reduceLT,
    decide_True, decide_False]

/-! ## Claim C9: imports versus emitted body -/

theorem mem_addSet_self (s : List Str) (x : Str) : x ∈ addSet s x := by
  unfold addSet
  split
  · assumption
  · simp

theorem mem_addSet_of_mem {s : List Str} {x : Str} (y : Str) (h : x ∈ s) : x ∈ addSet s y := by
  unfold addSet
  split
  · exact h
  · simp [h]

theorem mem_addSet {s : List Str} {x y : Str} (h : x ∈ addSet s y) : x ∈ s ∨ x = y := by
  unfold addSet at h
  split at h
  · exact Or.inl h
  · simpa using h

/-- The `additionalImports` fold of `generateComponent` never touches the
component-library import set. -/
theorem foldImports_used (imps : List Str) (st : EmitState) :
    (imps.foldl
      (fun st imp =>
        if imp = "LinearGradient".toList then st else { st with rn := addSet st.rn imp })
      st).used = st.used := by
  induction imps generalizing st with
  | nil => rfl
  | cons i imps ih =>
    rw [List.foldl_cons, ih]
    split <;> rfl

theorem foldImports_rn_mono {x : Str} (imps : List Str) (st : EmitState) (h : x ∈ st.rn) :
    x ∈ (imps.foldl
      (fun st imp =>
        if imp = "LinearGradient".toList then st else { st with rn := addSet st.rn imp })
      st).rn := by
  induction imps generalizing st with
  | nil => exact h
  | cons i imps ih =>
    rw [List.foldl_cons]
    split
    · exact ih st h
    · exact ih _ (mem_addSet_of_mem i h)

theorem foldImports_rn_of_mem {x : Str} {imps : List Str} (st : EmitState) (hx : x ∈ imps)
    (hlg : x ≠ "LinearGradient".toList) :
    x ∈ (imps.foldl
      (fun st imp =>
        if imp = "LinearGradient".toList then st else { st with rn := addSet st.rn imp })
      st).rn := by
  induction imps generalizing st with
  | nil => cases hx
  | cons i imps ih =>
    rw [List.foldl_cons]
    rcases List.mem_cons.mp hx with rfl | hx
    · rw [if_neg hlg]
      exact foldImports_rn_mono imps _ (mem_addSet_self _ _)
    · split
      · exact ih st hx
      · exact ih _ hx

theorem infixAppL {l m : List α} (n : List α) (h : l <:+: m) : l <:+: n ++ m := by
  obtain ⟨s, t, rfl⟩ := h
  exact ⟨n ++ s, t, by simp⟩

theorem infixAppR {l m : List α} (n : List α) (h : l <:+: m) : l <:+: m ++ n := by
  obtain ⟨s, t, rfl⟩ := h
  exact ⟨s, t ++ n, by simp⟩

theorem joinSep_cons_cons (sep x y : Str) (rest : List Str) :
    joinSep sep (x :: y :: rest) = x ++ sep ++ joinSep sep (y :: rest) := by
  simp [joinSep, List.intercalate, List.intersperse]

theorem infix_joinSep_of_mem (sep : Str) : ∀ {l : List Str} {x : Str}, x ∈ l →
    x <:+: joinSep sep l := by
  intro l
  induction l with
  | nil => intro x hx; cases hx
  | cons a l ih =>
    intro x hx
    rcases List.mem_cons.mp hx with rfl | hx
    · rcases l with - | ⟨b, rest⟩
      · exact ⟨[], [], by simp [joinSep, List.intercalate]⟩
      · rw [joinSep_cons_cons, List.append_assoc]
        exact infixAppR _ (List.infix_refl x)
    · rcases l with - | ⟨b, rest⟩
      · cases hx
      · rw [joinSep_cons_cons, List.append_assoc]
        exact infixAppL _ (infixAppL _ (ih hx))

theorem includesL_eq_true {s sub : Str} : includesL s sub = true ↔ sub <:+: s := by
  simp [includesL]

theorem getCM_TEXT : getComponentMapping "TEXT".toList = some textMapping := rfl

theorem getCM_HEADER : getComponentMapping "HEADER".toList = some headerMapping := rfl

theorem spacer_tag_occurs (pre mid : Str) :
    "<Spacer".toList <:+: pre ++ '<' :: ("Spacer".toList ++ mid) :=
  ⟨pre, mid, by simp⟩

theorem stB_spacer_case {st : EmitState} {mapping : ComponentMapping} {cn : Str}
    (h : "Spacer".toList ∈ ((mapping.additionalImports).foldl
        (fun st imp =>
          if imp = "LinearGradient".toList then st else { st with rn := addSet st.rn imp })
        (if cn = "LinearGradient".toList then st
         else if mapping.additionalImports.contains cn || cn = "View".toList then
           { st with rn := addSet st.rn cn }
         else { st with used := addSet st.used cn })).used) :
    "Spacer".toList ∈ st.used ∨ cn = "Spacer".toList := by
  rw [foldImports_used] at h
  split at h
  · exact Or.inl h
  split at h
  · exact Or.inl h
  rcases mem_addSet h with h2 | h2
  · exact Or.inl h2
  · exact Or.inr h2.symm

mutual
theorem genComp_spacer : ∀ (t : UITreeNode) (d : Nat) (st : EmitState),
    "Spacer".toList ∈ (generateComponent t d st).2.used →
    "Spacer".toList ∈ st.used ∨ "<Spacer".toList <:+: (generateComponent t d st).1
  | .mk f ch, d, st => by
    intro h
    rw [generateComponent] at h ⊢
    cases hmap : getComponentMapping f.componentType with
    | none =>
      rw [hmap] at h
      dsimp only at h ⊢
      exact Or.inl h
    | some mapping =>
      rw [hmap] at h
      dsimp only at h ⊢
      by_cases hT : f.componentType = "TEXT".toList
      · simp only [if_pos hT] at h ⊢
        rcases stB_spacer_case h with hU | hcn
        · exact Or.inl hU
        · rw [hT] at hmap
          rw [getCM_TEXT] at hmap
          have hmM : textMapping = mapping := Option.some.inj hmap
          rw [← hmM] at hcn
          have h3 : ("Text".toList : Str) = "Spacer".toList := hcn
          exact absurd h3 (by decide)
      · simp only [if_neg hT] at h ⊢
        by_cases hHC : mapping.hasChildren = true
        · simp only [if_pos hHC] at h ⊢
          match ch with
          | none =>
            dsimp only at h ⊢
            rcases stB_spacer_case h with hU | hcn
            · exact Or.inl hU
            · right
              rw [hcn]
              exact spacer_tag_occurs _ _
          | some [] =>
            dsimp only at h ⊢
            rcases stB_spacer_case h with hU | hcn
            · exact Or.inl hU
            · right
              rw [hcn]
              exact spacer_tag_occurs _ _
          | some (c :: cs) =>
            dsimp only at h ⊢
            rcases genChildren_spacer (c :: cs) d _ _ _ h with hL | ⟨code, hcode, hinf⟩
            · rcases stB_spacer_case hL with hU | hcn
              · exact Or.inl hU
              · right
                rw [hcn]
                exact infixAppR _ (infixAppR _ (spacer_tag_occurs _ _))
            · right
              have h3 := hinf.trans (infix_joinSep_of_mem "\n".toList hcode)
              exact infixAppR _ (infixAppL _ h3)
        · simp only [if_neg hHC] at h ⊢
          rcases stB_spacer_case h with hU | hcn
          · exact Or.inl hU
          · right
            rw [hcn]
            exact spacer_tag_occurs _ _

theorem genChildren_spacer : ∀ (l : List UITreeNode) (d : Nat) (gap : Rat) (isH : Bool)
    (st : EmitState), "Spacer".toList ∈ (generateChildren l d gap isH st).2.used →
    "Spacer".toList ∈ st.used
      ∨ ∃ code ∈ (generateChildren l d gap isH st).1, "<Spacer".toList <:+: code
  | [], _, _, _, st => by
    intro h
    exact Or.inl h
  | c :: rest, d, gap, isH, st => by
    intro h
    rw [generateChildren] at h ⊢
    dsimp only at h ⊢
    rcases genChildren_spacer rest d gap isH _ h with hL | ⟨code, hcode, hinf⟩
    · by_cases hS : (!rest.isEmpty && decide (c.componentType = "VIEW".toList)) = true
      · simp only [if_pos hS] at hL ⊢
        rcases mem_addSet hL with h2 | h2
        · rcases genComp_spacer c (d + 1) st h2 with hU | hinf1
          · exact Or.inl hU
          · refine Or.inr ⟨_, List.mem_cons_self _ _, ?_⟩
            exact infixAppR _ hinf1
        · refine Or.inr ⟨_, List.mem_cons_self _ _, ?_⟩
          exact infixAppL _ (List.infix_cons (infixAppR _ (infixAppR _ (infixAppL _ (by decide)))))
      · simp only [if_neg hS] at hL ⊢
        rcases genComp_spacer c (d + 1) st hL with hU | hinf1
        · exact Or.inl hU
        · exact Or.inr ⟨_, List.mem_cons_self _ _, hinf1⟩
    · exact Or.inr ⟨code, List.mem_cons_of_mem _ hcode, hinf⟩
end

/-- C9 (amended): the iff fails, but the two mechanisms are exactly
these: (1) every `HEADER` node unconditionally adds `TouchableOpacity` to
the react-native import set via `additionalImports`, whether or not any
`TouchableOpacity` JSX is emitted; (2) `Spacer` enters the
component-library import set only when a `<Spacer` tag actually occurs in
the emitted body (and hence in the final source). -/
theorem C9_imports_amended :
    (∀ (f : UIFields) (ch : Option (List UITreeNode)) (d : Nat) (st : EmitState),
        f.componentType = "HEADER".toList →
        "TouchableOpacity".toList ∈ (generateComponent (.mk f ch) d st).2.rn)
    ∧ (∀ t : UITreeNode,
        "Spacer".toList ∈ (generateComponent t 2 ⟨[], []⟩).2.used →
        includesL (generateComponent t 2 ⟨[], []⟩).1 "<Spacer".toList = true
        ∧ includesL (generateCode t) "<Spacer".toList = true) := by
  constructor
  · intro f ch d st hct
    rw [generateComponent, hct, getCM_HEADER]
    dsimp only
    rw [if_neg (show ¬(("HEADER".toList : Str) = "TEXT".toList) by decide)]
    rw [if_neg (show ¬((headerMapping.hasChildren : Bool) = true) by decide)]
    dsimp only
    exact foldImports_rn_of_mem _ (by decide) (by decide)
  · intro t h
    rcases genComp_spacer t 2 ⟨[], []⟩ h with hU | hinf
    · cases hU
    constructor
    · exact includesL_eq_true.mpr hinf
    · rw [includesL_eq_true]
      unfold generateCode generateScreenTemplate
      exact infixAppR _ (infixAppR _ (infixAppL _ hinf))

/-- Scalar fields of the `C9_counterexample` node: a bare `HEADER` with
no right action. -/
def c9HdrF : UIFields := { id := "h".toList, componentType := "HEADER".toList }

set_option maxRecDepth 100000 in
/-- C9 counterexample: a `HEADER` with no `rightAction` puts
`TouchableOpacity` into the react-native import set — and the import line
— although the emitted body never mentions `TouchableOpacity`, refuting
the claimed iff between imports and body occurrences. -/
theorem C9_counterexample :
    "TouchableOpacity".toList ∈ (generateComponent (.mk c9HdrF none) 2 ⟨[], []⟩).2.rn
    ∧ includesL (generateComponent (.mk c9HdrF none) 2 ⟨[], []⟩).1 "TouchableOpacity".toList
        = false
    ∧ includesL (generateImports (generateComponent (.mk c9HdrF none) 2 ⟨[], []⟩).2
        (generateComponent (.mk c9HdrF none) 2 ⟨[], []⟩).1) "TouchableOpacity".toList = true := by
  decide

/-- The two-`VIEW`-children node of `C9_imports_amended_witness` (spacer
injection after the first child). -/
def c9Views : UITreeNode :=
  .mk { id := "v".toList, componentType := "VIEW".toList }
    (some [ .mk { id := "v1".toList, componentType := "VIEW".toList } none,
            .mk { id := "v2".toList, componentType := "VIEW".toList } none ])

set_option maxRecDepth 100000 in
theorem C9_imports_amended_witness :
    c9HdrF.componentType = "HEADER".toList
    ∧ "TouchableOpacity".toList ∈ (generateComponent (.mk c9HdrF none) 5 ⟨[], []⟩).2.rn
    ∧ "Spacer".toList ∈ (generateComponent c9Views 2 ⟨[], []⟩).2.used
    ∧ includesL (generateComponent c9Views 2 ⟨[], []⟩).1 "<Spacer".toList = true
    ∧ includesL (generateCode c9Views) "<Spacer".toList = true :=
  ⟨rfl, C9_imports_amended.1 c9HdrF none 5 ⟨[], []⟩ rfl, by decide,
    (C9_imports_amended.2 c9Views (by decide)).1,
    (C9_imports_amended.2 c9Views (by decide)).2⟩

/-! ## Claim C1: determinism over the whitelisted projection -/

mutual
/-- Erase the non-whitelisted extra fields from a node, recursively: two
raw documents agree on every whitelisted field iff their erasures are
equal. -/
def eraseExtra : FigmaNode → FigmaNode
  | .mk f cs => .mk { f with extra := [] } (eraseExtraL cs)

def eraseExtraL : List FigmaNode → List FigmaNode
  | [] => []
  | c :: cs => eraseExtra c :: eraseExtraL cs
end

def eraseJ : FigmaJson → FigmaJson
  | .doc d => .doc (eraseExtra d)
  | .raw n => .raw (eraseExtra n)

theorem eraseExtraL_eq_map : ∀ cs : List FigmaNode, eraseExtraL cs = cs.map eraseExtra
  | [] => rfl
  | c :: cs => by rw [eraseExtraL, eraseExtraL_eq_map cs, List.map_cons]

theorem erase_children (f : FigFields) (cs : List FigmaNode) :
    (eraseExtra (.mk f cs)).children = eraseExtraL cs := rfl

theorem erase_type (n : FigmaNode) : (eraseExtra n).flds.type = n.flds.type := by
  rcases n with ⟨f, cs⟩; rfl

theorem erase_name (n : FigmaNode) : (eraseExtra n).flds.name = n.flds.name := by
  rcases n with ⟨f, cs⟩; rfl

theorem erase_visible (n : FigmaNode) : (eraseExtra n).flds.visible = n.flds.visible := by
  rcases n with ⟨f, cs⟩; rfl

theorem erase_characters (n : FigmaNode) :
    (eraseExtra n).flds.characters = n.flds.characters := by
  rcases n with ⟨f, cs⟩; rfl

theorem erase_style (n : FigmaNode) : (eraseExtra n).flds.style = n.flds.style := by
  rcases n with ⟨f, cs⟩; rfl

theorem erase_bounds (n : FigmaNode) :
    (eraseExtra n).flds.absoluteBoundingBox = n.flds.absoluteBoundingBox := by
  rcases n with ⟨f, cs⟩; rfl

theorem erase_layoutMode (n : FigmaNode) :
    (eraseExtra n).flds.layoutMode = n.flds.layoutMode := by
  rcases n with ⟨f, cs⟩; rfl

theorem erase_nameOr (n : FigmaNode) : nameOr (eraseExtra n) = nameOr n := by
  rcases n with ⟨f, cs⟩; rfl

theorem erase_charsOr (n : FigmaNode) : charsOr (eraseExtra n) = charsOr n := by
  rcases n with ⟨f, cs⟩; rfl

theorem extractStyles_erase (n : FigmaNode) : extractStyles (eraseExtra n) = extractStyles n := by
  rcases n with ⟨f, cs⟩; rfl

theorem extractBounds_erase (n : FigmaNode) : extractBounds (eraseExtra n) = extractBounds n := by
  rcases n with ⟨f, cs⟩; rfl

theorem extractLayout_erase (n : FigmaNode) : extractLayout (eraseExtra n) = extractLayout n := by
  rcases n with ⟨f, cs⟩; rfl

theorem attachLayout_erase (n : FigmaNode) (t : UITreeNode) :
    attachLayout (eraseExtra n) t = attachLayout n t := by
  unfold attachLayout
  rw [extractLayout_erase]

theorem extractVariant_erase (n : FigmaNode) (t : UITreeNode) :
    extractVariant (eraseExtra n) t = extractVariant n t := by
  rcases n with ⟨f, cs⟩; rfl

theorem extractCardVariant_erase (n : FigmaNode) (t : UITreeNode) :
    extractCardVariant (eraseExtra n) t = extractCardVariant n t := by
  rcases n with ⟨f, cs⟩; rfl

theorem cardPre_erase (n : FigmaNode) (t : UITreeNode) :
    cardPre (eraseExtra n) t = cardPre n t := by
  unfold cardPre
  simp only [extractCardVariant_erase, extractLayout_erase]

theorem isFigmaNodeIcon_erase (n : FigmaNode) :
    isFigmaNodeIcon (eraseExtra n) = isFigmaNodeIcon n := by
  rcases n with ⟨f, cs⟩; rfl

theorem isDisabled_erase (n : FigmaNode) : isDisabled (eraseExtra n) = isDisabled n := by
  rcases n with ⟨f, cs⟩; rfl

theorem cleanIconName_erase (n : FigmaNode) : cleanIconName (eraseExtra n) = cleanIconName n := by
  rcases n with ⟨f, cs⟩; rfl

theorem posLe_erase (mode : Option Str) (a b : FigmaNode) :
    posLe mode (eraseExtra a) (eraseExtra b) = posLe mode a b := by
  rcases a with ⟨f, cs⟩; rcases b with ⟨g, ds⟩; rfl

theorem shouldSkipNode_erase (n : FigmaNode) :
    shouldSkipNode (eraseExtra n) = shouldSkipNode n := by
  rcases n with ⟨f, cs⟩
  rcases cs with - | ⟨c, - | ⟨d, rest⟩⟩
  · rfl
  · rcases c with ⟨g, gs⟩; rfl
  · rfl

theorem parseTextNode_erase (n : FigmaNode) (t : UITreeNode) :
    parseTextNode (eraseExtra n) t = parseTextNode n t := by
  rcases n with ⟨f, cs⟩; rfl

mutual
theorem findTopLevelComponent_erase : ∀ n : FigmaNode,
    findTopLevelComponent (eraseExtra n) = (findTopLevelComponent n).map eraseExtra
  | .mk f cs => by
    rw [show eraseExtra (.mk f cs) = .mk { f with extra := [] } (eraseExtraL cs) from rfl]
    rw [findTopLevelComponent, findTopLevelComponent]
    rw [show (FigmaNode.mk { f with extra := [] } (eraseExtraL cs))
        = eraseExtra (.mk f cs) from rfl]
    rw [shouldSkipNode_erase]
    split
    · exact findTopInList_erase cs
    · rfl

theorem findTopInList_erase : ∀ cs : List FigmaNode,
    findTopInList (eraseExtraL cs) = (findTopInList cs).map eraseExtra
  | [] => rfl
  | c :: cs => by
    rw [eraseExtraL, findTopInList, findTopInList, findTopLevelComponent_erase c]
    cases findTopLevelComponent c with
    | none => exact findTopInList_erase cs
    | some r => rfl
end

mutual
theorem findFirstTextDescendant_erase : ∀ n : FigmaNode,
    findFirstTextDescendant (eraseExtra n) = (findFirstTextDescendant n).map eraseExtra
  | .mk f cs => by
    rw [show eraseExtra (.mk f cs) = .mk { f with extra := [] } (eraseExtraL cs) from rfl]
    rw [findFirstTextDescendant, findFirstTextDescendant]
    split
    · rfl
    · exact findFirstTextInList_erase cs

theorem findFirstTextInList_erase : ∀ cs : List FigmaNode,
    findFirstTextInList (eraseExtraL cs) = (findFirstTextInList cs).map eraseExtra
  | [] => rfl
  | c :: cs => by
    rw [eraseExtraL, findFirstTextInList, findFirstTextInList, findFirstTextDescendant_erase c]
    cases findFirstTextDescendant c with
    | none => exact findFirstTextInList_erase cs
    | some r => rfl
end

mutual
theorem collectAllTextNodes_erase : ∀ n : FigmaNode,
    collectAllTextNodes (eraseExtra n) = collectAllTextNodes n
  | .mk f cs => by
    rw [show eraseExtra (.mk f cs) = .mk { f with extra := [] } (eraseExtraL cs) from rfl]
    rw [collectAllTextNodes, collectAllTextNodes]
    rw [show (FigmaNode.mk { f with extra := [] } (eraseExtraL cs))
        = eraseExtra (.mk f cs) from rfl]
    rw [extractStyles_erase]
    split
    · rfl
    · exact collectAllTextInList_erase cs

theorem collectAllTextInList_erase : ∀ cs : List FigmaNode,
    collectAllTextInList (eraseExtraL cs) = collectAllTextInList cs
  | [] => rfl
  | c :: cs => by
    rw [eraseExtraL, collectAllTextInList, collectAllTextInList,
      collectAllTextNodes_erase c, collectAllTextInList_erase cs]
end

mutual
theorem collectTextDescendants_erase (limit : Nat) : ∀ (n : FigmaNode) (acc : List Str),
    collectTextDescendants limit (eraseExtra n) acc = collectTextDescendants limit n acc
  | .mk f cs, acc => by
    rw [show eraseExtra (.mk f cs) = .mk { f with extra := [] } (eraseExtraL cs) from rfl]
    rw [collectTextDescendants, collectTextDescendants]
    split
    · rfl
    · split
      · rfl
      · exact collectTextDescList_erase limit cs acc

theorem collectTextDescList_erase (limit : Nat) : ∀ (cs : List FigmaNode) (acc : List Str),
    collectTextDescList limit (eraseExtraL cs) acc = collectTextDescList limit cs acc
  | [], _ => rfl
  | c :: cs, acc => by
    rw [eraseExtraL, collectTextDescList, collectTextDescList,
      collectTextDescendants_erase limit c acc, collectTextDescList_erase limit cs _]
end

theorem findTextScanIdx_erase : ∀ (cs : List FigmaNode) (i : Nat),
    findTextScanIdx (eraseExtraL cs) i
      = (findTextScanIdx cs i).map fun p => (eraseExtra p.1, p.2)
  | [], _ => rfl
  | c :: cs, i => by
    rw [eraseExtraL, findTextScanIdx, findTextScanIdx, findFirstTextDescendant_erase c]
    cases findFirstTextDescendant c with
    | none => exact findTextScanIdx_erase cs (i + 1)
    | some t =>
      rcases c with ⟨g, gs⟩
      rfl

theorem iconPairsOf_erase (cs : List FigmaNode) (ti : Option Nat) :
    iconPairsOf (eraseExtraL cs) ti
      = (iconPairsOf cs ti).map fun p => (p.1, eraseExtra p.2) := by
  unfold iconPairsOf
  rw [eraseExtraL_eq_map, List.enum_map, List.filter_map]
  have hfun : Prod.map (@id Nat) eraseExtra = fun p : Nat × FigmaNode => (p.1, eraseExtra p.2) := by
    funext p
    rcases p with ⟨i, c⟩
    rfl
  rw [hfun]
  congr 1
  apply List.filter_congr
  intro p _
  rcases p with ⟨i, c⟩
  rcases c with ⟨g, gs⟩
  rfl

theorem merge_map {g : α → α} {le le' : α → α → Bool}
    (hle : ∀ a b, le (g a) (g b) = le' a b) :
    ∀ l r : List α, (l.map g).merge (r.map g) le = (l.merge r le').map g := by
  intro l
  induction l with
  | nil =>
    intro r
    rw [List.map_nil, List.nil_merge, List.nil_merge]
  | cons a l ihl =>
    intro r
    induction r with
    | nil =>
      rw [List.map_nil, merge_nilR, merge_nilR]
    | cons b r ihr =>
      rw [List.map_cons, List.map_cons, List.cons_merge_cons, List.cons_merge_cons, hle a b]
      split
      · rw [← List.map_cons, ihl (b :: r), List.map_cons]
      · rw [← List.map_cons, ihr, List.map_cons]

theorem mergePairs_map {g : α → α} {le le' : α → α → Bool}
    (hle : ∀ a b, le (g a) (g b) = le' a b) :
    ∀ rs : List (List α), mergePairs le (rs.map (List.map g))
      = (mergePairs le' rs).map (List.map g)
  | [] => rfl
  | [r] => rfl
  | a :: b :: rest => by
    rw [List.map_cons, List.map_cons,
      show mergePairs le (List.map g a :: List.map g b :: (rest.map (List.map g)))
        = (List.map g a).merge (List.map g b) le :: mergePairs le (rest.map (List.map g))
        from rfl,
      show mergePairs le' (a :: b :: rest) = a.merge b le' :: mergePairs le' rest from rfl,
      merge_map hle, mergePairs_map hle rest, List.map_cons]

theorem mergeRuns_map {g : α → α} {le le' : α → α → Bool}
    (hle : ∀ a b, le (g a) (g b) = le' a b) :
    ∀ (f : Nat) (rs : List (List α)),
      mergeRuns le f (rs.map (List.map g)) = (mergeRuns le' f rs).map g := by
  intro f
  induction f with
  | zero =>
    intro rs
    rcases rs with - | ⟨r, - | ⟨s, rest⟩⟩
    · rfl
    · rfl
    · show (List.map g r :: List.map g s :: (rest.map (List.map g))).flatten = _
      rw [show mergeRuns le' 0 (r :: s :: rest) = (r :: s :: rest).flatten from rfl]
      rw [← List.map_cons, ← List.map_cons, ← List.map_flatten]
  | succ f ih =>
    intro rs
    rcases rs with - | ⟨r, - | ⟨s, rest⟩⟩
    · rfl
    · rfl
    · rw [List.map_cons, List.map_cons,
        show mergeRuns le (f + 1) (List.map g r :: List.map g s :: (rest.map (List.map g)))
          = mergeRuns le f (mergePairs le (List.map g r :: List.map g s :: (rest.map (List.map g))))
          from rfl,
        show mergeRuns le' (f + 1) (r :: s :: rest)
          = mergeRuns le' f (mergePairs le' (r :: s :: rest)) from rfl,
        ← List.map_cons, ← List.map_cons, mergePairs_map hle, ih]

theorem jsSortBy_map {g : α → α} {le le' : α → α → Bool}
    (hle : ∀ a b, le (g a) (g b) = le' a b) (l : List α) :
    jsSortBy le (l.map g) = (jsSortBy le' l).map g := by
  unfold jsSortBy
  rw [List.length_map]
  rw [show (l.map g).map (fun x => [x]) = (l.map fun x => [x]).map (List.map g) by
    rw [List.map_map, List.map_map]; rfl]
  exact mergeRuns_map hle l.length _

theorem sortChildren_erase (cs : List FigmaNode) (mode : Option Str) :
    sortChildrenByPosition (eraseExtraL cs) mode
      = (sortChildrenByPosition cs mode).map eraseExtra := by
  rcases cs with - | ⟨c, rest⟩
  · rfl
  · show jsSortBy (posLe mode) ((eraseExtraL (c :: rest)).filter fun c => c.flds.visible ≠ some false)
      = (jsSortBy (posLe mode) ((c :: rest).filter fun c => c.flds.visible ≠ some false)).map eraseExtra
    rw [eraseExtraL_eq_map, List.filter_map]
    rw [show (fun c => decide (c.flds.visible ≠ some false)) ∘ eraseExtra
        = fun c => decide (c.flds.visible ≠ some false) from by
      funext c
      show decide ((eraseExtra c).flds.visible ≠ some false) = _
      rw [erase_visible]]
    exact jsSortBy_map (fun a b => posLe_erase mode a b) _

theorem flattenFold_map (p : FigmaNode → UITreeNode) (g : FigmaNode → FigmaNode) :
    ∀ l : List FigmaNode, flattenFold p (l.map g) = flattenFold (fun c => p (g c)) l
  | [] => rfl
  | c :: cs => by
    rw [List.map_cons, flattenFold_cons, flattenFold_cons, flattenFold_map p g cs]

theorem erase_id (n : FigmaNode) : (eraseExtra n).flds.id = n.flds.id := by
  rcases n with ⟨f, cs⟩; rfl

theorem erase_children_g (n : FigmaNode) :
    (eraseExtra n).children = eraseExtraL n.children := by
  rcases n with ⟨f, cs⟩; rfl

theorem foldl_fun_congr {f f' : β → α → β} (h : ∀ b a, f b a = f' b a) :
    ∀ (l : List α) (b : β), l.foldl f b = l.foldl f' b
  | [], _ => rfl
  | a :: l, b => by rw [List.foldl_cons, List.foldl_cons, h b a, foldl_fun_congr h l _]

theorem scanSnd_erase (o : Option (FigmaNode × Option Nat)) :
    (o.map fun p => (eraseExtra p.1, p.2)).bind (fun x => x.2) = o.bind fun x => x.2 := by
  cases o <;> rfl

theorem btnText_erase (scan : Option (FigmaNode × Option Nat)) (t : UITreeNode) :
    btnText (scan.map fun p => (eraseExtra p.1, p.2)) t = btnText scan t := by
  rcases scan with - | ⟨tc, ti⟩
  · rfl
  · rcases tc with ⟨g, gs⟩
    rfl

theorem btnIcons_erase (scan : Option (FigmaNode × Option Nat))
    (pairs : List (Nat × FigmaNode)) (t : UITreeNode) :
    btnIcons (scan.map fun p => (eraseExtra p.1, p.2))
      (pairs.map fun p => (p.1, eraseExtra p.2)) t = btnIcons scan pairs t := by
  rcases scan with - | ⟨tc, ti⟩
  · rfl
  · unfold btnIcons
    dsimp only [Option.map]
    have hif : (pairs.map fun p : Nat × FigmaNode => (p.1, eraseExtra p.2)).isEmpty
        = pairs.isEmpty := by
      cases pairs <;> rfl
    rw [hif]
    by_cases hemp : pairs.isEmpty = true
    · rw [if_pos hemp, if_pos hemp]
    · rw [if_neg hemp, if_neg hemp, List.foldl_map]
      simp only [erase_bounds]
      apply foldl_fun_congr
      intro t0 ic
      rcases ic with ⟨i, c⟩
      rcases c with ⟨g, gs⟩
      rfl

theorem btnOpacity_erase (n : FigmaNode) (t : UITreeNode) :
    btnOpacity (eraseExtra n) t = btnOpacity n t := by
  rcases n with ⟨f, cs⟩; rfl

theorem parseButtonNode_erase (n : FigmaNode) (t : UITreeNode) :
    parseButtonNode (eraseExtra n) t = parseButtonNode n t := by
  unfold parseButtonNode
  simp only [attachLayout_erase, extractVariant_erase, erase_children_g, erase_id,
    findTextScanIdx_erase, btnText_erase, scanSnd_erase, iconPairsOf_erase, btnIcons_erase,
    btnOpacity_erase]

theorem parseInputNode_erase (n : FigmaNode) (t : UITreeNode) :
    parseInputNode (eraseExtra n) t = parseInputNode n t := by
  unfold parseInputNode
  rw [attachLayout_erase, erase_children_g, eraseExtraL_eq_map, List.filterMap_map]
  rw [show ((fun c : FigmaNode =>
      if c.flds.type = "TEXT".toList then
        let childName := nameOr c
        some (childName, includesL (lowerL childName) "label".toList)
      else none) ∘ eraseExtra)
    = fun c : FigmaNode =>
      if c.flds.type = "TEXT".toList then
        let childName := nameOr c
        some (childName, includesL (lowerL childName) "label".toList)
      else none from by
    funext c
    rcases c with ⟨g, gs⟩
    rfl]

theorem parseIconNode_erase (n : FigmaNode) (t : UITreeNode) :
    parseIconNode (eraseExtra n) t = parseIconNode n t := rfl

theorem parseDropdownNode_erase (n : FigmaNode) (t : UITreeNode) :
    parseDropdownNode (eraseExtra n) t = parseDropdownNode n t := by
  unfold parseDropdownNode
  rw [attachLayout_erase, findFirstTextDescendant_erase]
  cases findFirstTextDescendant n with
  | none => rfl
  | some td =>
    rcases td with ⟨g, gs⟩
    rfl

theorem parseCheckboxNode_erase (n : FigmaNode) (t : UITreeNode) :
    parseCheckboxNode (eraseExtra n) t = parseCheckboxNode n t := by
  unfold parseCheckboxNode
  rw [attachLayout_erase, erase_children_g, eraseExtraL_eq_map, List.foldl_map]
  apply foldl_fun_congr
  intro t0 c
  rcases c with ⟨g, gs⟩
  rfl

theorem parseRadioNode_erase (n : FigmaNode) (t : UITreeNode) :
    parseRadioNode (eraseExtra n) t = parseRadioNode n t := by
  unfold parseRadioNode
  rw [attachLayout_erase, erase_children_g, eraseExtraL_eq_map, List.foldl_map]
  apply foldl_fun_congr
  intro t0 c
  rcases c with ⟨g, gs⟩
  rfl

theorem parseTouchableCard_erase (n : FigmaNode) (cn : Option Str) (r : Str) :
    parseTouchableCard (eraseExtra n) cn r = parseTouchableCard n cn r := by
  unfold parseTouchableCard
  simp only [extractVariant_erase, extractLayout_erase, erase_id,
    collectTextDescendants_erase]

theorem find?_map_erasePairs (pred : Nat × FigmaNode → Bool)
    (hpred : ∀ i c, pred (i, eraseExtra c) = pred (i, c)) :
    ∀ pairs : List (Nat × FigmaNode),
      ((pairs.map fun p => (p.1, eraseExtra p.2)).find? pred)
        = (pairs.find? pred).map fun p => (p.1, eraseExtra p.2)
  | [] => rfl
  | a :: l => by
    rw [List.map_cons, List.find?_cons, List.find?_cons,
      show pred (a.1, eraseExtra a.2) = pred a from by
        rcases a with ⟨i, c⟩
        exact hpred i c]
    split
    · rfl
    · exact find?_map_erasePairs pred hpred l

theorem map_fst_erasePairs (o : Option (Nat × FigmaNode)) :
    ((o.map fun p => (p.1, eraseExtra p.2)).map fun p => p.1) = o.map fun p => p.1 := by
  cases o <;> rfl

theorem parseChipNode_erase (n : FigmaNode) (t : UITreeNode) :
    parseChipNode (eraseExtra n) t = parseChipNode n t := by
  unfold parseChipNode
  simp only [attachLayout_erase, erase_children_g, findTextScanIdx_erase, scanSnd_erase,
    iconPairsOf_erase, isDisabled_erase]
  have htick := find?_map_erasePairs
    (fun ic => includesL (lowerL (nameOr ic.2)) "tick".toList
      || includesL (lowerL (nameOr ic.2)) "check".toList)
    (fun i c => by rcases c with ⟨g, gs⟩; rfl)
    (iconPairsOf n.children ((findTextScanIdx n.children 0).bind fun x => x.2))
  simp only [htick, map_fst_erasePairs]
  have hmain := find?_map_erasePairs
    (fun ic => match ((iconPairsOf n.children
          ((findTextScanIdx n.children 0).bind fun x => x.2)).find?
        (fun ic => includesL (lowerL (nameOr ic.2)) "tick".toList
          || includesL (lowerL (nameOr ic.2)) "check".toList)).map (fun p => p.1) with
      | some j => decide (ic.1 ≠ j)
      | none => true)
    (fun i c => rfl)
    (iconPairsOf n.children ((findTextScanIdx n.children 0).bind fun x => x.2))
  simp only [hmain]
  cases hmi : (iconPairsOf n.children ((findTextScanIdx n.children 0).bind fun x => x.2)).find?
      (fun ic => match ((iconPairsOf n.children
            ((findTextScanIdx n.children 0).bind fun x => x.2)).find?
          (fun ic => includesL (lowerL (nameOr ic.2)) "tick".toList
            || includesL (lowerL (nameOr ic.2)) "check".toList)).map (fun p => p.1) with
        | some j => decide (ic.1 ≠ j)
        | none => true) with
  | none =>
    cases hscan : findTextScanIdx n.children 0 with
    | none => rfl
    | some pr =>
      rcases pr with ⟨tc, ti⟩
      rcases tc with ⟨h1, hs⟩
      rfl
  | some ic =>
    rcases ic with ⟨i, c⟩
    rcases c with ⟨g, gs⟩
    cases hscan : findTextScanIdx n.children 0 with
    | none => rfl
    | some pr =>
      rcases pr with ⟨tc, ti⟩
      rcases tc with ⟨h1, hs⟩
      rfl

theorem extractTextChildren_erase (n : FigmaNode) (t : UITreeNode) :
    extractTextChildren (eraseExtra n) t = extractTextChildren n t := by
  unfold extractTextChildren
  rw [erase_children_g, eraseExtraL_eq_map, List.filter_map]
  rw [show ((fun c : FigmaNode => decide (c.flds.type = "TEXT".toList)) ∘ eraseExtra)
      = fun c : FigmaNode => decide (c.flds.type = "TEXT".toList) from by
    funext c
    rcases c with ⟨g, gs⟩
    rfl]
  cases hf : n.children.filter fun c => decide (c.flds.type = "TEXT".toList) with
  | nil => rfl
  | cons first rest =>
    rcases first with ⟨g, gs⟩
    rfl

theorem dcBase_erase (cn : Option Str) (ct r : Str) (n : FigmaNode) :
    dcBase cn ct r (eraseExtra n) = dcBase cn ct r n := by
  unfold dcBase
  simp only [extractBounds_erase, extractStyles_erase, attachLayout_erase, erase_id]

theorem parseCardNodeP_erase (p : FigmaNode → UITreeNode) (hp : ∀ m, p (eraseExtra m) = p m)
    (n : FigmaNode) (t : UITreeNode) :
    parseCardNodeP p (eraseExtra n) t = parseCardNodeP p n t := by
  rcases n with ⟨f, cs⟩
  unfold parseCardNodeP
  rw [cardPre_erase]
  rcases cs with - | ⟨c, rest⟩
  · rfl
  · rw [erase_children, show eraseExtraL (c :: rest) = eraseExtra c :: eraseExtraL rest from rfl]
    dsimp only
    rw [show eraseExtra c :: eraseExtraL rest = eraseExtraL (c :: rest) from rfl]
    rw [sortChildren_erase, erase_layoutMode, flattenFold_map]
    rw [flattenFold_congr fun d _ => hp d]
    rfl

theorem parseLayoutNodeP_erase (p : FigmaNode → UITreeNode) (hp : ∀ m, p (eraseExtra m) = p m)
    (n : FigmaNode) (t : UITreeNode) :
    parseLayoutNodeP p (eraseExtra n) t = parseLayoutNodeP p n t := by
  rcases n with ⟨f, cs⟩
  unfold parseLayoutNodeP
  simp only [attachLayout_erase, extractTextChildren_erase]
  rcases cs with - | ⟨c, rest⟩
  · rfl
  · rw [erase_children, show eraseExtraL (c :: rest) = eraseExtra c :: eraseExtraL rest from rfl]
    dsimp only
    rw [show eraseExtra c :: eraseExtraL rest = eraseExtraL (c :: rest) from rfl]
    rw [sortChildren_erase, erase_layoutMode, List.filter_map]
    rw [show ((fun c : FigmaNode => decide (c.flds.type ≠ "TEXT".toList)) ∘ eraseExtra)
        = fun c : FigmaNode => decide (c.flds.type ≠ "TEXT".toList) from by
      funext c
      rcases c with ⟨g, gs⟩
      rfl]
    rw [flattenFold_map]
    rw [flattenFold_congr fun d _ => hp d]
    rfl

theorem dispatchLeaf_erase (p : FigmaNode → UITreeNode) (hp : ∀ m, p (eraseExtra m) = p m)
    (ct : Str) (n : FigmaNode) (t : UITreeNode) :
    dispatchLeaf p ct (eraseExtra n) t = dispatchLeaf p ct n t := by
  unfold dispatchLeaf
  simp only [parseTextNode_erase, parseButtonNode_erase, parseChipNode_erase,
    parseCardNodeP_erase p hp, parseInputNode_erase, parseIconNode_erase,
    parseDropdownNode_erase, parseCheckboxNode_erase, parseRadioNode_erase,
    parseLayoutNodeP_erase p hp, erase_layoutMode]

theorem dispatchComp_erase (p : FigmaNode → UITreeNode) (hp : ∀ m, p (eraseExtra m) = p m)
    (cn : Option Str) (ct r : Str) (n : FigmaNode) :
    dispatchComp p cn ct r (eraseExtra n) = dispatchComp p cn ct r n := by
  unfold dispatchComp
  rw [parseTouchableCard_erase, dcBase_erase, dispatchLeaf_erase p hp]

theorem parseAfterText_erase (p : FigmaNode → UITreeNode) (hp : ∀ m, p (eraseExtra m) = p m)
    (n : FigmaNode) : parseAfterText p (eraseExtra n) = parseAfterText p n := by
  unfold parseAfterText
  simp only [erase_nameOr, erase_type, dispatchComp_erase p hp]

mutual
theorem figDepth_erase : ∀ n : FigmaNode, figDepth (eraseExtra n) = figDepth n
  | .mk f cs => by
    rw [show eraseExtra (.mk f cs) = .mk { f with extra := [] } (eraseExtraL cs) from rfl]
    rw [figDepth, figDepth, figDepthL_erase cs]

theorem figDepthL_erase : ∀ cs : List FigmaNode, figDepthL (eraseExtraL cs) = figDepthL cs
  | [] => rfl
  | c :: cs => by
    rw [eraseExtraL, figDepthL, figDepthL, figDepth_erase c, figDepthL_erase cs]
end

theorem parseGo_erase : ∀ (fuel : Nat) (n : FigmaNode),
    parseGo fuel (eraseExtra n) = parseGo fuel n := by
  intro fuel
  induction fuel with
  | zero => intro n; rfl
  | succ fuel ih =>
    intro n
    have hAT : parseAfterText (fun m => parseGo fuel m) (eraseExtra n)
        = parseAfterText (fun m => parseGo fuel m) n :=
      parseAfterText_erase (fun m => parseGo fuel m) ih n
    rcases n with ⟨f, cs⟩
    unfold parseGo
    rcases cs with - | ⟨c, - | ⟨c2, rest⟩⟩ <;>
      (simp only [erase_type, erase_id, erase_nameOr, erase_charsOr, extractStyles_erase,
          collectAllTextNodes_erase, erase_children, eraseExtraL, hAT]
       simp only [FigmaNode.children])

theorem parseFigmaNode_erase (n : FigmaNode) :
    parseFigmaNode (eraseExtra n) = parseFigmaNode n := by
  unfold parseFigmaNode
  rw [figDepth_erase, parseGo_erase]

theorem docOf_eraseJ : ∀ j : FigmaJson, docOf (eraseJ j) = eraseExtra (docOf j)
  | .doc _ => rfl
  | .raw _ => rfl

theorem generateUITree_erase (j : FigmaJson) :
    generateUITree (eraseJ j) = generateUITree j := by
  unfold generateUITree
  rw [docOf_eraseJ, findTopLevelComponent_erase]
  cases findTopLevelComponent (docOf j) with
  | none => rfl
  | some top => simp only [Option.map_some', parseFigmaNode_erase]

/-- C1: determinism of the pipeline — two raw documents that agree on
every whitelisted field (equivalently: whose erasures of the
non-whitelisted payload coincide, bounds included) are mapped by
`generateUITree` to the same result, and on success `generateCode`
yields byte-identical output for both. -/
theorem C1_determinism (a b : FigmaJson) (h : eraseJ a = eraseJ b) :
    generateUITree a = generateUITree b ∧
      (generateUITree a).map generateCode = (generateUITree b).map generateCode := by
  have h1 : generateUITree a = generateUITree b := by
    rw [← generateUITree_erase a, ← generateUITree_erase b, h]
  exact ⟨h1, by rw [h1]⟩

def c1A : FigmaJson :=
  .raw (.mk { id := "1:1".toList, name := some "Screen".toList, type := "COMPONENT".toList,
              extra := [("pluginData".toList, "42".toList)] }
    [.mk { id := "1:2".toList, name := some "title".toList, type := "TEXT".toList,
           characters := some "Hello".toList, extra := [("exportSettings".toList, "x".toList)] } []])

def c1B : FigmaJson :=
  .raw (.mk { id := "1:1".toList, name := some "Screen".toList, type := "COMPONENT".toList }
    [.mk { id := "1:2".toList, name := some "title".toList, type := "TEXT".toList,
           characters := some "Hello".toList } []])

theorem C1_determinism_witness :
    eraseJ c1A = eraseJ c1B ∧
      (generateUITree c1A = generateUITree c1B ∧
        (generateUITree c1A).map generateCode = (generateUITree c1B).map generateCode) :=
  ⟨rfl, C1_determinism c1A c1B rfl⟩
